import Mathlib

/-!
# I2S hardware dependent module (hdm-i2s): channel engine and clock generator

A shallow embedding of `mld-1.6.0/hdm-i2s/i2s_hdm.c` and
`mld-1.5.0/hdm-i2s/i2s_clkgen.c`.

Conventions of the embedding.

* The device (`struct hdm_i2s`) is a value that every routine takes and
  returns; a routine with an `int` result returns the pair (result, device).
* The I2S register block behind `i2s_base` is a store from word offsets to
  32-bit values: `read_reg_i2s` returns the stored word, `write_reg_i2s`
  replaces it and is recorded, in program order, in `i2s_writes`.
* The receive data registers `REG_CBBARn + 8 * i`, which only the receive
  loop of `start_data_transfer` reads, are FIFOs: every read takes the next
  word off the stream the hardware received. They are scripted like the
  clock generator: the n-th read of the register at `reg` returns
  `rx_fifo reg n`, and `rx_reads reg` counts the reads made so far.
* The clock generator behind `clk_gen_base` is scripted: the n-th read of its
  register returns `cfg_script n`; its writes are recorded in `writes`.
* `mbo->complete(mbo)` appends the buffer, as it is at the call, to
  `completed`.
* `udelay` and the `pr_*` log calls have no effect on the data and are left
  out. The spinlock `i2s_lock` has none either: the data model leaves it out,
  and the lock operations of each routine are traced next to it (section
  "The lock `i2s_lock`").
-/

namespace I2S

/-! ## Constants -/

/-- Linux errno values used by the driver. -/
def EPERM : Int := 1
def EIO : Int := 5
def EAGAIN : Int := 11
def EFAULT : Int := 14
def ENODEV : Int := 19
def EINVAL : Int := 22
def ECHRNG : Int := 44
def ETIME : Int := 62

def DMA_CHANNELS_PER_PORT : Nat := 4
def DMA_CHANNELS : Nat := DMA_CHANNELS_PER_PORT * 2
def QUADLETS_THRESHOLD : Nat := 496
def FIFO_WIDTH : Nat := 4096
def MAX_BUFFERS_STREAMING : Nat := 32
def MAX_BUF_SIZE_STREAMING : Nat := QUADLETS_THRESHOLD * 4
/-- Number of buffers that have to be written before the channel is enabled. -/
def INITAL_WR_BEFORE_EN : Nat := FIFO_WIDTH / MAX_BUF_SIZE_STREAMING

/- i2s_hdm.h: register offsets (in 32-bit words) -/
def REG_DCCRA : Nat := 0x00
def REG_DCCRB : Nat := 0x01
def REG_DSCR : Nat := 0x02
def REG_CCRn : Nat := 0x08
def REG_BFTRn : Nat := 0x09
def REG_BETRn : Nat := 0x0A
def REG_CBBARn : Nat := 0x0B
def REG_NBBARn : Nat := 0x0D
def REG_NBEARn : Nat := 0x0E
def REG_CSRn : Nat := 0x0F

def UNDEFINED : Nat := 0xFFFFFFFF
def PORT_RST : Nat := 0x00010000
def PORT_EN : Nat := 0x00020000
def IO_MODE : Nat := 0x00000200
def CHANNEL_RESET : Nat := 0x01000000
def CHANNEL_EN : Nat := 0x00800000
def TX_INT_MASK : Nat := 0xFFFFFFD7
def RX_INT_MASK : Nat := 0xFFFFFFE7
def TX_INT_UNMASK : Nat := 0x00000020
def RX_INT_UNMASK : Nat := 0x00000010
def UNMASK_ALL : Nat := 0x000000FF
def RX_SERV_REQ_INT : Nat := 0x00000002
def TX_SERV_REQ_INT : Nat := 0x00000004
def FIFO_OVERFLOW_INT : Nat := 0x00000008
def FIFO_UNDERFLOW_INT : Nat := 0x00000010
def I2S_SEQ_SHIFT : Nat := 10
def I2S_LEFT_SHIFT : Nat := 10
def I2S_RIGHT_SHIFT : Nat := 16
def I2S_SEQ_MASK : Nat := 0x0001FC00
def I2S_LEFT_MASK : Nat := 0x0000FC00
def I2S_RIGHT_MASK : Nat := 0x003F0000

/- enum i2s_data_format -/
def I2S_DATA_UDEF : Nat := UNDEFINED
def I2S_DATA_SEQ : Nat := 0x1
def I2S_DATA_DEL_SEQ : Nat := 0x2
def I2S_DATA_DEL : Nat := 0x3
def I2S_DATA_LEFT_MONO : Nat := 0x4
def I2S_DATA_LEFT_STEREO : Nat := 0x5
def I2S_DATA_RIGHT_MONO : Nat := 0x6
def I2S_DATA_RIGHT_STEREO : Nat := 0x7

/- i2s_hdm.h: port configuration encodings -/
def I2S_REG_DATA_SEQ : Nat := 0x00001000
def I2S_REG_DATA_DEL : Nat := 0x00000800
def I2S_REG_DATA_DEL_SEQ : Nat := 0x00001800
def I2S_REG_DATA_LEFT : Nat := 0x00000400
def I2S_REG_DATA_RIGHT : Nat := 0x00000000
def I2S_REG_CLKMODE_MASTER : Nat := 0x00008000
def I2S_REG_CLKMODE_SLAVE : Nat := 0x00000000

/- enum i2s_clk_mode -/
def I2S_CLKMODE_UDEF : Nat := UNDEFINED
def I2S_CLKMODE_MASTER : Nat := I2S_REG_CLKMODE_MASTER
def I2S_CLKMODE_SLAVE : Nat := I2S_REG_CLKMODE_SLAVE

/- enum i2s_clk_speed -/
def I2S_CLK_UDEF : Nat := UNDEFINED
def I2S_CLK_8FS : Nat := 0x00000000
def I2S_CLK_16FS : Nat := 0x00040000
def I2S_CLK_32FS : Nat := 0x00080000
def I2S_CLK_64FS : Nat := 0x000C0000
def I2S_CLK_128FS : Nat := 0x00100000
def I2S_CLK_256FS : Nat := 0x00140000
def I2S_CLK_512FS : Nat := 0x00180000

/- enum i2s_clk_source (i2s_clkgen.h) -/
def PHY1_RMCK0 : Nat := 0x00000000
def PHY1_RMCK1 : Nat := 0x04000000
def PHY2_RMCK0 : Nat := 0x08000000
def PHY2_RMCK1 : Nat := 0x0C000000
def DBG_CLK : Nat := 0x10000000
def OSC1_CLK : Nat := 0x14000000
def OSC2_CLK : Nat := 0x18000000
def OSC3_CLK : Nat := 0x1C000000

/- i2s_clkgen.h -/
def REG_CFG : Nat := 0x00
def REG_DIV : Nat := 0x04
def RST_CLR : Nat := 0x00000000
def MMCM_RESET : Nat := 0x20000000
def MMCM_LOCKED : Nat := 0x40000000

/-- Direction flags of mostcore.h, a header that is not among the sources.
They are distinct bits: `i2s_probe` publishes `MOST_CH_RX | MOST_CH_TX` as
the direction mask of a channel. -/
def MOST_CH_RX : Nat := 1
def MOST_CH_TX : Nat := 2

/-- Data type flags of mostcore.h (not among the sources); the driver only
compares a configuration with `MOST_CH_SYNC`. -/
def MOST_CH_CONTROL : Nat := 1
def MOST_CH_ASYNC : Nat := 2
def MOST_CH_ISOC : Nat := 4
def MOST_CH_SYNC : Nat := 32

/-! ## Data model -/

/-- Status values of `enum mbo_status_flags` (mostcore.h). -/
inductive mbo_status_flags where
  | MBO_SUCCESS
  | MBO_E_INVAL
  | MBO_E_CLOSE
  deriving DecidableEq, Repr

export mbo_status_flags (MBO_SUCCESS MBO_E_INVAL MBO_E_CLOSE)

/-- The fields of `struct mbo` (mostcore.h) the driver touches. `id` stands
for the identity of the object (its address); `data` is the memory behind
`virt_address`, in 32-bit words. `buffer_length` and `processed_length` are
16-bit fields. -/
structure mbo where
  id : Nat
  virt_address : Nat
  bus_address : Nat
  buffer_length : Nat
  processed_length : Nat
  status : mbo_status_flags
  data : List Nat
  deriving DecidableEq, Repr

/-- The fields of `struct most_channel_config` (mostcore.h) the driver
reads. `buffer_size` and `subbuffer_size` are 16-bit fields. -/
structure most_channel_config where
  direction : Nat
  data_type : Nat
  buffer_size : Nat
  subbuffer_size : Nat
  deriving DecidableEq, Repr

/-- Private channel data, `struct i2s_channel`. `bytes_per_frame` and
`mbo_count` are `u8`. -/
structure i2s_channel where
  is_initialized : Bool
  is_enabled : Bool
  bytes_per_frame : Nat
  direction : Nat
  pending_list : List mbo
  ready : Bool
  fifo_overflow : Bool
  fifo_underflow : Bool
  mbo_count : Nat
  deriving DecidableEq, Repr

/-- Port settings, `struct i2s_port`; the enum fields hold their 32-bit
register encodings. -/
structure i2s_port where
  clk_mode : Nat
  clk_speed : Nat
  data_format : Nat
  is_enabled : Nat
  deriving DecidableEq, Repr

/-- The clock generator IP seen through `clk_gen_base`: the value each
successive register read returns, the number of reads made so far, and the
(offset, value) writes made so far. -/
structure clk_gen where
  cfg_script : Nat → Nat
  reads : Nat
  writes : List (Nat × Nat)

/-- Interface data, `struct hdm_i2s`, with the environment it acts on. -/
structure hdm_i2s where
  ch : Nat → i2s_channel
  port_a : i2s_port
  port_b : i2s_port
  i2s_base : Nat → Nat
  clk_gen_base : clk_gen
  clk_source : Nat
  is_enabled : Nat
  i2s_writes : List (Nat × Nat)
  completed : List mbo
  tasklet_scheduled : Bool
  rx_fifo : Nat → Nat → Nat
  rx_reads : Nat → Nat

/-! ## i2s_clkgen.c -/

def write_reg_clkgen (base_addr : clk_gen) (reg_offset value : Nat) : clk_gen :=
  { base_addr with writes := base_addr.writes ++ [(reg_offset, value % 2 ^ 32)] }

/-- Reads a clock generator register; the driver only ever reads `REG_CFG`,
so the script is indexed by the number of reads alone. -/
def read_reg_clkgen (base_addr : clk_gen) (_reg_offset : Nat) : Nat × clk_gen :=
  (base_addr.cfg_script base_addr.reads, { base_addr with reads := base_addr.reads + 1 })

/-- The `for (i = 0; i < 5; i++)` loop of `try_lock_clk_gen`, with `n` the
number of iterations left; `locking_successful` is `-ETIME` unless an
iteration breaks out with 0. -/
def try_lock_loop (clk_source : Nat) : Nat → clk_gen → Int × clk_gen
  | 0, g => (-ETIME, g)
  | n + 1, g =>
    let r := read_reg_clkgen g REG_CFG
    if MMCM_LOCKED &&& r.1 ≠ 0 then (0, r.2)
    else
      let g1 := write_reg_clkgen r.2 REG_CFG (MMCM_RESET ||| clk_source)
      let g2 := write_reg_clkgen g1 REG_CFG (RST_CLR ||| clk_source)
      try_lock_loop clk_source n g2

def try_lock_clk_gen (base_addr : clk_gen) (clk_source : Nat) : Int × clk_gen :=
  let g0 := write_reg_clkgen base_addr REG_DIV 0
  let g1 := write_reg_clkgen g0 REG_CFG clk_source
  let g2 := write_reg_clkgen g1 REG_CFG (MMCM_RESET ||| clk_source)
  let g3 := write_reg_clkgen g2 REG_CFG (RST_CLR ||| clk_source)
  try_lock_loop clk_source 5 g3

def check_if_clk_gen_locked (base_addr : clk_gen) (clk_source : Nat) : Int × clk_gen :=
  let r := read_reg_clkgen base_addr REG_CFG
  if MMCM_LOCKED &&& r.1 = 0 then
    let t := try_lock_clk_gen r.2 clk_source
    if t.1 ≠ 0 then (-ENODEV, t.2) else (0, t.2)
  else (0, r.2)

/-! ## i2s_hdm.c: register access and helpers -/

def write_reg_i2s (dev : hdm_i2s) (reg_offset value : Nat) : hdm_i2s :=
  { dev with
    i2s_base := Function.update dev.i2s_base reg_offset (value % 2 ^ 32)
    i2s_writes := dev.i2s_writes ++ [(reg_offset, value % 2 ^ 32)] }

def read_reg_i2s (dev : hdm_i2s) (reg_offset : Nat) : Nat :=
  dev.i2s_base reg_offset

def is_port_a (ch_idx : Nat) : Bool :=
  decide (ch_idx < DMA_CHANNELS_PER_PORT)

/-- Assignment through `struct i2s_channel *ch = dev->ch + ch_idx`. -/
def upd_ch (dev : hdm_i2s) (ch_idx : Nat) (f : i2s_channel → i2s_channel) : hdm_i2s :=
  { dev with ch := Function.update dev.ch ch_idx (f (dev.ch ch_idx)) }

/-- The call `mbo->complete(mbo)`. -/
def mbo_complete (dev : hdm_i2s) (m : mbo) : hdm_i2s :=
  { dev with completed := dev.completed ++ [m] }

/-- The 32-bit complement `~x`. -/
def not32 (x : Nat) : Nat := 0xFFFFFFFF ^^^ x

/-- The store `qptr[i] = v` into the buffer memory. -/
def set_word (d : List Nat) (i v : Nat) : List Nat :=
  if i < d.length then d.set i v else d ++ List.replicate (i - d.length) 0 ++ [v]

/-- The call `read_reg_i2s(dev, reg)` on a receive data register: the value
is the next word of the register's stream, and the read is counted. -/
def read_fifo_i2s (dev : hdm_i2s) (reg_offset : Nat) : Nat × hdm_i2s :=
  (dev.rx_fifo reg_offset (dev.rx_reads reg_offset),
   { dev with
     rx_reads := Function.update dev.rx_reads reg_offset (dev.rx_reads reg_offset + 1) })

/-- Receive loop of `start_data_transfer`: `qptr[i] = read_reg_i2s(dev, reg)`,
for i = 0 .. noofquadlet - 1 in this order; the result is the buffer memory
and the device after the reads. -/
def rx_copy (dev : hdm_i2s) (reg noofquadlet : Nat) (data : List Nat) : List Nat × hdm_i2s :=
  (List.range noofquadlet).foldl
    (fun (p : List Nat × hdm_i2s) i => (set_word p.1 i (read_fifo_i2s p.2 reg).1,
      (read_fifo_i2s p.2 reg).2))
    (data, dev)

/-- Transmit loop of `start_data_transfer`: `write_reg_i2s(dev, reg, qptr[i])`. -/
def tx_copy (dev : hdm_i2s) (reg noofquadlet : Nat) (data : List Nat) : hdm_i2s :=
  (List.range noofquadlet).foldl (fun d i => write_reg_i2s d reg (data.getD i 0)) dev

/-! ## i2s_hdm.c: the channel engine -/

def start_data_transfer (dev : hdm_i2s) (ch_idx : Nat) : Int × hdm_i2s :=
  let offset := ch_idx * 0x08
  match (dev.ch ch_idx).pending_list with
  | [] => (-EAGAIN, dev)
  | m :: rest =>
    let noofquadlet := m.buffer_length / 4
    let is_rx := decide ((dev.ch ch_idx).direction = MOST_CH_RX)
    let data1 :=
      if is_rx then (rx_copy dev (REG_CBBARn + offset) noofquadlet m.data).1 else m.data
    let dev1 :=
      if is_rx then (rx_copy dev (REG_CBBARn + offset) noofquadlet m.data).2
      else tx_copy dev (REG_NBBARn + offset) noofquadlet m.data
    let dev2 := upd_ch dev1 ch_idx (fun c => { c with pending_list := rest })
    let dev3 := mbo_complete dev2
      { m with data := data1, processed_length := m.buffer_length, status := MBO_SUCCESS }
    let dev4 := upd_ch dev3 ch_idx (fun c => { c with ready := false })
    if (dev4.ch ch_idx).direction = MOST_CH_TX then
      let dev5 := write_reg_i2s dev4 (REG_CSRn + offset) TX_SERV_REQ_INT
      (0, write_reg_i2s dev5 (REG_CCRn + offset)
            (read_reg_i2s dev5 (REG_CCRn + offset) &&& TX_INT_MASK))
    else
      let dev5 := write_reg_i2s dev4 (REG_CSRn + offset) RX_SERV_REQ_INT
      (0, write_reg_i2s dev5 (REG_CCRn + offset)
            (read_reg_i2s dev5 (REG_CCRn + offset) &&& RX_INT_MASK))

def get_byte_count_reg_val (dev : hdm_i2s) (ch_idx : Nat) : Nat :=
  let i2s_ch := dev.ch ch_idx
  let i2s_port := if is_port_a ch_idx then dev.port_a else dev.port_b
  if i2s_port.data_format = I2S_DATA_UDEF then 0x0
  else if i2s_port.data_format = I2S_DATA_LEFT_MONO then
    (i2s_ch.bytes_per_frame <<< I2S_LEFT_SHIFT) &&& I2S_LEFT_MASK
  else if i2s_port.data_format = I2S_DATA_RIGHT_MONO then
    (i2s_ch.bytes_per_frame <<< I2S_RIGHT_SHIFT) &&& I2S_RIGHT_MASK
  else if i2s_port.data_format = I2S_DATA_RIGHT_STEREO ∨
      i2s_port.data_format = I2S_DATA_LEFT_STEREO then
    (((i2s_ch.bytes_per_frame / 2) <<< I2S_LEFT_SHIFT) &&& I2S_LEFT_MASK) |||
      (((i2s_ch.bytes_per_frame / 2) <<< I2S_RIGHT_SHIFT) &&& I2S_RIGHT_MASK)
  else
    (i2s_ch.bytes_per_frame <<< I2S_SEQ_SHIFT) &&& I2S_SEQ_MASK

def init_i2s_channel (dev : hdm_i2s) (ch_idx : Nat) (is_tx : Bool) : hdm_i2s :=
  let offset := ch_idx * 0x08
  let data_dir := if is_tx then 0x400000 else 0
  let dev1 := write_reg_i2s dev (REG_CCRn + offset) CHANNEL_RESET
  let dev2 := write_reg_i2s dev1 (REG_CCRn + offset) 0
  let byte_count_reg_val := get_byte_count_reg_val dev2 ch_idx
  let dev3 := write_reg_i2s dev2 (REG_CCRn + offset)
    (data_dir ||| byte_count_reg_val ||| UNMASK_ALL)
  let temp := read_reg_i2s dev3 (REG_CCRn + offset)
  let dev4 :=
    if is_tx then write_reg_i2s dev3 (REG_CCRn + offset) (temp &&& TX_INT_MASK)
    else write_reg_i2s dev3 (REG_CCRn + offset) (temp &&& RX_INT_MASK)
  let dev5 := write_reg_i2s dev4 (REG_BFTRn + offset) QUADLETS_THRESHOLD
  write_reg_i2s dev5 (REG_BETRn + offset) QUADLETS_THRESHOLD

/-- One pass of the pre-fill loop of `enable_i2s_channel`. -/
def prefill_once (dev : hdm_i2s) (ch_idx : Nat) : hdm_i2s :=
  (start_data_transfer (upd_ch dev ch_idx (fun c => { c with ready := true })) ch_idx).2

def enable_i2s_channel (dev : hdm_i2s) (ch_idx : Nat) : hdm_i2s :=
  let offset := ch_idx * 0x08
  let dev1 :=
    if (dev.ch ch_idx).direction = MOST_CH_TX then
      (List.range INITAL_WR_BEFORE_EN).foldl (fun d _ => prefill_once d ch_idx) dev
    else dev
  let dev2 := write_reg_i2s dev1 (REG_CSRn + offset) 0x000000FF
  let dev3 :=
    if is_port_a ch_idx then
      write_reg_i2s dev2 REG_DCCRA (read_reg_i2s dev2 REG_DCCRA ||| (1 <<< ch_idx))
    else
      write_reg_i2s dev2 REG_DCCRB
        (read_reg_i2s dev2 REG_DCCRB ||| (1 <<< (ch_idx - DMA_CHANNELS_PER_PORT)))
  let dev4 := write_reg_i2s dev3 (REG_CCRn + offset)
    (read_reg_i2s dev3 (REG_CCRn + offset) ||| CHANNEL_EN)
  upd_ch dev4 ch_idx (fun c => { c with is_enabled := true })

def disable_i2s_channel (dev : hdm_i2s) (ch_idx : Nat) : hdm_i2s :=
  let offset := ch_idx * 0x08
  let dev1 := write_reg_i2s dev (REG_CCRn + offset + 0x07) 0x000000FF
  let dev2 :=
    if is_port_a ch_idx then
      write_reg_i2s dev1 REG_DCCRA (read_reg_i2s dev1 REG_DCCRA &&& not32 (1 <<< ch_idx))
    else
      write_reg_i2s dev1 REG_DCCRB
        (read_reg_i2s dev1 REG_DCCRB &&& not32 (1 <<< (ch_idx - DMA_CHANNELS_PER_PORT)))
  write_reg_i2s dev2 (REG_CCRn + offset)
    (read_reg_i2s dev2 (REG_CCRn + offset) &&& not32 CHANNEL_EN)

def i2s_tasklet_fn (dev : hdm_i2s) : hdm_i2s :=
  (List.range DMA_CHANNELS).foldl
    (fun d ch_idx => if (d.ch ch_idx).ready then (start_data_transfer d ch_idx).2 else d) dev

def service_ch_irq (dev : hdm_i2s) (ch_idx : Nat) : hdm_i2s :=
  let offset := ch_idx * 0x08
  let dccr := if is_port_a ch_idx then REG_DCCRA else REG_DCCRB
  let channel_status := read_reg_i2s dev (REG_CSRn + offset)
  let dev1 :=
    if channel_status &&& FIFO_OVERFLOW_INT ≠ 0 then
      let d1 := write_reg_i2s dev dccr 0x00000000
      let d2 := write_reg_i2s d1 (REG_CCRn + offset) 0x00000000
      let d3 := write_reg_i2s d2 (REG_CSRn + offset) FIFO_OVERFLOW_INT
      upd_ch d3 ch_idx (fun c => { c with ready := true })
    else dev
  let dev2 :=
    if channel_status &&& FIFO_UNDERFLOW_INT ≠ 0 then
      let d1 := write_reg_i2s dev1 dccr 0x00000000
      let d2 := write_reg_i2s d1 (REG_CCRn + offset) 0x00000000
      let d3 := write_reg_i2s d2 (REG_CSRn + offset) FIFO_UNDERFLOW_INT
      upd_ch d3 ch_idx (fun c => { c with fifo_underflow := true })
    else dev1
  let dev3 :=
    if channel_status &&& RX_SERV_REQ_INT ≠ 0 then
      let d1 := write_reg_i2s dev2 (REG_CCRn + offset)
        (read_reg_i2s dev2 (REG_CCRn + offset) ||| RX_INT_UNMASK)
      upd_ch d1 ch_idx (fun c => { c with ready := true })
    else dev2
  if channel_status &&& TX_SERV_REQ_INT ≠ 0 then
    let d1 := write_reg_i2s dev3 (REG_CCRn + offset)
      (read_reg_i2s dev3 (REG_CCRn + offset) ||| TX_INT_UNMASK)
    upd_ch d1 ch_idx (fun c => { c with ready := true })
  else dev3

def i2s_isr (dev : hdm_i2s) : hdm_i2s :=
  let interrupt_reg := read_reg_i2s dev REG_DSCR
  let dev1 := (List.range DMA_CHANNELS).foldl
    (fun d ch_idx => if interrupt_reg &&& (1 <<< ch_idx) ≠ 0 then service_ch_irq d ch_idx else d)
    dev
  { dev1 with tasklet_scheduled := true }

def configure_channel (dev : hdm_i2s) (ch_idx : Int) (channel_config : most_channel_config) :
    Int × hdm_i2s :=
  if ch_idx < 0 ∨ ch_idx ≥ DMA_CHANNELS then (-ECHRNG, dev)
  else if (dev.ch ch_idx.toNat).is_initialized then (-EPERM, dev)
  else if channel_config.data_type ≠ MOST_CH_SYNC then (-EPERM, dev)
  else if channel_config.buffer_size ≠ MAX_BUF_SIZE_STREAMING then (-EINVAL, dev)
  else
    let r := check_if_clk_gen_locked dev.clk_gen_base dev.clk_source
    let dev1 := { dev with clk_gen_base := r.2 }
    if r.1 < 0 then (-ENODEV, dev1)
    else
      let dev2 := upd_ch dev1 ch_idx.toNat (fun c =>
        { c with bytes_per_frame := channel_config.subbuffer_size % 256
                 direction := channel_config.direction })
      let dev3 := init_i2s_channel dev2 ch_idx.toNat
        (decide (channel_config.direction = MOST_CH_TX))
      (0, upd_ch dev3 ch_idx.toNat (fun c =>
        { c with is_initialized := true, is_enabled := false, mbo_count := 0 }))

def enqueue (dev : hdm_i2s) (ch_idx : Int) (m : mbo) : Int × hdm_i2s :=
  if ch_idx < 0 ∨ ch_idx ≥ DMA_CHANNELS then (-ECHRNG, dev)
  else if ¬ (dev.ch ch_idx.toNat).is_initialized then (-EPERM, dev)
  else if m.bus_address = 0 then (-EFAULT, dev)
  else if m.buffer_length &&& 0x3 ≠ 0 then (-EINVAL, dev)
  else
    let dev1 := upd_ch dev ch_idx.toNat (fun c => { c with pending_list := c.pending_list ++ [m] })
    if (dev1.ch ch_idx.toNat).is_enabled = false then
      let dev2 := upd_ch dev1 ch_idx.toNat (fun c => { c with mbo_count := (c.mbo_count + 1) % 256 })
      if (dev2.ch ch_idx.toNat).mbo_count ≥ INITAL_WR_BEFORE_EN then
        (0, enable_i2s_channel dev2 ch_idx.toNat)
      else (0, dev2)
    else (0, dev1)

/-- The `for (;;)` loop of `complete_all_mbos`; the first argument is the
list behind `head`, which is also the channel's pending list at every turn. -/
def complete_all_mbos_loop (ch_idx : Nat) : List mbo → hdm_i2s → hdm_i2s
  | [], dev => dev
  | m :: rest, dev =>
    let dev1 := upd_ch dev ch_idx (fun c => { c with pending_list := rest })
    complete_all_mbos_loop ch_idx rest
      (mbo_complete dev1 { m with processed_length := 0, status := MBO_E_CLOSE })

def complete_all_mbos (dev : hdm_i2s) (ch_idx : Nat) : hdm_i2s :=
  complete_all_mbos_loop ch_idx (dev.ch ch_idx).pending_list dev

def poison_channel (dev : hdm_i2s) (ch_idx : Int) : Int × hdm_i2s :=
  if ch_idx < 0 ∨ ch_idx ≥ DMA_CHANNELS then (-ECHRNG, dev)
  else if ¬ (dev.ch ch_idx.toNat).is_initialized then (-EPERM, dev)
  else
    let dev1 := disable_i2s_channel dev ch_idx.toNat
    let dev2 := upd_ch dev1 ch_idx.toNat (fun c => { c with is_initialized := false })
    (0, complete_all_mbos dev2 ch_idx.toNat)

/-- The part of `i2s_probe` that builds the interface data: `kzalloc` zero
fills it, every pending list is empty and no channel is initialised. The
register contents, the words the receive FIFOs will hand out and the clock
generator are what the hardware holds. -/
def i2s_probe (regs : Nat → Nat) (fifo : Nat → Nat → Nat) (clk : clk_gen) : hdm_i2s :=
  { ch := fun _ =>
      { is_initialized := false, is_enabled := false, bytes_per_frame := 0, direction := 0,
        pending_list := [], ready := false, fifo_overflow := false, fifo_underflow := false,
        mbo_count := 0 }
    port_a := { clk_mode := 0, clk_speed := 0, data_format := 0, is_enabled := 0 }
    port_b := { clk_mode := 0, clk_speed := 0, data_format := 0, is_enabled := 0 }
    i2s_base := regs
    clk_gen_base := clk
    clk_source := 0
    is_enabled := 0
    i2s_writes := []
    completed := []
    tasklet_scheduled := false
    rx_fifo := fifo
    rx_reads := fun _ => 0 }

/-! ## i2s_hdm.c: port programming -/

def get_i2s_dataformat_reg_val (format : Nat) : Nat :=
  if format = I2S_DATA_DEL then I2S_REG_DATA_DEL
  else if format = I2S_DATA_DEL_SEQ then I2S_REG_DATA_DEL_SEQ
  else if format = I2S_DATA_SEQ then I2S_REG_DATA_SEQ
  else if format = I2S_DATA_LEFT_MONO then I2S_REG_DATA_LEFT
  else if format = I2S_DATA_LEFT_STEREO then I2S_REG_DATA_LEFT
  else if format = I2S_DATA_RIGHT_MONO then I2S_REG_DATA_RIGHT
  else if format = I2S_DATA_RIGHT_STEREO then I2S_REG_DATA_RIGHT
  else UNDEFINED

/-- The block of `i2s_enable` for one port: `dccr` is the port's
configuration register, `r` carries `cfg_success` and the device. -/
def i2s_enable_port (port : i2s_port) (dccr : Nat) (r : Nat × hdm_i2s) : Nat × hdm_i2s :=
  if port.is_enabled ≠ 0 then
    let data_format_val := get_i2s_dataformat_reg_val port.data_format
    if data_format_val ≠ UNDEFINED ∧ port.clk_speed ≠ I2S_CLK_UDEF ∧
        port.clk_mode ≠ I2S_CLKMODE_UDEF then
      let d1 := write_reg_i2s r.2 dccr 0x00000000
      let d2 := write_reg_i2s d1 dccr PORT_RST
      let d3 := write_reg_i2s d2 dccr 0x00000000
      let d4 := write_reg_i2s d3 dccr PORT_EN
      (1, write_reg_i2s d4 dccr
        (PORT_EN ||| IO_MODE ||| port.clk_mode ||| port.clk_speed ||| data_format_val))
    else r
  else r

/-- The first statement of `i2s_enable`: the clock generator is locked when
an enabled port is clock master, and `result` is 0 otherwise. -/
def i2s_enable_lock (dev : hdm_i2s) : Int × clk_gen :=
  if (dev.port_a.is_enabled ≠ 0 ∧ dev.port_a.clk_mode = I2S_CLKMODE_MASTER) ∨
      (dev.port_b.is_enabled ≠ 0 ∧ dev.port_b.clk_mode = I2S_CLKMODE_MASTER) then
    try_lock_clk_gen dev.clk_gen_base dev.clk_source
  else (0, dev.clk_gen_base)

/-- The function `i2s_enable`; the read of `REG_DCCRA` that follows the
block of port A has no effect and is left out. -/
def i2s_enable (dev : hdm_i2s) : Int × hdm_i2s :=
  let result := i2s_enable_lock dev
  let dev0 := { dev with clk_gen_base := result.2 }
  if result.1 ≠ 0 then (result.1, dev0)
  else
    let ra := i2s_enable_port dev0.port_a REG_DCCRA (0, dev0)
    let rb := i2s_enable_port dev0.port_b REG_DCCRB ra
    if rb.1 ≠ 1 then (-ENODEV, rb.2) else (0, rb.2)

/-- The block of `i2s_disable` for one port. -/
def i2s_disable_port (port : i2s_port) (dccr : Nat) (dev : hdm_i2s) : hdm_i2s :=
  if port.is_enabled ≠ 0 then
    let d1 := write_reg_i2s dev dccr 0x00000000
    let d2 := write_reg_i2s d1 dccr PORT_RST
    write_reg_i2s d2 dccr 0x00000000
  else dev

def i2s_disable (dev : hdm_i2s) : hdm_i2s :=
  i2s_disable_port dev.port_b REG_DCCRB (i2s_disable_port dev.port_a REG_DCCRA dev)

/-! ## i2s_hdm.c: the sysfs store functions

`buf` is the C string the attribute is written with and `count` its length;
the result is the `ssize_t` the function returns. -/

def clock_source_store (dev : hdm_i2s) (buf : String) (count : Nat) : Int × hdm_i2s :=
  if buf = "phy1_rmck0\n" then (count, { dev with clk_source := PHY1_RMCK0 })
  else if buf = "phy1_rmck1\n" then (count, { dev with clk_source := PHY1_RMCK1 })
  else if buf = "phy2_rmck0\n" then (count, { dev with clk_source := PHY2_RMCK0 })
  else if buf = "phy2_rmck1\n" then (count, { dev with clk_source := PHY2_RMCK1 })
  else if buf = "dbg_clk\n" then (count, { dev with clk_source := DBG_CLK })
  else if buf = "osc1_clk\n" then (count, { dev with clk_source := OSC1_CLK })
  else if buf = "osc2_clk\n" then (count, { dev with clk_source := OSC2_CLK })
  else if buf = "osc3_clk\n" then (count, { dev with clk_source := OSC3_CLK })
  else (- EIO, dev)

/-- The body shared by `port_a_enable_store` and `port_b_enable_store`; the
result is the new port, or none for the `-EIO` branch. -/
def port_enable_parse (port : i2s_port) (buf : String) : Option i2s_port :=
  if buf = "1\n" then some { port with is_enabled := 1 }
  else if buf = "0\n" then some { port with is_enabled := 0 }
  else none

/-- The body shared by `port_a_clock_speed_store` and
`port_b_clock_speed_store`. -/
def port_clock_speed_parse (port : i2s_port) (buf : String) : i2s_port :=
  if buf = "8fs\n" then { port with clk_speed := I2S_CLK_8FS }
  else if buf = "16fs\n" then { port with clk_speed := I2S_CLK_16FS }
  else if buf = "32fs\n" then { port with clk_speed := I2S_CLK_32FS }
  else if buf = "64fs\n" then { port with clk_speed := I2S_CLK_64FS }
  else if buf = "128fs\n" then { port with clk_speed := I2S_CLK_128FS }
  else if buf = "256fs\n" then { port with clk_speed := I2S_CLK_256FS }
  else if buf = "512fs\n" then { port with clk_speed := I2S_CLK_512FS }
  else { port with clk_speed := I2S_CLK_UDEF }

/-- The body shared by `port_a_clock_mode_store` and
`port_b_clock_mode_store`. -/
def port_clock_mode_parse (port : i2s_port) (buf : String) : i2s_port :=
  if buf = "master\n" then { port with clk_mode := I2S_CLKMODE_MASTER }
  else if buf = "slave\n" then { port with clk_mode := I2S_CLKMODE_SLAVE }
  else { port with clk_mode := I2S_CLKMODE_UDEF }

/-- The body shared by `port_a_data_format_store` and
`port_b_data_format_store`. -/
def port_data_format_parse (port : i2s_port) (buf : String) : i2s_port :=
  if buf = "delayed\n" then { port with data_format := I2S_DATA_DEL }
  else if buf = "delayed_seq\n" then { port with data_format := I2S_DATA_DEL_SEQ }
  else if buf = "seq\n" then { port with data_format := I2S_DATA_SEQ }
  else if buf = "left_mono\n" then { port with data_format := I2S_DATA_LEFT_MONO }
  else if buf = "left_stereo\n" then { port with data_format := I2S_DATA_LEFT_STEREO }
  else if buf = "right_mono\n" then { port with data_format := I2S_DATA_RIGHT_MONO }
  else if buf = "right_stereo\n" then { port with data_format := I2S_DATA_RIGHT_STEREO }
  else { port with data_format := I2S_DATA_UDEF }

def port_a_enable_store (dev : hdm_i2s) (buf : String) (count : Nat) : Int × hdm_i2s :=
  match port_enable_parse dev.port_a buf with
  | some p => (count, { dev with port_a := p })
  | none => (- EIO, dev)

def port_a_clock_speed_store (dev : hdm_i2s) (buf : String) (count : Nat) : Int × hdm_i2s :=
  (count, { dev with port_a := port_clock_speed_parse dev.port_a buf })

def port_a_clock_mode_store (dev : hdm_i2s) (buf : String) (count : Nat) : Int × hdm_i2s :=
  (count, { dev with port_a := port_clock_mode_parse dev.port_a buf })

def port_a_data_format_store (dev : hdm_i2s) (buf : String) (count : Nat) : Int × hdm_i2s :=
  (count, { dev with port_a := port_data_format_parse dev.port_a buf })

def port_b_enable_store (dev : hdm_i2s) (buf : String) (count : Nat) : Int × hdm_i2s :=
  match port_enable_parse dev.port_b buf with
  | some p => (count, { dev with port_b := p })
  | none => (- EIO, dev)

def port_b_clock_speed_store (dev : hdm_i2s) (buf : String) (count : Nat) : Int × hdm_i2s :=
  (count, { dev with port_b := port_clock_speed_parse dev.port_b buf })

def port_b_clock_mode_store (dev : hdm_i2s) (buf : String) (count : Nat) : Int × hdm_i2s :=
  (count, { dev with port_b := port_clock_mode_parse dev.port_b buf })

def port_b_data_format_store (dev : hdm_i2s) (buf : String) (count : Nat) : Int × hdm_i2s :=
  (count, { dev with port_b := port_data_format_parse dev.port_b buf })

def bus_enable_store (dev : hdm_i2s) (buf : String) (count : Nat) : Int × hdm_i2s :=
  if buf = "1\n" ∧ dev.is_enabled = 0 then
    let r := i2s_enable dev
    if r.1 = 0 then (count, { r.2 with is_enabled := 1 }) else (count, r.2)
  else if buf = "0\n" ∧ dev.is_enabled = 1 then
    (count, { i2s_disable dev with is_enabled := 0 })
  else (count, dev)


/-- The texts each setter of the control surface recognises. -/
def clock_source_texts : List String :=
  ["phy1_rmck0\n", "phy1_rmck1\n", "phy2_rmck0\n", "phy2_rmck1\n", "dbg_clk\n", "osc1_clk\n",
   "osc2_clk\n", "osc3_clk\n"]
def enable_texts : List String := ["1\n", "0\n"]
def clock_speed_texts : List String :=
  ["8fs\n", "16fs\n", "32fs\n", "64fs\n", "128fs\n", "256fs\n", "512fs\n"]
def clock_mode_texts : List String := ["master\n", "slave\n"]
def data_format_texts : List String :=
  ["delayed\n", "delayed_seq\n", "seq\n", "left_mono\n", "left_stereo\n", "right_mono\n",
   "right_stereo\n"]


/-! ## i2s_hdm.c: the sysfs show functions

`buf` is the text the page holds when the function is called, and `strcat`
appends to it; the result is the `ssize_t` the function returns,
`strlen(buf) + 1`, with the text the page holds afterwards. -/

def clock_source_show (dev : hdm_i2s) (buf : String) : Int × String :=
  let buf1 :=
    if dev.clk_source = PHY1_RMCK0 then buf ++ "phy1_rmck0\n"
    else if dev.clk_source = PHY1_RMCK1 then buf ++ "phy1_rmck1\n"
    else if dev.clk_source = PHY2_RMCK0 then buf ++ "phy2_rmck0\n"
    else if dev.clk_source = PHY2_RMCK1 then buf ++ "phy2_rmck1\n"
    else if dev.clk_source = DBG_CLK then buf ++ "dbg_clk\n"
    else if dev.clk_source = OSC1_CLK then buf ++ "osc1_clk\n"
    else if dev.clk_source = OSC2_CLK then buf ++ "osc2_clk\n"
    else if dev.clk_source = OSC3_CLK then buf ++ "osc3_clk\n"
    else buf ++ "undefined\n"
  ((buf1.length : Int) + 1, buf1)

/-- The body shared by `port_a_enable_show` and `port_b_enable_show`. -/
def port_enable_render (port : i2s_port) (buf : String) : Int × String :=
  let buf1 := if port.is_enabled = 1 then buf ++ "enabled\n" else buf ++ "disabled\n"
  ((buf1.length : Int) + 1, buf1)

/-- The body shared by `port_a_clock_speed_show` and
`port_b_clock_speed_show`. -/
def port_clock_speed_render (port : i2s_port) (buf : String) : Int × String :=
  let buf1 :=
    if port.clk_speed = I2S_CLK_8FS then buf ++ "8fs\n"
    else if port.clk_speed = I2S_CLK_16FS then buf ++ "16fs\n"
    else if port.clk_speed = I2S_CLK_32FS then buf ++ "32fs\n"
    else if port.clk_speed = I2S_CLK_64FS then buf ++ "64fs\n"
    else if port.clk_speed = I2S_CLK_128FS then buf ++ "128fs\n"
    else if port.clk_speed = I2S_CLK_256FS then buf ++ "256fs\n"
    else if port.clk_speed = I2S_CLK_512FS then buf ++ "512fs\n"
    else buf ++ "undefined\n"
  ((buf1.length : Int) + 1, buf1)

/-- The body shared by `port_a_clock_mode_show` and
`port_b_clock_mode_show`. -/
def port_clock_mode_render (port : i2s_port) (buf : String) : Int × String :=
  let buf1 :=
    if port.clk_mode = I2S_CLKMODE_MASTER then buf ++ "master\n"
    else if port.clk_mode = I2S_CLKMODE_SLAVE then buf ++ "slave\n"
    else buf ++ "undefined\n"
  ((buf1.length : Int) + 1, buf1)

/-- The body shared by `port_a_data_format_show` and
`port_b_data_format_show`. -/
def port_data_format_render (port : i2s_port) (buf : String) : Int × String :=
  let buf1 :=
    if port.data_format = I2S_DATA_DEL then buf ++ "delayed\n"
    else if port.data_format = I2S_DATA_DEL_SEQ then buf ++ "delayed_seq\n"
    else if port.data_format = I2S_DATA_SEQ then buf ++ "seq\n"
    else if port.data_format = I2S_DATA_LEFT_MONO then buf ++ "left_mono\n"
    else if port.data_format = I2S_DATA_LEFT_STEREO then buf ++ "left_stereo\n"
    else if port.data_format = I2S_DATA_RIGHT_MONO then buf ++ "right_mono\n"
    else if port.data_format = I2S_DATA_RIGHT_STEREO then buf ++ "right_stereo\n"
    else buf ++ "undefined\n"
  ((buf1.length : Int) + 1, buf1)

def port_a_enable_show (dev : hdm_i2s) (buf : String) : Int × String :=
  port_enable_render dev.port_a buf

def port_a_clock_speed_show (dev : hdm_i2s) (buf : String) : Int × String :=
  port_clock_speed_render dev.port_a buf

def port_a_clock_mode_show (dev : hdm_i2s) (buf : String) : Int × String :=
  port_clock_mode_render dev.port_a buf

def port_a_data_format_show (dev : hdm_i2s) (buf : String) : Int × String :=
  port_data_format_render dev.port_a buf

def port_b_enable_show (dev : hdm_i2s) (buf : String) : Int × String :=
  port_enable_render dev.port_b buf

def port_b_clock_speed_show (dev : hdm_i2s) (buf : String) : Int × String :=
  port_clock_speed_render dev.port_b buf

def port_b_clock_mode_show (dev : hdm_i2s) (buf : String) : Int × String :=
  port_clock_mode_render dev.port_b buf

def port_b_data_format_show (dev : hdm_i2s) (buf : String) : Int × String :=
  port_data_format_render dev.port_b buf

def bus_enable_show (dev : hdm_i2s) (buf : String) : Int × String :=
  let buf1 := if dev.is_enabled = 1 then buf ++ "enabled\n" else buf ++ "disabled\n"
  ((buf1.length : Int) + 1, buf1)

/-- The text every show function renders a value outside its enumeration
with. -/
def undefined_text : String := "undefined\n"

/-! ## Runs of the engine -/

/-- What can happen to an attached device: a call of one of the three
interface functions, the interrupt handler, a run of the tasklet, or the
hardware changing the content of one of its registers. -/
inductive Step where
  | configure (ch_idx : Int) (cfg : most_channel_config)
  | enqueue (ch_idx : Int) (m : mbo)
  | poison (ch_idx : Int)
  | irq
  | tasklet
  | hw (reg_offset value : Nat)
  deriving DecidableEq

def step (dev : hdm_i2s) : Step → hdm_i2s
  | .configure ch_idx cfg => (configure_channel dev ch_idx cfg).2
  | .enqueue ch_idx m => (enqueue dev ch_idx m).2
  | .poison ch_idx => (poison_channel dev ch_idx).2
  | .irq => i2s_isr dev
  | .tasklet => i2s_tasklet_fn { dev with tasklet_scheduled := false }
  | .hw reg_offset value =>
    { dev with i2s_base := Function.update dev.i2s_base reg_offset (value % 2 ^ 32) }

def run (dev : hdm_i2s) (steps : List Step) : hdm_i2s :=
  steps.foldl step dev


/-! ## Buffer ownership along a run -/

/-- How often the buffer with identity `id` sits in the pending queues of the
8 channels: the engine owns the buffer when this is not 0. -/
def pend_count (d : hdm_i2s) (id : Nat) : Nat :=
  ((List.range DMA_CHANNELS).map
    (fun c => ((d.ch c).pending_list.map (fun m => m.id)).count id)).sum

/-- How often the completion callback was called on the buffer `id`. -/
def comp_count (d : hdm_i2s) (id : Nat) : Nat :=
  (d.completed.map (fun m => m.id)).count id

/-- The identities of the buffers `enqueue` accepted (returned 0 for) along
the run of `steps` from `d`, in order. -/
def accepted (d : hdm_i2s) : List Step → List Nat
  | [] => []
  | .enqueue ch_idx m :: rest =>
    (if (enqueue d ch_idx m).1 = 0 then [m.id] else []) ++
      accepted (step d (.enqueue ch_idx m)) rest
  | st :: rest => accepted (step d st) rest

/-- No step of the run hands `enqueue` a buffer the engine owns at that
moment. -/
def fresh (d : hdm_i2s) : List Step → Bool
  | [] => true
  | .enqueue ch_idx m :: rest =>
    decide (pend_count d m.id = 0) && fresh (step d (.enqueue ch_idx m)) rest
  | st :: rest => fresh (step d st) rest

/-- A transition that only moves buffers from the heads of pending queues to
the completion callback, with success status, and keeps every channel's
`is_initialized`. -/
def Quiet (d e : hdm_i2s) : Prop :=
  (∀ j, (e.ch j).is_initialized = (d.ch j).is_initialized ∧
    ∃ k, (d.ch j).pending_list = k ++ (e.ch j).pending_list) ∧
  (∀ id, pend_count e id + comp_count e id = pend_count d id + comp_count d id) ∧
  (∃ new, e.completed = d.completed ++ new ∧ ∀ m ∈ new, m.status = MBO_SUCCESS)

/-- What holds of the device after any run from attach, `acc` being the
buffers accepted so far: an uninitialised channel has nothing pending, every
acceptance of a buffer is matched by one pending entry or one completion, no
buffer is pending twice, and every completion carries the success or the
closed status. -/
def Inv (d : hdm_i2s) (acc : List Nat) : Prop :=
  (∀ j, (d.ch j).is_initialized = false → (d.ch j).pending_list = []) ∧
  (∀ id, pend_count d id + comp_count d id = acc.count id) ∧
  (∀ id, pend_count d id ≤ 1) ∧
  (∀ m ∈ d.completed, m.status = MBO_SUCCESS ∨ m.status = MBO_E_CLOSE)


/-! ## The registers of one channel -/

/-- What `offset` belongs to the register block of channel `i`:
`REG_CCRn + 8 * i` up to `REG_CSRn + 8 * i`. -/
def in_window (i offset : Nat) : Bool :=
  decide (REG_CCRn + 8 * i ≤ offset ∧ offset ≤ REG_CSRn + 8 * i)

/-- The writes made so far to the registers of channel `i`, in order. -/
def chan_writes (d : hdm_i2s) (i : Nat) : List (Nat × Nat) :=
  d.i2s_writes.filter (fun w => in_window i w.1)

/-- A transition that leaves channel `i` alone: its data and registers are
as before, nothing was written to its registers, the buffers completed
meanwhile come from the queues of other channels, and every queue only lost
buffers from its head. -/
def Foreign (i : Nat) (d e : hdm_i2s) : Prop :=
  e.ch i = d.ch i ∧
  (∀ o, in_window i o = true → e.i2s_base o = d.i2s_base o) ∧
  (∃ ws, e.i2s_writes = d.i2s_writes ++ ws ∧ ∀ w ∈ ws, in_window i w.1 = false) ∧
  (∃ cs, e.completed = d.completed ++ cs ∧
    ∀ x ∈ cs, ∃ j, j ≠ i ∧ ∃ m ∈ (d.ch j).pending_list, x.id = m.id) ∧
  (∀ j, ∃ k, (d.ch j).pending_list = k ++ (e.ch j).pending_list)


/-- The four `if` blocks of `service_ch_irq`, in source order;
`channel_status` is the status word read on entry and `dccr` the port
register of the channel. -/
def irq_overflow (channel_status dccr ch_idx : Nat) (dev : hdm_i2s) : hdm_i2s :=
  if channel_status &&& FIFO_OVERFLOW_INT ≠ 0 then
    upd_ch
      (write_reg_i2s
        (write_reg_i2s (write_reg_i2s dev dccr 0x00000000) (REG_CCRn + ch_idx * 0x08) 0x00000000)
        (REG_CSRn + ch_idx * 0x08) FIFO_OVERFLOW_INT)
      ch_idx (fun c => { c with ready := true })
  else dev

def irq_underflow (channel_status dccr ch_idx : Nat) (dev : hdm_i2s) : hdm_i2s :=
  if channel_status &&& FIFO_UNDERFLOW_INT ≠ 0 then
    upd_ch
      (write_reg_i2s
        (write_reg_i2s (write_reg_i2s dev dccr 0x00000000) (REG_CCRn + ch_idx * 0x08) 0x00000000)
        (REG_CSRn + ch_idx * 0x08) FIFO_UNDERFLOW_INT)
      ch_idx (fun c => { c with fifo_underflow := true })
  else dev

def irq_rx_request (channel_status ch_idx : Nat) (dev : hdm_i2s) : hdm_i2s :=
  if channel_status &&& RX_SERV_REQ_INT ≠ 0 then
    upd_ch
      (write_reg_i2s dev (REG_CCRn + ch_idx * 0x08)
        (read_reg_i2s dev (REG_CCRn + ch_idx * 0x08) ||| RX_INT_UNMASK))
      ch_idx (fun c => { c with ready := true })
  else dev

def irq_tx_request (channel_status ch_idx : Nat) (dev : hdm_i2s) : hdm_i2s :=
  if channel_status &&& TX_SERV_REQ_INT ≠ 0 then
    upd_ch
      (write_reg_i2s dev (REG_CCRn + ch_idx * 0x08)
        (read_reg_i2s dev (REG_CCRn + ch_idx * 0x08) ||| TX_INT_UNMASK))
      ch_idx (fun c => { c with ready := true })
  else dev


/-- A transition of the interrupt handler for channel `j`: it writes only
registers that `allowed` admits, changes no other register, no other
channel, no pending queue and no completion, and clears no ready flag. -/
def Touches (allowed : Nat → Prop) (j : Nat) (d e : hdm_i2s) : Prop :=
  (∃ ws, e.i2s_writes = d.i2s_writes ++ ws ∧ ∀ w ∈ ws, allowed w.1) ∧
  (∀ o, ¬ allowed o → e.i2s_base o = d.i2s_base o) ∧
  (∀ k, k ≠ j → e.ch k = d.ch k) ∧
  (∀ k, (e.ch k).pending_list = (d.ch k).pending_list) ∧
  e.completed = d.completed ∧
  (∀ k, (d.ch k).ready = true → (e.ch k).ready = true)

/-- The registers `service_ch_irq` may write for channel `j`. -/
def irq_regs (j o : Nat) : Prop :=
  o = REG_DCCRA ∨ o = REG_DCCRB ∨ o = REG_CCRn + j * 8 ∨ o = REG_CSRn + j * 8


/-! ## The clock generator and the pre-fill counter along several calls -/

/-- Calls of `check_if_clk_gen_locked` in a row, `n` of them: the results,
oldest first, and the clock generator afterwards. -/
def check_repeatedly (clk_source : Nat) : Nat → clk_gen → List Int × clk_gen
  | 0, g => ([], g)
  | n + 1, g =>
    let r := check_if_clk_gen_locked g clk_source
    let rest := check_repeatedly clk_source n r.2
    (r.1 :: rest.1, rest.2)

/-- The two writes of one reset pulse of `try_lock_clk_gen`, as they are
recorded: `MMCM_RESET | clk_source`, then `RST_CLR | clk_source`, to
`REG_CFG`. -/
def reset_pulse (clk_source : Nat) : List (Nat × Nat) :=
  [(REG_CFG, (MMCM_RESET ||| clk_source) % 2 ^ 32), (REG_CFG, (RST_CLR ||| clk_source) % 2 ^ 32)]

/-- What the pre-fill counter obeys in every state reached from attach: the
counter of every channel is at most `INITAL_WR_BEFORE_EN`, and below it
while the channel is not enabled. -/
def CountInv (d : hdm_i2s) : Prop :=
  ∀ j, (d.ch j).mbo_count ≤ INITAL_WR_BEFORE_EN ∧
    ((d.ch j).is_enabled = false → (d.ch j).mbo_count < INITAL_WR_BEFORE_EN)

/-! ## The lock `i2s_lock`

The data model above leaves the spinlock out. Here the statements that
matter to it are traced instead: every routine gets, next to its effect on
the device, the sequence of lock operations and of assignments to the fields
the lock protects that it performs on that device, in program order. -/

/-- What the lock discipline observes: `spin_lock_irqsave(&i2s_lock, flags)`,
`spin_unlock_irqrestore(&i2s_lock, flags)`, a change of the pending list of a
channel (`list_add_tail`, `list_del`), an assignment to its `ready` flag, and
an assignment to one of its fault flags. -/
inductive LockEvent where
  | acquire
  | release
  | queue (ch_idx : Nat)
  | ready (ch_idx : Nat)
  | fault (ch_idx : Nat)
  deriving DecidableEq, Repr

/-- The events of `start_data_transfer`: the lock is taken on entry and
released before either return; in between, when the list is not empty, come
`list_del(head->next)` and `ch->ready = false`. -/
def start_data_transfer_events (dev : hdm_i2s) (ch_idx : Nat) : List LockEvent :=
  match (dev.ch ch_idx).pending_list with
  | [] => [.acquire, .release]
  | _ :: _ => [.acquire, .queue ch_idx, .ready ch_idx, .release]

/-- The events of `enable_i2s_channel`: each pass of the pre-fill loop takes
the lock around `dev->ch[ch_idx].ready = true` and then calls
`start_data_transfer`; the register writes and `is_enabled = true` that
follow touch no protected field. -/
def enable_i2s_channel_events (dev : hdm_i2s) (ch_idx : Nat) : List LockEvent :=
  if (dev.ch ch_idx).direction = MOST_CH_TX then
    ((List.range INITAL_WR_BEFORE_EN).foldl
      (fun (p : hdm_i2s × List LockEvent) _ =>
        (prefill_once p.1 ch_idx,
         p.2 ++ [.acquire, .ready ch_idx, .release] ++
           start_data_transfer_events (upd_ch p.1 ch_idx (fun c => { c with ready := true }))
             ch_idx))
      (dev, [])).2
  else []

/-- The events of `i2s_tasklet_fn`: those of `start_data_transfer` for every
channel found ready, in channel order. -/
def i2s_tasklet_fn_events (dev : hdm_i2s) : List LockEvent :=
  ((List.range DMA_CHANNELS).foldl
    (fun (p : hdm_i2s × List LockEvent) ch_idx =>
      if (p.1.ch ch_idx).ready then
        ((start_data_transfer p.1 ch_idx).2, p.2 ++ start_data_transfer_events p.1 ch_idx)
      else p)
    (dev, [])).2

/-- The events of `service_ch_irq`: each of the four blocks writes its
registers and then takes the lock around its one assignment, `ready = true`
for the overflow, Rx and Tx blocks and `fifo_underflow = true` for the
underflow block. -/
def service_ch_irq_events (dev : hdm_i2s) (ch_idx : Nat) : List LockEvent :=
  let channel_status := read_reg_i2s dev (REG_CSRn + ch_idx * 0x08)
  (if channel_status &&& FIFO_OVERFLOW_INT ≠ 0 then [.acquire, .ready ch_idx, .release]
    else []) ++
  (if channel_status &&& FIFO_UNDERFLOW_INT ≠ 0 then [.acquire, .fault ch_idx, .release]
    else []) ++
  (if channel_status &&& RX_SERV_REQ_INT ≠ 0 then [.acquire, .ready ch_idx, .release]
    else []) ++
  (if channel_status &&& TX_SERV_REQ_INT ≠ 0 then [.acquire, .ready ch_idx, .release]
    else [])

/-- The events of `i2s_isr`: those of `service_ch_irq` for every channel
whose bit is set in `REG_DSCR`, in channel order. -/
def i2s_isr_events (dev : hdm_i2s) : List LockEvent :=
  let interrupt_reg := read_reg_i2s dev REG_DSCR
  ((List.range DMA_CHANNELS).foldl
    (fun (p : hdm_i2s × List LockEvent) ch_idx =>
      if interrupt_reg &&& (1 <<< ch_idx) ≠ 0 then
        (service_ch_irq p.1 ch_idx, p.2 ++ service_ch_irq_events p.1 ch_idx)
      else p)
    (dev, [])).2

/-- The events of `enqueue`: none when an argument check fails; otherwise
the lock around `list_add_tail`, followed, when the counter reaches the
threshold, by the events of `enable_i2s_channel`. -/
def enqueue_events (dev : hdm_i2s) (ch_idx : Int) (m : mbo) : List LockEvent :=
  if ch_idx < 0 ∨ ch_idx ≥ DMA_CHANNELS then []
  else if ¬ (dev.ch ch_idx.toNat).is_initialized then []
  else if m.bus_address = 0 then []
  else if m.buffer_length &&& 0x3 ≠ 0 then []
  else
    let dev1 := upd_ch dev ch_idx.toNat (fun c => { c with pending_list := c.pending_list ++ [m] })
    [.acquire, .queue ch_idx.toNat, .release] ++
      (if (dev1.ch ch_idx.toNat).is_enabled = false then
        let dev2 := upd_ch dev1 ch_idx.toNat
          (fun c => { c with mbo_count := (c.mbo_count + 1) % 256 })
        if (dev2.ch ch_idx.toNat).mbo_count ≥ INITAL_WR_BEFORE_EN then
          enable_i2s_channel_events dev2 ch_idx.toNat
        else []
      else [])

/-- The events of the `for (;;)` loop of `complete_all_mbos` on a list of
the given buffers: every turn takes the lock, and releases it after
`list_del` or, on the empty list, before the `break`. -/
def complete_all_mbos_events (ch_idx : Nat) : List mbo → List LockEvent
  | [] => [.acquire, .release]
  | _ :: rest => [.acquire, .queue ch_idx, .release] ++ complete_all_mbos_events ch_idx rest

/-- The events of `poison_channel`: none when a check fails; otherwise the
lock around `disable_i2s_channel` and `is_initialized = false`, then the
events of `complete_all_mbos`. -/
def poison_channel_events (dev : hdm_i2s) (ch_idx : Int) : List LockEvent :=
  if ch_idx < 0 ∨ ch_idx ≥ DMA_CHANNELS then []
  else if ¬ (dev.ch ch_idx.toNat).is_initialized then []
  else
    [.acquire, .release] ++
      complete_all_mbos_events ch_idx.toNat (dev.ch ch_idx.toNat).pending_list

/-- The lock discipline on a sequence of events, `held` telling whether the
context holds the lock at its start: the lock is taken only when not held and
released only when held, every assignment to a protected field happens while
it is held, and it is not held at the end. -/
def disciplined : Bool → List LockEvent → Bool
  | held, [] => !held
  | held, .acquire :: rest => !held && disciplined true rest
  | held, .release :: rest => held && disciplined false rest
  | held, _ :: rest => held && disciplined held rest

/-- How many assignments to protected fields a sequence of events holds. -/
def mutations (l : List LockEvent) : Nat :=
  (l.filter (fun e => decide (e ≠ .acquire ∧ e ≠ .release))).length

/-- The events account for the transition from `d` to `e`: whenever the
pending list, the ready flag or a fault flag of a channel differs between
the two, the sequence holds an event of that kind for that channel. -/
def Accounts (d e : hdm_i2s) (ev : List LockEvent) : Prop :=
  ∀ j, ((e.ch j).pending_list ≠ (d.ch j).pending_list → LockEvent.queue j ∈ ev) ∧
    ((e.ch j).ready ≠ (d.ch j).ready → LockEvent.ready j ∈ ev) ∧
    ((e.ch j).fifo_overflow ≠ (d.ch j).fifo_overflow ∨
      (e.ch j).fifo_underflow ≠ (d.ch j).fifo_underflow → LockEvent.fault j ∈ ev)

/-! ## Sample inputs -/

/-- A freshly attached device whose registers read 0 and whose clock
generator reports the lock bit on every read. -/
def dev_locked : hdm_i2s := i2s_probe (fun _ => 0) (fun _ n => n) ⟨fun _ => MMCM_LOCKED, 0, []⟩

/-- A freshly attached device whose clock generator never locks. -/
def dev_unlocked : hdm_i2s := i2s_probe (fun _ => 0) (fun _ n => n) ⟨fun _ => 0, 0, []⟩

/-- A streaming configuration with 4 bytes per frame. -/
def cfg_sync (direction : Nat) : most_channel_config :=
  ⟨direction, MOST_CH_SYNC, 1984, 4⟩

/-- A two-word buffer with identity `n`. -/
def buf (n : Nat) : mbo := ⟨n, 4096, 4096, 8, 0, MBO_E_INVAL, [n, n + 100]⟩

/-- The sample device after channel 0 was configured for transmission. -/
def dev_tx0 : hdm_i2s := (configure_channel dev_locked 0 (cfg_sync MOST_CH_TX)).2

/-- The sample device after channel 0 was configured for reception. -/
def dev_rx0 : hdm_i2s := (configure_channel dev_locked 0 (cfg_sync MOST_CH_RX)).2


/-- A device that never locks, with port A enabled as clock master, its
data format set and its clock speed written with an unknown text. -/
def dev_port_a_udef : hdm_i2s :=
  (port_a_clock_speed_store
    (port_a_data_format_store
      (port_a_clock_mode_store (port_a_enable_store dev_unlocked "1\n" 2).2 "master\n" 7).2
      "seq\n" 4).2
    "fast\n" 5).2

/-- A locked device with port B enabled as clock slave at 64 FS, left
justified stereo. -/
def dev_port_b_ok : hdm_i2s :=
  (port_b_clock_speed_store
    (port_b_data_format_store
      (port_b_clock_mode_store (port_b_enable_store dev_locked "1\n" 2).2 "slave\n" 6).2
      "left_stereo\n" 12).2
    "64fs\n" 5).2

/-- The transmit channel 0 after three buffers were queued (two of them
pre-filled, which enabled the channel) and a Tx service request interrupt
was taken: the channel is ready and holds the third buffer. -/
def dev_ready0 : hdm_i2s :=
  run dev_tx0 [.enqueue 0 (buf 1), .enqueue 0 (buf 2), .enqueue 0 (buf 3), .hw REG_DSCR 1,
    .hw REG_CSRn TX_SERV_REQ_INT, .irq]

/-- The receive channel 0 after a Rx service request interrupt was taken
with no buffer queued, and the transmit channel 1 ready with one buffer. -/
def dev_ready_empty0 : hdm_i2s :=
  run dev_rx0 [.configure 1 (cfg_sync MOST_CH_TX), .enqueue 1 (buf 5), .hw REG_DSCR 3,
    .hw REG_CSRn RX_SERV_REQ_INT, .hw (REG_CSRn + 8) TX_SERV_REQ_INT, .irq]

/-- The enabled transmit channel 0 with the overflow bit raised in its
status register and its bit raised in `REG_DSCR`. -/
def dev_overflow0 : hdm_i2s :=
  run dev_tx0 [.enqueue 0 (buf 1), .enqueue 0 (buf 2), .hw REG_DSCR 1,
    .hw REG_CSRn FIFO_OVERFLOW_INT]

/-- The enabled transmit channel 0 holding the third sample buffer, with a Tx
service request raised in its status register and its bit raised in
`REG_DSCR`: the state right before the interrupt is taken. -/
def dev_request0 : hdm_i2s :=
  run dev_tx0 [.enqueue 0 (buf 1), .enqueue 0 (buf 2), .enqueue 0 (buf 3), .hw REG_DSCR 1,
    .hw REG_CSRn TX_SERV_REQ_INT]

/-- The receive channel 0 with both a Rx service request and the overflow bit
raised in its status register and its bit raised in `REG_DSCR`. -/
def dev_rx_fault0 : hdm_i2s :=
  run dev_rx0 [.hw REG_DSCR 1, .hw REG_CSRn (RX_SERV_REQ_INT ||| FIFO_OVERFLOW_INT)]

/-- The transmit channels 0 and 1, both enabled by two queued buffers each,
with the overflow bit raised in the status register of channel 0 and its bit
raised in `REG_DSCR`. -/
def dev_two_enabled : hdm_i2s :=
  run dev_tx0 [.configure 1 (cfg_sync MOST_CH_TX), .enqueue 0 (buf 1), .enqueue 0 (buf 2),
    .enqueue 1 (buf 3), .enqueue 1 (buf 4), .hw REG_DSCR 1, .hw REG_CSRn FIFO_OVERFLOW_INT]

/-- The sample device after channel 0 was configured for reception, given a
buffer, poisoned and configured again, for transmission. -/
def dev_tx0_again : hdm_i2s :=
  (configure_channel (run (i2s_probe (fun _ => 0) (fun _ n => n) ⟨fun _ => MMCM_LOCKED, 0, []⟩)
    [.configure 0 (cfg_sync MOST_CH_RX), .enqueue 0 (buf 7), .poison 0]) 0
    (cfg_sync MOST_CH_TX)).2

/-- A freshly attached device on which port A was enabled and nothing else
was set: clock mode, clock speed and data format of the port are the zeros
of `kzalloc`. -/
def dev_port_a_fresh : hdm_i2s := (port_a_enable_store dev_locked "1\n" 2).2

/-- The device with port B fully set after the bus was enabled. -/
def dev_bus_on : hdm_i2s := (bus_enable_store dev_port_b_ok "1\n" 2).2

/-- The receive channel 0 after two buffers were queued, the first of them
was filled by a tasklet run that followed a Rx service request interrupt,
and a second Rx service request interrupt was taken: the channel is ready,
holds the second buffer, and two words were read from its FIFO so far. -/
def dev_rx_ready0 : hdm_i2s :=
  run dev_rx0 [.enqueue 0 (buf 1), .enqueue 0 (buf 3), .hw REG_DSCR 1,
    .hw REG_CSRn RX_SERV_REQ_INT, .irq, .tasklet, .hw REG_DSCR 1,
    .hw REG_CSRn RX_SERV_REQ_INT, .irq]

/-! # Theorems -/

/-! ## Clock generator: bounded relock -/

theorem try_lock_loop_spec (src n : Nat) (g : clk_gen) :
    (try_lock_loop src n g).2.cfg_script = g.cfg_script ∧
    (try_lock_loop src n g).2.reads ≤ g.reads + n ∧
    (∀ k, 1 ≤ k → k ≤ n →
      (∀ j, j + 1 < k → MMCM_LOCKED &&& g.cfg_script (g.reads + j) = 0) →
      MMCM_LOCKED &&& g.cfg_script (g.reads + (k - 1)) ≠ 0 →
      (try_lock_loop src n g).1 = 0 ∧ (try_lock_loop src n g).2.reads = g.reads + k) ∧
    ((∀ j, j < n → MMCM_LOCKED &&& g.cfg_script (g.reads + j) = 0) →
      (try_lock_loop src n g).1 = -ETIME ∧ (try_lock_loop src n g).2.reads = g.reads + n) := by
  induction n generalizing g with
  | zero =>
    refine ⟨rfl, by simp [try_lock_loop], ?_, ?_⟩
    · intro k h1 h2; omega
    · intro _; simp [try_lock_loop]
  | succ n ih =>
    by_cases hl : MMCM_LOCKED &&& g.cfg_script g.reads = 0
    · have hstep : try_lock_loop src (n + 1) g =
          try_lock_loop src n
            (write_reg_clkgen (write_reg_clkgen (read_reg_clkgen g REG_CFG).2 REG_CFG
              (MMCM_RESET ||| src)) REG_CFG (RST_CLR ||| src)) := by
        simp [try_lock_loop, read_reg_clkgen, hl]
      obtain ⟨ih1, ih2, ih3, ih4⟩ := ih
        (write_reg_clkgen (write_reg_clkgen (read_reg_clkgen g REG_CFG).2 REG_CFG
          (MMCM_RESET ||| src)) REG_CFG (RST_CLR ||| src))
      rw [hstep]
      simp only [write_reg_clkgen, read_reg_clkgen] at ih1 ih2 ih3 ih4 ⊢
      refine ⟨ih1, by omega, ?_, ?_⟩
      · intro k h1 h2 hun hlk
        have hk : k ≠ 1 := by
          rintro rfl
          exact hlk (by simpa using hl)
        have := ih3 (k - 1) (by omega) (by omega)
          (fun j hj => by
            have := hun (j + 1) (by omega)
            rwa [show g.reads + 1 + j = g.reads + (j + 1) by omega])
          (by rwa [show g.reads + 1 + (k - 1 - 1) = g.reads + (k - 1) by omega])
        refine ⟨this.1, ?_⟩
        rw [this.2]; omega
      · intro hun
        have := ih4 (fun j hj => by
          have := hun (j + 1) (by omega)
          rwa [show g.reads + 1 + j = g.reads + (j + 1) by omega])
        refine ⟨this.1, ?_⟩
        rw [this.2]; omega
    · have hstep : try_lock_loop src (n + 1) g = (0, (read_reg_clkgen g REG_CFG).2) := by
        simp [try_lock_loop, read_reg_clkgen, hl]
      rw [hstep]
      simp only [read_reg_clkgen]
      refine ⟨trivial, by omega, ?_, ?_⟩
      · intro k h1 h2 hun _
        have hk : k = 1 := by
          by_contra hne
          exact hl (by simpa using hun 0 (by omega))
        subst hk
        exact ⟨trivial, rfl⟩
      · intro hun
        exact absurd (by simpa using hun 0 (by omega)) hl

theorem try_lock_clk_gen_spec (g : clk_gen) (src : Nat) :
    (try_lock_clk_gen g src).2.reads ≤ g.reads + 5 ∧
    (∀ k, 1 ≤ k → k ≤ 5 →
      (∀ j, j + 1 < k → MMCM_LOCKED &&& g.cfg_script (g.reads + j) = 0) →
      MMCM_LOCKED &&& g.cfg_script (g.reads + (k - 1)) ≠ 0 →
      (try_lock_clk_gen g src).1 = 0 ∧ (try_lock_clk_gen g src).2.reads = g.reads + k) ∧
    ((∀ j, j < 5 → MMCM_LOCKED &&& g.cfg_script (g.reads + j) = 0) →
      (try_lock_clk_gen g src).1 ≠ 0 ∧ (try_lock_clk_gen g src).2.reads = g.reads + 5) := by
  obtain ⟨_, h2, h3, h4⟩ := try_lock_loop_spec src 5
    (write_reg_clkgen (write_reg_clkgen (write_reg_clkgen (write_reg_clkgen g REG_DIV 0)
      REG_CFG src) REG_CFG (MMCM_RESET ||| src)) REG_CFG (RST_CLR ||| src))
  simp only [write_reg_clkgen] at h2 h3 h4
  refine ⟨h2, h3, fun hun => ?_⟩
  have := h4 hun
  refine ⟨?_, this.2⟩
  simp only [try_lock_clk_gen, write_reg_clkgen]
  rw [this.1]
  decide

/-- C9: `try_lock_clk_gen` reads the lock status at most 5 times; when the
first read that shows the lock bit is the k-th, 1 ≤ k ≤ 5, it returns 0 after
exactly k reads; when none of the first 5 reads shows it, it returns a
non-zero failure after exactly 5 reads. -/
theorem try_lock_clk_gen_bounded (g : clk_gen) (src : Nat) :
    (try_lock_clk_gen g src).2.reads ≤ g.reads + 5 ∧
    (∀ k, 1 ≤ k → k ≤ 5 →
      (∀ j, j + 1 < k → MMCM_LOCKED &&& g.cfg_script (g.reads + j) = 0) →
      MMCM_LOCKED &&& g.cfg_script (g.reads + (k - 1)) ≠ 0 →
      (try_lock_clk_gen g src).1 = 0 ∧ (try_lock_clk_gen g src).2.reads = g.reads + k) ∧
    ((∀ j, j < 5 → MMCM_LOCKED &&& g.cfg_script (g.reads + j) = 0) →
      (try_lock_clk_gen g src).1 ≠ 0 ∧ (try_lock_clk_gen g src).2.reads = g.reads + 5) :=
  try_lock_clk_gen_spec g src

/-- C9 at a script that locks on the third read. -/
theorem try_lock_clk_gen_bounded_witness :
    (try_lock_clk_gen ⟨fun n => if n = 2 then MMCM_LOCKED else 0, 0, []⟩ 0).1 = 0 ∧
    (try_lock_clk_gen ⟨fun n => if n = 2 then MMCM_LOCKED else 0, 0, []⟩ 0).2.reads = 0 + 3 :=
  (try_lock_clk_gen_bounded ⟨fun n => if n = 2 then MMCM_LOCKED else 0, 0, []⟩ 0).2.1 3
    (by decide) (by decide)
    (fun j hj => by
      have hj2 : j ≠ 2 := by omega
      simp [hj2])
    (by decide)

/-! ## Field lemmas for the state primitives -/

@[simp] theorem write_reg_i2s_ch (d : hdm_i2s) (o v : Nat) : (write_reg_i2s d o v).ch = d.ch := rfl
@[simp] theorem write_reg_i2s_completed (d : hdm_i2s) (o v : Nat) :
    (write_reg_i2s d o v).completed = d.completed := rfl
@[simp] theorem write_reg_i2s_port_a (d : hdm_i2s) (o v : Nat) :
    (write_reg_i2s d o v).port_a = d.port_a := rfl
@[simp] theorem write_reg_i2s_port_b (d : hdm_i2s) (o v : Nat) :
    (write_reg_i2s d o v).port_b = d.port_b := rfl
@[simp] theorem write_reg_i2s_clk (d : hdm_i2s) (o v : Nat) :
    (write_reg_i2s d o v).clk_gen_base = d.clk_gen_base := rfl
@[simp] theorem write_reg_i2s_base (d : hdm_i2s) (o v : Nat) :
    (write_reg_i2s d o v).i2s_base = Function.update d.i2s_base o (v % 2 ^ 32) := rfl
@[simp] theorem write_reg_i2s_writes (d : hdm_i2s) (o v : Nat) :
    (write_reg_i2s d o v).i2s_writes = d.i2s_writes ++ [(o, v % 2 ^ 32)] := rfl

@[simp] theorem upd_ch_ch (d : hdm_i2s) (i : Nat) (f : i2s_channel → i2s_channel) :
    (upd_ch d i f).ch = Function.update d.ch i (f (d.ch i)) := rfl
@[simp] theorem upd_ch_completed (d : hdm_i2s) (i : Nat) (f : i2s_channel → i2s_channel) :
    (upd_ch d i f).completed = d.completed := rfl
@[simp] theorem upd_ch_port_a (d : hdm_i2s) (i : Nat) (f : i2s_channel → i2s_channel) :
    (upd_ch d i f).port_a = d.port_a := rfl
@[simp] theorem upd_ch_port_b (d : hdm_i2s) (i : Nat) (f : i2s_channel → i2s_channel) :
    (upd_ch d i f).port_b = d.port_b := rfl
@[simp] theorem upd_ch_base (d : hdm_i2s) (i : Nat) (f : i2s_channel → i2s_channel) :
    (upd_ch d i f).i2s_base = d.i2s_base := rfl
@[simp] theorem upd_ch_writes (d : hdm_i2s) (i : Nat) (f : i2s_channel → i2s_channel) :
    (upd_ch d i f).i2s_writes = d.i2s_writes := rfl

@[simp] theorem mbo_complete_ch (d : hdm_i2s) (m : mbo) : (mbo_complete d m).ch = d.ch := rfl
@[simp] theorem mbo_complete_completed (d : hdm_i2s) (m : mbo) :
    (mbo_complete d m).completed = d.completed ++ [m] := rfl
@[simp] theorem mbo_complete_base (d : hdm_i2s) (m : mbo) :
    (mbo_complete d m).i2s_base = d.i2s_base := rfl
@[simp] theorem mbo_complete_writes (d : hdm_i2s) (m : mbo) :
    (mbo_complete d m).i2s_writes = d.i2s_writes := rfl

@[simp] theorem write_reg_i2s_rx_fifo (d : hdm_i2s) (o v : Nat) :
    (write_reg_i2s d o v).rx_fifo = d.rx_fifo := rfl
@[simp] theorem write_reg_i2s_rx_reads (d : hdm_i2s) (o v : Nat) :
    (write_reg_i2s d o v).rx_reads = d.rx_reads := rfl
@[simp] theorem upd_ch_rx_fifo (d : hdm_i2s) (i : Nat) (f : i2s_channel → i2s_channel) :
    (upd_ch d i f).rx_fifo = d.rx_fifo := rfl
@[simp] theorem upd_ch_rx_reads (d : hdm_i2s) (i : Nat) (f : i2s_channel → i2s_channel) :
    (upd_ch d i f).rx_reads = d.rx_reads := rfl
@[simp] theorem mbo_complete_rx_fifo (d : hdm_i2s) (m : mbo) :
    (mbo_complete d m).rx_fifo = d.rx_fifo := rfl
@[simp] theorem mbo_complete_rx_reads (d : hdm_i2s) (m : mbo) :
    (mbo_complete d m).rx_reads = d.rx_reads := rfl

theorem in_range_guard (ch_idx : Int) (h0 : 0 ≤ ch_idx) (h8 : ch_idx < 8) :
    ¬ (ch_idx < 0 ∨ ch_idx ≥ (DMA_CHANNELS : Nat)) := by
  simp only [DMA_CHANNELS, DMA_CHANNELS_PER_PORT]
  push_cast
  omega

/-! ## Argument checks of the interface functions -/

/-- C1: for a channel index below 0 or at least 8, `configure_channel`,
`enqueue` and `poison_channel` each return `-ECHRNG` and hand back the device
exactly as it was. -/
theorem out_of_range_rejected (dev : hdm_i2s) (ch_idx : Int) (cfg : most_channel_config)
    (m : mbo) (h : ch_idx < 0 ∨ ch_idx ≥ 8) :
    configure_channel dev ch_idx cfg = (-ECHRNG, dev) ∧
    enqueue dev ch_idx m = (-ECHRNG, dev) ∧
    poison_channel dev ch_idx = (-ECHRNG, dev) := by
  have hg : ch_idx < 0 ∨ ch_idx ≥ (DMA_CHANNELS : Nat) := by
    simp only [DMA_CHANNELS, DMA_CHANNELS_PER_PORT]
    push_cast
    omega
  simp [configure_channel, enqueue, poison_channel, hg]

/-- C1 at channel index 8 of a freshly attached device. -/
theorem out_of_range_rejected_witness :
    configure_channel (i2s_probe (fun _ => 0) (fun _ n => n) ⟨fun _ => 0, 0, []⟩) 8 ⟨MOST_CH_TX, MOST_CH_SYNC, 1984, 4⟩
      = (-ECHRNG, i2s_probe (fun _ => 0) (fun _ n => n) ⟨fun _ => 0, 0, []⟩) ∧
    enqueue (i2s_probe (fun _ => 0) (fun _ n => n) ⟨fun _ => 0, 0, []⟩) 8 ⟨1, 4096, 4096, 1984, 0, MBO_SUCCESS, []⟩
      = (-ECHRNG, i2s_probe (fun _ => 0) (fun _ n => n) ⟨fun _ => 0, 0, []⟩) ∧
    poison_channel (i2s_probe (fun _ => 0) (fun _ n => n) ⟨fun _ => 0, 0, []⟩) 8
      = (-ECHRNG, i2s_probe (fun _ => 0) (fun _ n => n) ⟨fun _ => 0, 0, []⟩) :=
  out_of_range_rejected _ 8 _ _ (by decide)

/-- C5: on an in-range initialised channel, a buffer whose bus address is not
null and whose length is not a multiple of 4 is refused with `-EINVAL`, and
the device (pending queue, pre-fill counter and enabled flag included) is
handed back as it was. -/
theorem enqueue_misaligned_rejected (dev : hdm_i2s) (ch_idx : Int) (m : mbo)
    (h0 : 0 ≤ ch_idx) (h8 : ch_idx < 8)
    (hi : (dev.ch ch_idx.toNat).is_initialized = true)
    (hb : m.bus_address ≠ 0) (hl : m.buffer_length % 4 ≠ 0) :
    enqueue dev ch_idx m = (-EINVAL, dev) := by
  have hand : m.buffer_length &&& 3 = m.buffer_length % 4 :=
    Nat.and_pow_two_sub_one_eq_mod m.buffer_length 2
  simp [enqueue, in_range_guard ch_idx h0 h8, hi, hb, hand, hl]

/-- C5 at a 6-byte buffer on the configured channel 0. -/
theorem enqueue_misaligned_rejected_witness :
    enqueue dev_tx0 0 { buf 1 with buffer_length := 6 } = (-EINVAL, dev_tx0) :=
  enqueue_misaligned_rejected dev_tx0 0 { buf 1 with buffer_length := 6 }
    (by decide) (by decide) (by decide) (by decide) (by decide)

/-- C6 as stated fails: a configuration with a data type other than the
synchronous one is refused with `-EPERM`, the code of the state error, not
with `-EINVAL`. -/
theorem configure_bad_data_type_is_eperm :
    (dev_locked.ch 0).is_initialized = false ∧
    (cfg_sync MOST_CH_TX).buffer_size = 1984 ∧
    MOST_CH_ASYNC ≠ MOST_CH_SYNC ∧
    (configure_channel dev_locked 0 { cfg_sync MOST_CH_TX with data_type := MOST_CH_ASYNC }).1
      = -EPERM ∧
    (configure_channel dev_locked 0 { cfg_sync MOST_CH_TX with data_type := MOST_CH_ASYNC }).1
      ≠ -EINVAL := by
  decide

/-- C6 amended: on an in-range uninitialised channel, `configure_channel`
returns `-EPERM` when the data type is not the synchronous one, and
`-EINVAL` when the data type is the synchronous one and the buffer size is
not 1984; in both cases the device is handed back as it was, so the channel
stays uninitialised. -/
theorem configure_bad_config_rejected (dev : hdm_i2s) (ch_idx : Int)
    (cfg : most_channel_config) (h0 : 0 ≤ ch_idx) (h8 : ch_idx < 8)
    (hu : (dev.ch ch_idx.toNat).is_initialized = false) :
    (cfg.data_type ≠ MOST_CH_SYNC → configure_channel dev ch_idx cfg = (-EPERM, dev)) ∧
    (cfg.data_type = MOST_CH_SYNC → cfg.buffer_size ≠ 1984 →
      configure_channel dev ch_idx cfg = (-EINVAL, dev)) ∧
    MAX_BUF_SIZE_STREAMING = 496 * 4 ∧ EINVAL ≠ EPERM := by
  refine ⟨fun ht => ?_, fun ht hb => ?_, by decide, by decide⟩
  · simp [configure_channel, in_range_guard ch_idx h0 h8, hu, ht]
  · have hb2 : ¬ cfg.buffer_size = MAX_BUF_SIZE_STREAMING := by
      simpa [MAX_BUF_SIZE_STREAMING, QUADLETS_THRESHOLD] using hb
    simp [configure_channel, in_range_guard ch_idx h0 h8, hu, ht, hb2]

/-- C6 amended, at channel 0 of a freshly attached device with a buffer
size of 1000. -/
theorem configure_bad_config_rejected_witness :
    configure_channel dev_locked 0 { cfg_sync MOST_CH_TX with buffer_size := 1000 }
      = (-EINVAL, dev_locked) :=
  (configure_bad_config_rejected dev_locked 0 { cfg_sync MOST_CH_TX with buffer_size := 1000 }
    (by decide) (by decide) (by decide)).2.1 (by decide) (by decide)

/-! ## Clock lock as seen by `configure_channel` -/

theorem try_lock_loop_ok (src n : Nat) (g : clk_gen)
    (h : ∃ j, j < n ∧ MMCM_LOCKED &&& g.cfg_script (g.reads + j) ≠ 0) :
    (try_lock_loop src n g).1 = 0 := by
  induction n generalizing g with
  | zero => obtain ⟨j, hj, _⟩ := h; omega
  | succ n ih =>
    by_cases hl : MMCM_LOCKED &&& g.cfg_script g.reads = 0
    · simp only [try_lock_loop, read_reg_clkgen, hl, ne_eq, not_true_eq_false, if_false]
      apply ih
      obtain ⟨j, hj, hlk⟩ := h
      have hj0 : j ≠ 0 := by
        rintro rfl
        exact hlk (by simpa using hl)
      refine ⟨j - 1, by omega, ?_⟩
      simp only [write_reg_clkgen]
      rwa [show g.reads + 1 + (j - 1) = g.reads + j by omega]
    · simp [try_lock_loop, read_reg_clkgen, hl]

theorem check_if_clk_gen_locked_ok (g : clk_gen) (src : Nat)
    (h : ∃ j, j < 6 ∧ MMCM_LOCKED &&& g.cfg_script (g.reads + j) ≠ 0) :
    (check_if_clk_gen_locked g src).1 = 0 := by
  by_cases hl : MMCM_LOCKED &&& g.cfg_script g.reads = 0
  · have ht : (try_lock_clk_gen (read_reg_clkgen g REG_CFG).2 src).1 = 0 := by
      apply try_lock_loop_ok
      obtain ⟨j, hj, hlk⟩ := h
      have hj0 : j ≠ 0 := by
        rintro rfl
        exact hlk (by simpa using hl)
      refine ⟨j - 1, by omega, ?_⟩
      simp only [write_reg_clkgen, read_reg_clkgen]
      rwa [show g.reads + 1 + (j - 1) = g.reads + j by omega]
    simp [check_if_clk_gen_locked, read_reg_clkgen, hl, ht] at ht ⊢
  · simp [check_if_clk_gen_locked, read_reg_clkgen, hl]

theorem check_if_clk_gen_locked_fail (g : clk_gen) (src : Nat)
    (hun : ∀ j, j < 6 → MMCM_LOCKED &&& g.cfg_script (g.reads + j) = 0) :
    (check_if_clk_gen_locked g src).1 = -ENODEV := by
  have hl : MMCM_LOCKED &&& g.cfg_script g.reads = 0 := by simpa using hun 0 (by omega)
  have ht := (try_lock_clk_gen_spec (read_reg_clkgen g REG_CFG).2 src).2.2 (by
    intro j hj
    simp only [read_reg_clkgen]
    have := hun (j + 1) (by omega)
    rwa [show g.reads + 1 + j = g.reads + (j + 1) by omega])
  simp only [check_if_clk_gen_locked, read_reg_clkgen, hl, if_true] at ht ⊢
  simp [read_reg_clkgen, ht.1]

/-! ## `configure_channel` -/

theorem configure_channel_ok_eq (dev : hdm_i2s) (ch_idx : Int) (cfg : most_channel_config)
    (h0 : 0 ≤ ch_idx) (h8 : ch_idx < 8)
    (hu : (dev.ch ch_idx.toNat).is_initialized = false)
    (ht : cfg.data_type = MOST_CH_SYNC) (hb : cfg.buffer_size = 1984)
    (hc : (check_if_clk_gen_locked dev.clk_gen_base dev.clk_source).1 = 0) :
    configure_channel dev ch_idx cfg =
      (0, upd_ch
        (init_i2s_channel
          (upd_ch { dev with clk_gen_base :=
              (check_if_clk_gen_locked dev.clk_gen_base dev.clk_source).2 } ch_idx.toNat
            (fun c => { c with bytes_per_frame := cfg.subbuffer_size % 256
                               direction := cfg.direction }))
          ch_idx.toNat (decide (cfg.direction = MOST_CH_TX)))
        ch_idx.toNat
        (fun c => { c with is_initialized := true, is_enabled := false, mbo_count := 0 })) := by
  have hb2 : cfg.buffer_size = MAX_BUF_SIZE_STREAMING := by
    simpa [MAX_BUF_SIZE_STREAMING, QUADLETS_THRESHOLD] using hb
  simp [configure_channel, in_range_guard ch_idx h0 h8, hu, ht, hb2, hc]

theorem init_i2s_channel_ch (d : hdm_i2s) (i : Nat) (b : Bool) :
    (init_i2s_channel d i b).ch = d.ch := by
  cases b <;> simp [init_i2s_channel]

theorem init_i2s_channel_thresholds (d : hdm_i2s) (i : Nat) (b : Bool) :
    (init_i2s_channel d i b).i2s_base (REG_BFTRn + 8 * i) = 496 ∧
    (init_i2s_channel d i b).i2s_base (REG_BETRn + 8 * i) = 496 := by
  simp [init_i2s_channel, Function.update_apply, REG_BFTRn, REG_BETRn, QUADLETS_THRESHOLD,
    Nat.mul_comm]


/-- C7 as stated fails: `bytes_per_frame` is a `u8`, so a successful
configuration with `subbuffer_size` 256 leaves 0 in it, not 256. -/
theorem configure_truncates_subbuffer_size :
    (dev_locked.ch 0).is_initialized = false ∧
    (configure_channel dev_locked 0 ⟨MOST_CH_TX, MOST_CH_SYNC, 1984, 256⟩).1 = 0 ∧
    ((configure_channel dev_locked 0 ⟨MOST_CH_TX, MOST_CH_SYNC, 1984, 256⟩).2.ch 0).bytes_per_frame
      = 0 ∧
    ((configure_channel dev_locked 0 ⟨MOST_CH_TX, MOST_CH_SYNC, 1984, 256⟩).2.ch 0).bytes_per_frame
      ≠ (⟨MOST_CH_TX, MOST_CH_SYNC, 1984, 256⟩ : most_channel_config).subbuffer_size := by
  decide

/-- C7 amended: on an in-range uninitialised channel, with the synchronous
data type and buffer size 1984 and a clock generator that shows the lock bit
on the first read or on one of the 5 polls of the relock attempt,
`configure_channel` returns 0; afterwards the channel is initialised and not
enabled, `bytes_per_frame` holds the low 8 bits of `subbuffer_size` (so
`subbuffer_size` itself when that is at most 255), the direction is the
configured one, the pre-fill counter is 0, and `REG_BFTRn` and `REG_BETRn` of
the channel hold 496. -/
theorem configure_channel_success (dev : hdm_i2s) (ch_idx : Int) (cfg : most_channel_config)
    (h0 : 0 ≤ ch_idx) (h8 : ch_idx < 8)
    (hu : (dev.ch ch_idx.toNat).is_initialized = false)
    (ht : cfg.data_type = MOST_CH_SYNC) (hb : cfg.buffer_size = 1984)
    (hl : ∃ j, j < 6 ∧ MMCM_LOCKED &&&
      dev.clk_gen_base.cfg_script (dev.clk_gen_base.reads + j) ≠ 0) :
    (configure_channel dev ch_idx cfg).1 = 0 ∧
    ((configure_channel dev ch_idx cfg).2.ch ch_idx.toNat).is_initialized = true ∧
    ((configure_channel dev ch_idx cfg).2.ch ch_idx.toNat).is_enabled = false ∧
    ((configure_channel dev ch_idx cfg).2.ch ch_idx.toNat).bytes_per_frame
      = cfg.subbuffer_size % 256 ∧
    ((configure_channel dev ch_idx cfg).2.ch ch_idx.toNat).direction = cfg.direction ∧
    ((configure_channel dev ch_idx cfg).2.ch ch_idx.toNat).mbo_count = 0 ∧
    (configure_channel dev ch_idx cfg).2.i2s_base (REG_BFTRn + 8 * ch_idx.toNat) = 496 ∧
    (configure_channel dev ch_idx cfg).2.i2s_base (REG_BETRn + 8 * ch_idx.toNat) = 496 := by
  rw [configure_channel_ok_eq dev ch_idx cfg h0 h8 hu ht hb
    (check_if_clk_gen_locked_ok _ _ hl)]
  have hth := init_i2s_channel_thresholds
  simp [init_i2s_channel_ch, hth]

/-- C7 amended, at channel 0 of the sample device. -/
theorem configure_channel_success_witness :
    (configure_channel dev_locked 0 (cfg_sync MOST_CH_TX)).1 = 0 ∧
    ((configure_channel dev_locked 0 (cfg_sync MOST_CH_TX)).2.ch 0).is_initialized = true ∧
    ((configure_channel dev_locked 0 (cfg_sync MOST_CH_TX)).2.ch 0).bytes_per_frame = 4 ∧
    (configure_channel dev_locked 0 (cfg_sync MOST_CH_TX)).2.i2s_base 9 = 496 :=
  have h := configure_channel_success dev_locked 0 (cfg_sync MOST_CH_TX)
    (by decide) (by decide) (by decide) (by decide) (by decide) ⟨0, by decide, by decide⟩
  ⟨h.1, h.2.1, h.2.2.2.1, h.2.2.2.2.2.2.1⟩

/-- C8: on an in-range uninitialised channel, with the synchronous data type
and buffer size 1984, when the clock generator shows no lock bit on the
initial read and on the 5 polls of the relock attempt, `configure_channel`
returns `-ENODEV`; every channel (so the state, `bytes_per_frame`, direction
and pre-fill counter of this one) and every I2S register is as before, and no
I2S register was written. -/
theorem configure_channel_no_lock (dev : hdm_i2s) (ch_idx : Int) (cfg : most_channel_config)
    (h0 : 0 ≤ ch_idx) (h8 : ch_idx < 8)
    (hu : (dev.ch ch_idx.toNat).is_initialized = false)
    (ht : cfg.data_type = MOST_CH_SYNC) (hb : cfg.buffer_size = 1984)
    (hun : ∀ j, j < 6 → MMCM_LOCKED &&&
      dev.clk_gen_base.cfg_script (dev.clk_gen_base.reads + j) = 0) :
    (configure_channel dev ch_idx cfg).1 = -ENODEV ∧
    ((configure_channel dev ch_idx cfg).2.ch ch_idx.toNat).is_initialized = false ∧
    (configure_channel dev ch_idx cfg).2.ch = dev.ch ∧
    (configure_channel dev ch_idx cfg).2.i2s_base = dev.i2s_base ∧
    (configure_channel dev ch_idx cfg).2.i2s_writes = dev.i2s_writes := by
  have hb2 : cfg.buffer_size = MAX_BUF_SIZE_STREAMING := by
    simpa [MAX_BUF_SIZE_STREAMING, QUADLETS_THRESHOLD] using hb
  have hc := check_if_clk_gen_locked_fail dev.clk_gen_base dev.clk_source hun
  have hneg : (-ENODEV : Int) < 0 := by decide
  simp [configure_channel, in_range_guard ch_idx h0 h8, hu, ht, hb2, hc, hneg]

/-- C8 at channel 0 of a device whose clock generator never locks. -/
theorem configure_channel_no_lock_witness :
    (configure_channel dev_unlocked 0 (cfg_sync MOST_CH_RX)).1 = -ENODEV ∧
    ((configure_channel dev_unlocked 0 (cfg_sync MOST_CH_RX)).2.ch 0).is_initialized = false ∧
    (configure_channel dev_unlocked 0 (cfg_sync MOST_CH_RX)).2.ch = dev_unlocked.ch ∧
    (configure_channel dev_unlocked 0 (cfg_sync MOST_CH_RX)).2.i2s_base = dev_unlocked.i2s_base ∧
    (configure_channel dev_unlocked 0 (cfg_sync MOST_CH_RX)).2.i2s_writes
      = dev_unlocked.i2s_writes :=
  configure_channel_no_lock dev_unlocked 0 (cfg_sync MOST_CH_RX)
    (by decide) (by decide) (by decide) (by decide) (by decide)
    (fun _ _ => by simp [dev_unlocked, i2s_probe])

/-! ## Transfers -/

theorem set_word_append (l data : List Nat) (n v : Nat) (hl : l.length = n) :
    set_word (l ++ data.drop n) n v = l ++ [v] ++ data.drop (n + 1) := by
  by_cases hn : n < data.length
  · have hlen : n < (l ++ data.drop n).length := by simp [hl]; omega
    have hd : data.drop n = data[n] :: data.drop (n + 1) := (List.drop_eq_getElem_cons hn)
    simp only [set_word, hlen, if_true]
    rw [hd, List.set_append_right _ _ (by omega)]
    simp only [hl, Nat.sub_self, List.set_cons_zero, List.append_assoc, List.singleton_append]
  · have hd : data.drop n = [] := List.drop_eq_nil_of_le (by omega)
    have hd2 : data.drop (n + 1) = [] := List.drop_eq_nil_of_le (by omega)
    simp [set_word, hd, hd2, hl]

theorem rx_copy_spec (d : hdm_i2s) (reg n : Nat) (data : List Nat) :
    rx_copy d reg n data =
      ((List.range n).map (fun k => d.rx_fifo reg (d.rx_reads reg + k)) ++ data.drop n,
       { d with rx_reads := Function.update d.rx_reads reg (d.rx_reads reg + n) }) := by
  induction n with
  | zero => simp [rx_copy]
  | succ n ih =>
    have hstep : rx_copy d reg (n + 1) data =
        (set_word (rx_copy d reg n data).1 n (read_fifo_i2s (rx_copy d reg n data).2 reg).1,
         (read_fifo_i2s (rx_copy d reg n data).2 reg).2) := by
      simp [rx_copy, List.range_succ, List.foldl_append]
    rw [hstep, ih]
    simp only [read_fifo_i2s, Function.update_same, Function.update_idem]
    rw [set_word_append _ data n _ (by simp)]
    simp [List.range_succ, Nat.add_assoc]

@[simp] theorem rx_copy_ch (d : hdm_i2s) (reg n : Nat) (data : List Nat) :
    (rx_copy d reg n data).2.ch = d.ch := by rw [rx_copy_spec]
@[simp] theorem rx_copy_completed (d : hdm_i2s) (reg n : Nat) (data : List Nat) :
    (rx_copy d reg n data).2.completed = d.completed := by rw [rx_copy_spec]
@[simp] theorem rx_copy_base (d : hdm_i2s) (reg n : Nat) (data : List Nat) :
    (rx_copy d reg n data).2.i2s_base = d.i2s_base := by rw [rx_copy_spec]
@[simp] theorem rx_copy_writes (d : hdm_i2s) (reg n : Nat) (data : List Nat) :
    (rx_copy d reg n data).2.i2s_writes = d.i2s_writes := by rw [rx_copy_spec]

theorem rx_copy_fst_congr (d e : hdm_i2s) (reg n : Nat) (data : List Nat)
    (h1 : e.rx_fifo = d.rx_fifo) (h2 : e.rx_reads reg = d.rx_reads reg) :
    (rx_copy e reg n data).1 = (rx_copy d reg n data).1 := by
  rw [rx_copy_spec, rx_copy_spec, h1, h2]

theorem foldl_write_ch (reg : Nat) (f : Nat → Nat) (l : List Nat) (d : hdm_i2s) :
    (l.foldl (fun d i => write_reg_i2s d reg (f i)) d).ch = d.ch ∧
    (l.foldl (fun d i => write_reg_i2s d reg (f i)) d).completed = d.completed := by
  induction l generalizing d with
  | nil => exact ⟨rfl, rfl⟩
  | cons a l ih =>
    simp only [List.foldl]
    exact ⟨(ih _).1, (ih _).2⟩

theorem tx_copy_ch (d : hdm_i2s) (reg n : Nat) (data : List Nat) :
    (tx_copy d reg n data).ch = d.ch :=
  (foldl_write_ch reg (fun i => data.getD i 0) (List.range n) d).1

theorem tx_copy_completed (d : hdm_i2s) (reg n : Nat) (data : List Nat) :
    (tx_copy d reg n data).completed = d.completed :=
  (foldl_write_ch reg (fun i => data.getD i 0) (List.range n) d).2

theorem start_data_transfer_nil (d : hdm_i2s) (i : Nat) (h : (d.ch i).pending_list = []) :
    start_data_transfer d i = (-EAGAIN, d) := by
  simp [start_data_transfer, h]

theorem start_data_transfer_cons (d : hdm_i2s) (i : Nat) (m : mbo) (rest : List mbo)
    (h : (d.ch i).pending_list = m :: rest) :
    (start_data_transfer d i).1 = 0 ∧
    (start_data_transfer d i).2.ch =
      Function.update d.ch i { d.ch i with pending_list := rest, ready := false } ∧
    (start_data_transfer d i).2.completed = d.completed ++
      [{ m with
          data := if (d.ch i).direction = MOST_CH_RX then
            (rx_copy d (REG_CBBARn + i * 8) (m.buffer_length / 4) m.data).1 else m.data
          processed_length := m.buffer_length
          status := MBO_SUCCESS }] := by
  have hne : MOST_CH_RX ≠ MOST_CH_TX := by decide
  simp only [start_data_transfer, h]
  by_cases htx : (d.ch i).direction = MOST_CH_TX
  · have hne2 : ¬ MOST_CH_TX = MOST_CH_RX := by decide
    simp [htx, hne2, tx_copy_ch, tx_copy_completed]
  · by_cases hrx : (d.ch i).direction = MOST_CH_RX
    · simp [hrx, hne, tx_copy_ch, tx_copy_completed]
    · simp [hrx, htx, tx_copy_ch, tx_copy_completed]
/-! ## `poison_channel` -/

theorem disable_i2s_channel_ch (d : hdm_i2s) (i : Nat) :
    (disable_i2s_channel d i).ch = d.ch ∧ (disable_i2s_channel d i).completed = d.completed := by
  simp only [disable_i2s_channel]
  split_ifs <;> simp

theorem complete_all_mbos_loop_spec (i : Nat) (l : List mbo) (d : hdm_i2s)
    (h : (d.ch i).pending_list = l) :
    (complete_all_mbos_loop i l d).ch =
      Function.update d.ch i { d.ch i with pending_list := [] } ∧
    (complete_all_mbos_loop i l d).completed = d.completed ++
      l.map (fun m => { m with processed_length := 0, status := MBO_E_CLOSE }) ∧
    (complete_all_mbos_loop i l d).i2s_base = d.i2s_base ∧
    (complete_all_mbos_loop i l d).i2s_writes = d.i2s_writes := by
  induction l generalizing d with
  | nil =>
    have hc : ({ d.ch i with pending_list := [] } : i2s_channel) = d.ch i := by
      cases hd : d.ch i
      simp_all
    simp [complete_all_mbos_loop, hc]
  | cons m rest ih =>
    have := ih (mbo_complete (upd_ch d i (fun c => { c with pending_list := rest }))
      { m with processed_length := 0, status := MBO_E_CLOSE }) (by simp)
    simp only [complete_all_mbos_loop]
    simpa using this

theorem poison_channel_spec (dev : hdm_i2s) (ch_idx : Int)
    (h0 : 0 ≤ ch_idx) (h8 : ch_idx < 8)
    (hi : (dev.ch ch_idx.toNat).is_initialized = true) :
    (poison_channel dev ch_idx).1 = 0 ∧
    (poison_channel dev ch_idx).2.ch = Function.update dev.ch ch_idx.toNat
      { dev.ch ch_idx.toNat with is_initialized := false, pending_list := [] } ∧
    (poison_channel dev ch_idx).2.completed = dev.completed ++
      (dev.ch ch_idx.toNat).pending_list.map
        (fun m => { m with processed_length := 0, status := MBO_E_CLOSE }) := by
  have hl := complete_all_mbos_loop_spec ch_idx.toNat (dev.ch ch_idx.toNat).pending_list
    (upd_ch (disable_i2s_channel dev ch_idx.toNat) ch_idx.toNat
      (fun c => { c with is_initialized := false }))
    (by simp [(disable_i2s_channel_ch dev ch_idx.toNat).1])
  simp only [poison_channel, in_range_guard ch_idx h0 h8, hi, if_false, not_true_eq_false,
    complete_all_mbos]
  have hp : ((upd_ch (disable_i2s_channel dev ch_idx.toNat) ch_idx.toNat
      (fun c => { c with is_initialized := false })).ch ch_idx.toNat).pending_list
      = (dev.ch ch_idx.toNat).pending_list := by
    simp [(disable_i2s_channel_ch dev ch_idx.toNat).1]
  rw [hp]
  refine ⟨trivial, ?_, ?_⟩
  · rw [hl.1]; simp [(disable_i2s_channel_ch dev ch_idx.toNat).1]
  · rw [hl.2.1]; simp [(disable_i2s_channel_ch dev ch_idx.toNat).2]

/-- C3: on an in-range initialised channel (enabled or not) holding the
pending buffers b1..bN, oldest first, `poison_channel` returns 0, calls the
completion callback once on each of b1..bN, in this order, each with
`processed_length` 0 and status `MBO_E_CLOSE`, and leaves the pending queue
empty and the channel uninitialised. -/
theorem poison_channel_drains (dev : hdm_i2s) (ch_idx : Int)
    (h0 : 0 ≤ ch_idx) (h8 : ch_idx < 8)
    (hi : (dev.ch ch_idx.toNat).is_initialized = true) :
    (poison_channel dev ch_idx).1 = 0 ∧
    (poison_channel dev ch_idx).2.completed = dev.completed ++
      (dev.ch ch_idx.toNat).pending_list.map
        (fun m => { m with processed_length := 0, status := MBO_E_CLOSE }) ∧
    ((poison_channel dev ch_idx).2.ch ch_idx.toNat).pending_list = [] ∧
    ((poison_channel dev ch_idx).2.ch ch_idx.toNat).is_initialized = false := by
  obtain ⟨h1, h2, h3⟩ := poison_channel_spec dev ch_idx h0 h8 hi
  refine ⟨h1, h3, ?_, ?_⟩ <;> rw [h2] <;> simp

/-- C3 on channel 0 of the sample device with one buffer pending. -/
theorem poison_channel_drains_witness :
    (poison_channel (enqueue dev_tx0 0 (buf 1)).2 0).1 = 0 ∧
    (poison_channel (enqueue dev_tx0 0 (buf 1)).2 0).2.completed =
      [{ buf 1 with processed_length := 0, status := MBO_E_CLOSE }] ∧
    ((poison_channel (enqueue dev_tx0 0 (buf 1)).2 0).2.ch 0).pending_list = [] ∧
    ((poison_channel (enqueue dev_tx0 0 (buf 1)).2 0).2.ch 0).is_initialized = false :=
  poison_channel_drains (enqueue dev_tx0 0 (buf 1)).2 0 (by decide) (by decide) (by decide)

/-! ## What a transfer writes -/

theorem foldl_write_io (reg : Nat) (f : Nat → Nat) (l : List Nat) (d : hdm_i2s) :
    (l.foldl (fun d i => write_reg_i2s d reg (f i)) d).i2s_writes
      = d.i2s_writes ++ l.map (fun k => (reg, f k % 2 ^ 32)) ∧
    ∀ o, o ≠ reg → (l.foldl (fun d i => write_reg_i2s d reg (f i)) d).i2s_base o = d.i2s_base o := by
  induction l generalizing d with
  | nil => exact ⟨by simp, fun _ _ => rfl⟩
  | cons a l ih =>
    simp only [List.foldl]
    refine ⟨?_, fun o ho => ?_⟩
    · rw [(ih _).1]; simp
    · rw [(ih _).2 o ho]; simp [Function.update_noteq ho]

theorem tx_copy_io (d : hdm_i2s) (reg n : Nat) (data : List Nat) :
    (tx_copy d reg n data).i2s_writes
      = d.i2s_writes ++ (List.range n).map (fun k => (reg, data.getD k 0 % 2 ^ 32)) ∧
    ∀ o, o ≠ reg → (tx_copy d reg n data).i2s_base o = d.i2s_base o :=
  foldl_write_io reg (fun i => data.getD i 0) (List.range n) d

theorem start_data_transfer_io (d : hdm_i2s) (i : Nat) (m : mbo) (rest : List mbo)
    (h : (d.ch i).pending_list = m :: rest) :
    (start_data_transfer d i).2.i2s_writes = d.i2s_writes ++
      ((if (d.ch i).direction = MOST_CH_RX then []
        else (List.range (m.buffer_length / 4)).map
          (fun k => (REG_NBBARn + i * 8, m.data.getD k 0 % 2 ^ 32))) ++
       [(REG_CSRn + i * 8,
          if (d.ch i).direction = MOST_CH_TX then TX_SERV_REQ_INT else RX_SERV_REQ_INT),
        (REG_CCRn + i * 8,
          (d.i2s_base (REG_CCRn + i * 8) &&&
            (if (d.ch i).direction = MOST_CH_TX then TX_INT_MASK else RX_INT_MASK)) % 2 ^ 32)]) ∧
    (start_data_transfer d i).2.i2s_base (REG_CCRn + i * 8) =
      (d.i2s_base (REG_CCRn + i * 8) &&&
        (if (d.ch i).direction = MOST_CH_TX then TX_INT_MASK else RX_INT_MASK)) % 2 ^ 32 ∧
    (∀ o, o ≠ REG_NBBARn + i * 8 → o ≠ REG_CSRn + i * 8 → o ≠ REG_CCRn + i * 8 →
      (start_data_transfer d i).2.i2s_base o = d.i2s_base o) := by
  have hne : MOST_CH_RX ≠ MOST_CH_TX := by decide
  have hne2 : ¬ MOST_CH_TX = MOST_CH_RX := by decide
  have t1 : TX_SERV_REQ_INT < 4294967296 := by decide
  have t2 : RX_SERV_REQ_INT < 4294967296 := by decide
  have r1 : REG_CCRn + i * 8 ≠ REG_CSRn + i * 8 := by simp [REG_CCRn, REG_CSRn]
  have r2 : REG_CCRn + i * 8 ≠ REG_NBBARn + i * 8 := by simp [REG_CCRn, REG_NBBARn]
  obtain ⟨w1, b1⟩ := tx_copy_io d (REG_NBBARn + i * 8) (m.buffer_length / 4) m.data
  simp only [start_data_transfer, h]
  by_cases htx : (d.ch i).direction = MOST_CH_TX
  · refine ⟨?_, ?_, fun o h1 h2 h3 => ?_⟩
    · simp [htx, hne2, tx_copy_ch, w1, read_reg_i2s, Function.update_noteq r1, b1 _ r2, t1]
    · simp [htx, hne2, tx_copy_ch, read_reg_i2s, Function.update_noteq r1, b1 _ r2]
    · simp [htx, hne2, tx_copy_ch, Function.update_noteq h3, Function.update_noteq h2, b1 _ h1]
  · by_cases hrx : (d.ch i).direction = MOST_CH_RX
    · refine ⟨?_, ?_, fun o h1 h2 h3 => ?_⟩
      · simp [hrx, hne, read_reg_i2s, Function.update_noteq r1, t2]
      · simp [hrx, hne, read_reg_i2s, Function.update_noteq r1]
      · simp [hrx, hne, Function.update_noteq h3, Function.update_noteq h2]
    · refine ⟨?_, ?_, fun o h1 h2 h3 => ?_⟩
      · simp [hrx, htx, tx_copy_ch, w1, read_reg_i2s, Function.update_noteq r1, b1 _ r2, t2]
      · simp [hrx, htx, tx_copy_ch, read_reg_i2s, Function.update_noteq r1, b1 _ r2]
      · simp [hrx, htx, tx_copy_ch, Function.update_noteq h3, Function.update_noteq h2, b1 _ h1]

/-! ## Transmit pre-fill -/

theorem channel_en_bit_set (x : Nat) :
    ((x ||| CHANNEL_EN) % 2 ^ 32) &&& CHANNEL_EN = CHANNEL_EN := by
  have h : CHANNEL_EN = 2 ^ 23 := by decide
  rw [h]
  apply Nat.eq_of_testBit_eq
  intro j
  simp only [Nat.testBit_and, Nat.testBit_or, Nat.testBit_mod_two_pow, Nat.testBit_two_pow]
  by_cases hj : 23 = j
  · subst hj; simp
  · simp [hj]

theorem prefill_once_cons (d : hdm_i2s) (i : Nat) (m : mbo) (rest : List mbo)
    (h : (d.ch i).pending_list = m :: rest) :
    (prefill_once d i).ch =
      Function.update d.ch i { d.ch i with pending_list := rest, ready := false } ∧
    (prefill_once d i).completed = d.completed ++
      [{ m with
          data := if (d.ch i).direction = MOST_CH_RX then
            (rx_copy d (REG_CBBARn + i * 8) (m.buffer_length / 4) m.data).1 else m.data
          processed_length := m.buffer_length
          status := MBO_SUCCESS }] := by
  have hs := start_data_transfer_cons (upd_ch d i (fun c => { c with ready := true })) i m rest
    (by simp [h])
  simp only [prefill_once]
  refine ⟨?_, ?_⟩
  · rw [hs.2.1]; simp
  · rw [hs.2.2, rx_copy_fst_congr (upd_ch d i (fun c => { c with ready := true })) d _ _ _ rfl rfl]
    simp

theorem prefill_once_nil (d : hdm_i2s) (i : Nat) (h : (d.ch i).pending_list = []) :
    (prefill_once d i).ch = Function.update d.ch i { d.ch i with ready := true } ∧
    (prefill_once d i).completed = d.completed := by
  have hs := start_data_transfer_nil (upd_ch d i (fun c => { c with ready := true })) i
    (by simp [h])
  simp only [prefill_once]
  rw [hs]
  simp

theorem enable_i2s_channel_tail (d1 : hdm_i2s) (i : Nat) :
    let offset := i * 0x08
    let dev2 := write_reg_i2s d1 (REG_CSRn + offset) 0x000000FF
    let dev3 :=
      if is_port_a i then
        write_reg_i2s dev2 REG_DCCRA (read_reg_i2s dev2 REG_DCCRA ||| (1 <<< i))
      else
        write_reg_i2s dev2 REG_DCCRB
          (read_reg_i2s dev2 REG_DCCRB ||| (1 <<< (i - DMA_CHANNELS_PER_PORT)))
    let dev4 := write_reg_i2s dev3 (REG_CCRn + offset)
      (read_reg_i2s dev3 (REG_CCRn + offset) ||| CHANNEL_EN)
    (upd_ch dev4 i (fun c => { c with is_enabled := true })).ch =
        Function.update d1.ch i { d1.ch i with is_enabled := true } ∧
    (upd_ch dev4 i (fun c => { c with is_enabled := true })).completed = d1.completed ∧
    (upd_ch dev4 i (fun c => { c with is_enabled := true })).i2s_base (REG_CCRn + 8 * i)
        &&& CHANNEL_EN = CHANNEL_EN := by
  intro offset dev2 dev3 dev4
  have h3 : dev3.ch = d1.ch ∧ dev3.completed = d1.completed := by
    simp only [dev3]; split_ifs <;> simp [dev2]
  refine ⟨?_, ?_, ?_⟩
  · simp [dev4, h3.1]
  · simp [dev4, h3.2]
  · simp only [upd_ch_base, dev4, write_reg_i2s_base, offset, Nat.mul_comm i 8,
      Function.update_same]
    exact channel_en_bit_set _

theorem enable_i2s_channel_spec (d : hdm_i2s) (i : Nat) :
    (enable_i2s_channel d i).ch = Function.update
      (if (d.ch i).direction = MOST_CH_TX then prefill_once (prefill_once d i) i else d).ch i
      { (if (d.ch i).direction = MOST_CH_TX then prefill_once (prefill_once d i) i else d).ch i
        with is_enabled := true } ∧
    (enable_i2s_channel d i).completed =
      (if (d.ch i).direction = MOST_CH_TX then prefill_once (prefill_once d i) i
        else d).completed ∧
    (enable_i2s_channel d i).i2s_base (REG_CCRn + 8 * i) &&& CHANNEL_EN = CHANNEL_EN := by
  have hr : List.range INITAL_WR_BEFORE_EN = [0, 1] := by decide
  have := enable_i2s_channel_tail
    (if (d.ch i).direction = MOST_CH_TX then prefill_once (prefill_once d i) i else d) i
  simp only [enable_i2s_channel, hr, List.foldl]
  exact this

theorem enqueue_accept_eq (dev : hdm_i2s) (ch_idx : Int) (m : mbo)
    (h0 : 0 ≤ ch_idx) (h8 : ch_idx < 8)
    (hi : (dev.ch ch_idx.toNat).is_initialized = true)
    (hb : m.bus_address ≠ 0) (hl : m.buffer_length % 4 = 0) :
    enqueue dev ch_idx m = (0,
      if (dev.ch ch_idx.toNat).is_enabled = false then
        if ((dev.ch ch_idx.toNat).mbo_count + 1) % 256 ≥ INITAL_WR_BEFORE_EN then
          enable_i2s_channel
            (upd_ch dev ch_idx.toNat (fun c =>
              { c with pending_list := c.pending_list ++ [m]
                       mbo_count := (c.mbo_count + 1) % 256 })) ch_idx.toNat
        else
          upd_ch dev ch_idx.toNat (fun c =>
            { c with pending_list := c.pending_list ++ [m]
                     mbo_count := (c.mbo_count + 1) % 256 })
      else upd_ch dev ch_idx.toNat (fun c => { c with pending_list := c.pending_list ++ [m] })) := by
  have hand : m.buffer_length &&& 3 = m.buffer_length % 4 :=
    Nat.and_pow_two_sub_one_eq_mod m.buffer_length 2
  have hu : ∀ (f g : i2s_channel → i2s_channel),
      upd_ch (upd_ch dev ch_idx.toNat f) ch_idx.toNat g
        = upd_ch dev ch_idx.toNat (fun c => g (f c)) := by
    intro f g
    simp [upd_ch]
  simp only [enqueue, in_range_guard ch_idx h0 h8, hi, hb, hand, hl, if_false, not_true_eq_false,
    ne_eq, not_false_eq_true, if_true, hu]
  by_cases he : (dev.ch ch_idx.toNat).is_enabled = false
  · by_cases hc : ((dev.ch ch_idx.toNat).mbo_count + 1) % 256 ≥ INITAL_WR_BEFORE_EN
    · simp [he, hc]
    · simp [he, hc]
  · simp [he]

theorem prefill_once_io (d : hdm_i2s) (i : Nat) (m : mbo) (rest : List mbo)
    (h : (d.ch i).pending_list = m :: rest) (htx : (d.ch i).direction = MOST_CH_TX) :
    (prefill_once d i).i2s_writes = d.i2s_writes ++
      (List.range (m.buffer_length / 4)).map
        (fun k => (REG_NBBARn + i * 8, m.data.getD k 0 % 2 ^ 32)) ++
      [(REG_CSRn + i * 8, TX_SERV_REQ_INT),
       (REG_CCRn + i * 8, (d.i2s_base (REG_CCRn + i * 8) &&& TX_INT_MASK) % 2 ^ 32)] ∧
    (prefill_once d i).i2s_base (REG_CCRn + i * 8) =
      (d.i2s_base (REG_CCRn + i * 8) &&& TX_INT_MASK) % 2 ^ 32 ∧
    (∀ o, o ≠ REG_NBBARn + i * 8 → o ≠ REG_CSRn + i * 8 → o ≠ REG_CCRn + i * 8 →
      (prefill_once d i).i2s_base o = d.i2s_base o) := by
  have hne : ¬ MOST_CH_TX = MOST_CH_RX := by decide
  obtain ⟨h1, h2, h3⟩ := start_data_transfer_io
    (upd_ch d i (fun c => { c with ready := true })) i m rest (by simp [h])
  simp only [prefill_once]
  refine ⟨?_, ?_, ?_⟩
  · rw [h1]; simp [htx, hne]
  · rw [h2]; simp [htx]
  · intro o o1 o2 o3
    rw [h3 o o1 o2 o3]; simp

theorem enable_i2s_channel_io (d : hdm_i2s) (i : Nat) :
    (enable_i2s_channel d i).i2s_writes =
      (if (d.ch i).direction = MOST_CH_TX then prefill_once (prefill_once d i) i
        else d).i2s_writes ++
      [(REG_CSRn + i * 8, 0xFF),
       (if i < DMA_CHANNELS_PER_PORT then REG_DCCRA else REG_DCCRB,
        ((if (d.ch i).direction = MOST_CH_TX then prefill_once (prefill_once d i) i
            else d).i2s_base (if i < DMA_CHANNELS_PER_PORT then REG_DCCRA else REG_DCCRB) |||
          1 <<< (if i < DMA_CHANNELS_PER_PORT then i else i - DMA_CHANNELS_PER_PORT)) % 2 ^ 32),
       (REG_CCRn + i * 8,
        ((if (d.ch i).direction = MOST_CH_TX then prefill_once (prefill_once d i) i
            else d).i2s_base (REG_CCRn + i * 8) ||| CHANNEL_EN) % 2 ^ 32)] := by
  have hr : List.range INITAL_WR_BEFORE_EN = [0, 1] := by decide
  have r1 : REG_DCCRA ≠ REG_CSRn + i * 8 := by simp only [REG_DCCRA, REG_CSRn]; omega
  have r2 : REG_DCCRB ≠ REG_CSRn + i * 8 := by simp only [REG_DCCRB, REG_CSRn]; omega
  have r3 : REG_CCRn + i * 8 ≠ REG_DCCRA := by simp only [REG_DCCRA, REG_CCRn]; omega
  have r4 : REG_CCRn + i * 8 ≠ REG_DCCRB := by simp only [REG_DCCRB, REG_CCRn]; omega
  have r5 : REG_CCRn + i * 8 ≠ REG_CSRn + i * 8 := by simp [REG_CCRn, REG_CSRn]
  simp only [enable_i2s_channel, hr, List.foldl, is_port_a]
  by_cases hp : i < DMA_CHANNELS_PER_PORT
  · simp [hp, read_reg_i2s, Function.update_noteq r1, Function.update_noteq r3,
      Function.update_noteq r5]
  · simp [hp, read_reg_i2s, Function.update_noteq r2, Function.update_noteq r4,
      Function.update_noteq r5]

/-! ## Quiet transitions -/

theorem pend_count_update (d e : hdm_i2s) (i : Nat) (hi : i < 8) (c : i2s_channel)
    (h : e.ch = Function.update d.ch i c) (id : Nat) :
    pend_count e id + ((d.ch i).pending_list.map (fun m => m.id)).count id
      = pend_count d id + (c.pending_list.map (fun m => m.id)).count id := by
  have hr : List.range DMA_CHANNELS = [0, 1, 2, 3, 4, 5, 6, 7] := by decide
  simp only [pend_count, hr, h, List.map_cons, List.map_nil, List.sum_cons, List.sum_nil]
  interval_cases i <;> simp [Function.update_apply] <;> omega

theorem pend_count_congr (d e : hdm_i2s)
    (h : ∀ j, (e.ch j).pending_list = (d.ch j).pending_list) (id : Nat) :
    pend_count e id = pend_count d id := by
  simp [pend_count, h]

theorem Quiet.refl (d : hdm_i2s) : Quiet d d :=
  ⟨fun _ => ⟨rfl, [], rfl⟩, fun _ => rfl, [], by simp, by simp⟩

theorem Quiet.trans {d e f : hdm_i2s} (h1 : Quiet d e) (h2 : Quiet e f) : Quiet d f := by
  obtain ⟨a1, b1, n1, c1, s1⟩ := h1
  obtain ⟨a2, b2, n2, c2, s2⟩ := h2
  refine ⟨fun j => ?_, fun id => by rw [b2, b1], n1 ++ n2, by rw [c2, c1, List.append_assoc], ?_⟩
  · obtain ⟨i1, k1, p1⟩ := a1 j
    obtain ⟨i2, k2, p2⟩ := a2 j
    exact ⟨by rw [i2, i1], k1 ++ k2, by rw [p1, p2, List.append_assoc]⟩
  · intro m hm
    rcases List.mem_append.1 hm with h | h
    · exact s1 m h
    · exact s2 m h

theorem quiet_of_same (d e : hdm_i2s)
    (h : ∀ j, (e.ch j).is_initialized = (d.ch j).is_initialized ∧
      (e.ch j).pending_list = (d.ch j).pending_list)
    (hc : e.completed = d.completed) : Quiet d e :=
  ⟨fun j => ⟨(h j).1, [], by simp [(h j).2]⟩,
   fun id => by rw [pend_count_congr d e (fun j => (h j).2), comp_count, comp_count, hc],
   [], by simp [hc], by simp⟩

theorem quiet_pop (d e : hdm_i2s) (i : Nat) (hi : i < 8) (m m1 : mbo) (rest : List mbo) (r : Bool)
    (hp : (d.ch i).pending_list = m :: rest)
    (hch : e.ch = Function.update d.ch i { d.ch i with pending_list := rest, ready := r })
    (hc : e.completed = d.completed ++ [m1]) (hid : m1.id = m.id)
    (hs : m1.status = MBO_SUCCESS) : Quiet d e := by
  refine ⟨fun j => ?_, fun id => ?_, [m1], hc, by simpa using hs⟩
  · rw [hch]
    by_cases hj : j = i
    · subst hj; exact ⟨by simp, [m], by simp [hp]⟩
    · exact ⟨by simp [hj], [], by simp [hj]⟩
  · have := pend_count_update d e i hi _ hch id
    simp only [hp, List.map_cons, List.count_cons] at this
    simp only [comp_count, hc, List.map_append, List.count_append, List.map_cons, List.map_nil,
      List.count_cons, List.count_nil, hid]
    omega

theorem start_data_transfer_quiet (d : hdm_i2s) (i : Nat) (hi : i < 8) :
    Quiet d (start_data_transfer d i).2 := by
  cases hp : (d.ch i).pending_list with
  | nil => rw [start_data_transfer_nil d i hp]; exact Quiet.refl d
  | cons m rest =>
    obtain ⟨_, h2, h3⟩ := start_data_transfer_cons d i m rest hp
    exact quiet_pop d _ i hi m _ rest false hp h2 h3 rfl rfl

theorem foldl_quiet (l : List Nat) (f : hdm_i2s → Nat → hdm_i2s)
    (hf : ∀ d i, i ∈ l → Quiet d (f d i)) (d : hdm_i2s) : Quiet d (l.foldl f d) := by
  induction l generalizing d with
  | nil => exact Quiet.refl d
  | cons a l ih =>
    simp only [List.foldl]
    exact Quiet.trans (hf d a (by simp))
      (ih (fun d i hi => hf d i (List.mem_cons_of_mem a hi)) (f d a))

theorem prefill_once_quiet (d : hdm_i2s) (i : Nat) (hi : i < 8) : Quiet d (prefill_once d i) := by
  refine Quiet.trans (quiet_of_same d (upd_ch d i (fun c => { c with ready := true })) ?_ rfl)
    (start_data_transfer_quiet _ i hi)
  intro j
  by_cases hj : j = i
  · subst hj; simp
  · simp [hj]

theorem enable_i2s_channel_quiet (d : hdm_i2s) (i : Nat) (hi : i < 8) :
    Quiet d (enable_i2s_channel d i) := by
  obtain ⟨h1, h2, _⟩ := enable_i2s_channel_spec d i
  have hq : Quiet d
      (if (d.ch i).direction = MOST_CH_TX then prefill_once (prefill_once d i) i else d) := by
    split_ifs
    · exact Quiet.trans (prefill_once_quiet d i hi) (prefill_once_quiet _ i hi)
    · exact Quiet.refl d
  refine Quiet.trans hq (quiet_of_same _ _ ?_ h2)
  intro j
  rw [h1]
  by_cases hj : j = i
  · subst hj; simp
  · simp [hj]

theorem i2s_tasklet_fn_quiet (d : hdm_i2s) : Quiet d (i2s_tasklet_fn d) := by
  apply foldl_quiet
  intro d i hi
  have hi8 : i < 8 := by simpa [DMA_CHANNELS, DMA_CHANNELS_PER_PORT] using hi
  split_ifs
  · exact start_data_transfer_quiet d i hi8
  · exact Quiet.refl d

theorem service_ch_irq_same (d : hdm_i2s) (i : Nat) :
    (∀ j, ((service_ch_irq d i).ch j).is_initialized = (d.ch j).is_initialized ∧
      ((service_ch_irq d i).ch j).pending_list = (d.ch j).pending_list) ∧
    (service_ch_irq d i).completed = d.completed := by
  refine ⟨fun j => ?_, ?_⟩
  · by_cases hj : j = i
    · subst hj
      simp only [service_ch_irq]
      split_ifs <;> simp
    · simp only [service_ch_irq]
      split_ifs <;> simp [hj]
  · simp only [service_ch_irq]
    split_ifs <;> simp

theorem i2s_isr_quiet (d : hdm_i2s) : Quiet d (i2s_isr d) := by
  have h : Quiet d ((List.range DMA_CHANNELS).foldl
      (fun e ch_idx => if read_reg_i2s d REG_DSCR &&& (1 <<< ch_idx) ≠ 0
        then service_ch_irq e ch_idx else e) d) := by
    apply foldl_quiet
    intro e i _
    split_ifs
    · exact quiet_of_same e _ (service_ch_irq_same e i).1 (service_ch_irq_same e i).2
    · exact Quiet.refl e
  exact Quiet.trans h (quiet_of_same _ _ (fun _ => ⟨rfl, rfl⟩) rfl)

/-! ## The interface functions along a run -/

theorem configure_channel_effect (d : hdm_i2s) (c : Int) (cfg : most_channel_config) :
    (∀ j, ((configure_channel d c cfg).2.ch j).pending_list = (d.ch j).pending_list ∧
      ((d.ch j).is_initialized = true →
        ((configure_channel d c cfg).2.ch j).is_initialized = true)) ∧
    (configure_channel d c cfg).2.completed = d.completed := by
  simp only [configure_channel]
  split_ifs <;> simp [init_i2s_channel_ch, Function.update_apply]
  · refine ⟨fun j => ⟨?_, ?_⟩, ?_⟩
    · split_ifs with hj
      · subst hj; rfl
      · rfl
    · split_ifs <;> simp
    · cases hd : decide (cfg.direction = MOST_CH_TX) <;> simp [init_i2s_channel]

theorem configure_channel_ok_init (d : hdm_i2s) (c : Int) (cfg : most_channel_config)
    (h : (configure_channel d c cfg).1 = 0) :
    ((configure_channel d c cfg).2.ch c.toNat).is_initialized = true := by
  have e1 : (-ECHRNG : Int) ≠ 0 := by decide
  have e2 : (-EPERM : Int) ≠ 0 := by decide
  have e3 : (-EINVAL : Int) ≠ 0 := by decide
  have e4 : (-ENODEV : Int) ≠ 0 := by decide
  simp only [configure_channel] at h ⊢
  split_ifs at h ⊢
  all_goals first
    | exact absurd h e1
    | exact absurd h e2
    | exact absurd h e3
    | exact absurd h e4
    | simp

theorem enqueue_cases (d : hdm_i2s) (c : Int) (m : mbo) :
    ((enqueue d c m).1 ≠ 0 ∧ (enqueue d c m).2 = d) ∨
    ((enqueue d c m).1 = 0 ∧ 0 ≤ c ∧ c < 8 ∧ (d.ch c.toNat).is_initialized = true ∧
      m.bus_address ≠ 0 ∧ m.buffer_length % 4 = 0) := by
  have e1 : (-ECHRNG : Int) ≠ 0 := by decide
  have e2 : (-EPERM : Int) ≠ 0 := by decide
  have e3 : (-EINVAL : Int) ≠ 0 := by decide
  have e4 : (-EFAULT : Int) ≠ 0 := by decide
  have hand : m.buffer_length &&& 3 = m.buffer_length % 4 :=
    Nat.and_pow_two_sub_one_eq_mod m.buffer_length 2
  by_cases hr : c < 0 ∨ c ≥ (DMA_CHANNELS : Nat)
  · left; simp [enqueue, hr, e1]
  · have h08 : 0 ≤ c ∧ c < 8 := by
      simp only [DMA_CHANNELS, DMA_CHANNELS_PER_PORT] at hr
      push_cast at hr
      omega
    by_cases hi : (d.ch c.toNat).is_initialized = true
    · by_cases hb : m.bus_address = 0
      · left; simp [enqueue, hr, hi, hb, e4]
      · by_cases hl : m.buffer_length % 4 = 0
        · right
          refine ⟨?_, h08.1, h08.2, hi, hb, hl⟩
          rw [enqueue_accept_eq d c m h08.1 h08.2 hi hb hl]
        · left; simp [enqueue, hr, hi, hb, hand, hl, e3]
    · left; simp [enqueue, hr, hi, e2]

theorem enqueue_accept_quiet (d : hdm_i2s) (c : Int) (m : mbo)
    (h0 : 0 ≤ c) (h8 : c < 8) (hi : (d.ch c.toNat).is_initialized = true)
    (hb : m.bus_address ≠ 0) (hl : m.buffer_length % 4 = 0) :
    ∃ k, Quiet
      (upd_ch d c.toNat (fun x => { x with pending_list := x.pending_list ++ [m], mbo_count := k }))
      (enqueue d c m).2 := by
  have hc8 : c.toNat < 8 := by omega
  rw [enqueue_accept_eq d c m h0 h8 hi hb hl]
  simp only
  split_ifs
  · exact ⟨_, enable_i2s_channel_quiet _ _ hc8⟩
  · exact ⟨_, Quiet.refl _⟩
  · refine ⟨(d.ch c.toNat).mbo_count, quiet_of_same _ _ (fun j => ?_) rfl⟩
    by_cases hj : j = c.toNat
    · subst hj; simp
    · simp [hj]

theorem poison_channel_cases (d : hdm_i2s) (c : Int) :
    ((poison_channel d c).1 ≠ 0 ∧ (poison_channel d c).2 = d) ∨
    ((poison_channel d c).1 = 0 ∧ 0 ≤ c ∧ c < 8 ∧ (d.ch c.toNat).is_initialized = true) := by
  have e1 : (-ECHRNG : Int) ≠ 0 := by decide
  have e2 : (-EPERM : Int) ≠ 0 := by decide
  by_cases hr : c < 0 ∨ c ≥ (DMA_CHANNELS : Nat)
  · left; simp [poison_channel, hr, e1]
  · have h08 : 0 ≤ c ∧ c < 8 := by
      simp only [DMA_CHANNELS, DMA_CHANNELS_PER_PORT] at hr
      push_cast at hr
      omega
    by_cases hi : (d.ch c.toNat).is_initialized = true
    · right
      exact ⟨(poison_channel_spec d c h08.1 h08.2 hi).1, h08.1, h08.2, hi⟩
    · left; simp [poison_channel, hr, hi, e2]

/-! ## The ownership invariant -/

theorem inv_quiet {d e : hdm_i2s} {acc : List Nat} (hI : Inv d acc) (hq : Quiet d e) :
    Inv e acc := by
  obtain ⟨i1, i2, i3, i4⟩ := hI
  obtain ⟨q1, q2, new, q3, q4⟩ := hq
  refine ⟨fun j hj => ?_, fun id => by rw [q2, i2], fun id => ?_, fun m hm => ?_⟩
  · obtain ⟨hinit, k, hk⟩ := q1 j
    have := i1 j (by rw [← hinit]; exact hj)
    rw [this] at hk
    exact (List.append_eq_nil.1 hk.symm).2
  · have h2 := q2 id
    have hc : comp_count d id ≤ comp_count e id := by
      simp only [comp_count, q3, List.map_append, List.count_append]
      omega
    have := i3 id
    omega
  · rw [q3] at hm
    rcases List.mem_append.1 hm with h | h
    · exact i4 m h
    · exact Or.inl (q4 m h)

theorem inv_append {d e : hdm_i2s} {acc : List Nat} (hI : Inv d acc) (i : Nat) (hi : i < 8)
    (m : mbo) (k : Nat) (hinit : (d.ch i).is_initialized = true)
    (hfresh : pend_count d m.id = 0)
    (hch : e.ch = Function.update d.ch i
      { d.ch i with pending_list := (d.ch i).pending_list ++ [m], mbo_count := k })
    (hc : e.completed = d.completed) : Inv e (acc ++ [m.id]) := by
  obtain ⟨i1, i2, i3, i4⟩ := hI
  have hp : ∀ id, pend_count e id = pend_count d id + (if m.id = id then 1 else 0) := by
    intro id
    have := pend_count_update d e i hi _ hch id
    simp only [List.map_append, List.count_append, List.map_cons, List.map_nil,
      List.count_cons, List.count_nil] at this
    by_cases hid : m.id = id <;> simp [hid] at this ⊢ <;> omega
  refine ⟨fun j hj => ?_, fun id => ?_, fun id => ?_, fun x hx => i4 x (by rwa [hc] at hx)⟩
  · rw [hch] at hj ⊢
    by_cases hji : j = i
    · subst hji; simp [hinit] at hj
    · simp only [Function.update_noteq hji] at hj ⊢; exact i1 j hj
  · have := i2 id
    rw [hp id]
    simp only [comp_count, hc, List.count_append, List.count_cons, List.count_nil] at this ⊢
    by_cases hid : m.id = id <;> simp [hid] at this ⊢ <;> omega
  · rw [hp id]
    by_cases hid : m.id = id
    · subst hid; simp [hfresh]
    · simpa [hid] using i3 id

theorem inv_drain {d e : hdm_i2s} {acc : List Nat} (hI : Inv d acc) (i : Nat) (hi : i < 8)
    (hch : e.ch = Function.update d.ch i
      { d.ch i with is_initialized := false, pending_list := [] })
    (hc : e.completed = d.completed ++ (d.ch i).pending_list.map
      (fun m => { m with processed_length := 0, status := MBO_E_CLOSE })) :
    Inv e acc ∧ ∀ id, pend_count e id + ((d.ch i).pending_list.map (fun m => m.id)).count id
      = pend_count d id := by
  obtain ⟨i1, i2, i3, i4⟩ := hI
  have hp : ∀ id, pend_count e id + ((d.ch i).pending_list.map (fun m => m.id)).count id
      = pend_count d id := by
    intro id
    have := pend_count_update d e i hi _ hch id
    simpa using this
  refine ⟨⟨fun j hj => ?_, fun id => ?_, fun id => ?_, fun x hx => ?_⟩, hp⟩
  · rw [hch] at hj ⊢
    by_cases hji : j = i
    · subst hji; simp
    · simp only [Function.update_noteq hji] at hj ⊢; exact i1 j hj
  · have h1 := i2 id
    have h2 := hp id
    simp only [comp_count, hc, List.map_append, List.count_append, List.map_map] at h1 ⊢
    have h3 : (List.map ((fun m : mbo => m.id) ∘
        fun m => { m with processed_length := 0, status := MBO_E_CLOSE }) (d.ch i).pending_list)
        = (d.ch i).pending_list.map (fun m => m.id) := by
      apply List.map_congr_left
      intro a _
      rfl
    rw [h3]
    omega
  · have := hp id
    have := i3 id
    omega
  · rw [hc] at hx
    rcases List.mem_append.1 hx with h | h
    · exact i4 x h
    · obtain ⟨y, _, rfl⟩ := List.mem_map.1 h
      exact Or.inr rfl

theorem inv_configure {d : hdm_i2s} {acc : List Nat} (hI : Inv d acc) (c : Int)
    (cfg : most_channel_config) : Inv (configure_channel d c cfg).2 acc := by
  obtain ⟨i1, i2, i3, i4⟩ := hI
  obtain ⟨h1, h2⟩ := configure_channel_effect d c cfg
  have hp := pend_count_congr d _ (fun j => (h1 j).1)
  refine ⟨fun j hj => ?_, fun id => ?_, fun id => ?_, fun x hx => i4 x (by rwa [h2] at hx)⟩
  · rw [(h1 j).1]
    apply i1
    by_contra hne
    have := (h1 j).2 (by simpa using hne)
    rw [this] at hj
    exact Bool.noConfusion hj
  · rw [hp id, comp_count, h2]; exact i2 id
  · rw [hp id]; exact i3 id

theorem inv_probe (regs : Nat → Nat) (fifo : Nat → Nat → Nat) (clk : clk_gen) :
    Inv (i2s_probe regs fifo clk) [] := by
  refine ⟨fun j _ => rfl, fun id => ?_, fun id => ?_, fun m hm => ?_⟩
  · simp [pend_count, comp_count, i2s_probe]
  · simp [pend_count, i2s_probe]
  · simp [i2s_probe] at hm

theorem inv_step {d : hdm_i2s} {acc : List Nat} (hI : Inv d acc) (st : Step)
    (hf : fresh d [st] = true) : Inv (step d st) (acc ++ accepted d [st]) := by
  cases st with
  | configure c cfg => simpa [accepted, step] using inv_configure hI c cfg
  | enqueue c m =>
    have hfr : pend_count d m.id = 0 := by simpa [fresh] using hf
    rcases enqueue_cases d c m with ⟨hne, heq⟩ | ⟨hz, h0, h8, hi, hb, hl⟩
    · simpa [accepted, step, hne, heq] using hI
    · obtain ⟨k, hq⟩ := enqueue_accept_quiet d c m h0 h8 hi hb hl
      have ha := inv_append hI c.toNat (by omega) m k hi hfr (e := upd_ch d c.toNat
        (fun x => { x with pending_list := x.pending_list ++ [m], mbo_count := k })) rfl rfl
      simpa [accepted, step, hz] using inv_quiet ha hq
  | poison c =>
    rcases poison_channel_cases d c with ⟨_, heq⟩ | ⟨_, h0, h8, hi⟩
    · simpa [accepted, step, heq] using hI
    · obtain ⟨_, h2, h3⟩ := poison_channel_spec d c h0 h8 hi
      simpa [accepted, step] using (inv_drain hI c.toNat (by omega) h2 h3).1
  | irq => simpa [accepted, step] using inv_quiet hI (i2s_isr_quiet d)
  | tasklet =>
    have h1 : Quiet d { d with tasklet_scheduled := false } :=
      quiet_of_same _ _ (fun _ => ⟨rfl, rfl⟩) rfl
    simpa [accepted, step] using inv_quiet hI (Quiet.trans h1 (i2s_tasklet_fn_quiet _))
  | hw o v =>
    have h1 : Quiet d { d with i2s_base := Function.update d.i2s_base o (v % 2 ^ 32) } :=
      quiet_of_same _ _ (fun _ => ⟨rfl, rfl⟩) rfl
    simpa [accepted, step] using inv_quiet hI h1

theorem fresh_cons (d : hdm_i2s) (st : Step) (rest : List Step) :
    fresh d (st :: rest) = (fresh d [st] && fresh (step d st) rest) := by
  cases st <;> simp [fresh]

theorem accepted_cons (d : hdm_i2s) (st : Step) (rest : List Step) :
    accepted d (st :: rest) = accepted d [st] ++ accepted (step d st) rest := by
  cases st <;> simp [accepted]

theorem inv_run {d : hdm_i2s} {acc : List Nat} (hI : Inv d acc) (steps : List Step)
    (hf : fresh d steps = true) : Inv (run d steps) (acc ++ accepted d steps) := by
  induction steps generalizing d acc with
  | nil => simpa [run, accepted] using hI
  | cons st rest ih =>
    rw [fresh_cons, Bool.and_eq_true] at hf
    have := ih (inv_step hI st hf.1) hf.2
    rw [accepted_cons, ← List.append_assoc]
    simpa [run] using this

/-! ## Transmit pre-fill threshold -/

theorem tx_prefill_core (d : hdm_i2s) (c : Int) (b1 b2 : mbo)
    (h0 : 0 ≤ c) (h8 : c < 8)
    (hinit : (d.ch c.toNat).is_initialized = true)
    (hen : (d.ch c.toNat).is_enabled = false)
    (hcnt : (d.ch c.toNat).mbo_count = 0)
    (hdir : (d.ch c.toNat).direction = MOST_CH_TX)
    (hp : (d.ch c.toNat).pending_list = [])
    (hb1 : b1.bus_address ≠ 0) (hl1 : b1.buffer_length % 4 = 0)
    (hb2 : b2.bus_address ≠ 0) (hl2 : b2.buffer_length % 4 = 0) :
    (enqueue d c b1).1 = 0 ∧
    ((enqueue d c b1).2.ch c.toNat).is_initialized = true ∧
    ((enqueue d c b1).2.ch c.toNat).is_enabled = false ∧
    ((enqueue d c b1).2.ch c.toNat).pending_list = [b1] ∧
    (enqueue d c b1).2.completed = d.completed ∧
    (enqueue d c b1).2.i2s_writes = d.i2s_writes ∧
    (enqueue (enqueue d c b1).2 c b2).1 = 0 ∧
    (enqueue (enqueue d c b1).2 c b2).2.completed = d.completed ++
      [{ b1 with processed_length := b1.buffer_length, status := MBO_SUCCESS },
       { b2 with processed_length := b2.buffer_length, status := MBO_SUCCESS }] ∧
    (enqueue (enqueue d c b1).2 c b2).2.i2s_base (REG_CCRn + 8 * c.toNat) &&& CHANNEL_EN
      = CHANNEL_EN ∧
    ((enqueue (enqueue d c b1).2 c b2).2.ch c.toNat).is_initialized = true ∧
    ((enqueue (enqueue d c b1).2 c b2).2.ch c.toNat).is_enabled = true ∧
    ((enqueue (enqueue d c b1).2 c b2).2.ch c.toNat).pending_list = [] := by
  have hn1 : ¬ ((0 + 1) % 256 ≥ INITAL_WR_BEFORE_EN) := by decide
  have hn2 : (1 + 1) % 256 ≥ INITAL_WR_BEFORE_EN := by decide
  have hne : ¬ MOST_CH_TX = MOST_CH_RX := by decide
  have e1 : enqueue d c b1 = (0, upd_ch d c.toNat (fun x =>
      { x with pending_list := x.pending_list ++ [b1], mbo_count := (x.mbo_count + 1) % 256 })) := by
    rw [enqueue_accept_eq d c b1 h0 h8 hinit hb1 hl1]
    simp [hen, hcnt, hn1]
  rw [e1]
  simp only
  generalize hd1 : upd_ch d c.toNat (fun x =>
      { x with pending_list := x.pending_list ++ [b1], mbo_count := (x.mbo_count + 1) % 256 }) = d1
  have c1 : d1.ch c.toNat = { d.ch c.toNat with pending_list := [b1], mbo_count := 1 } := by
    rw [← hd1]; simp [hp, hcnt]
  have e2 : enqueue d1 c b2 = (0, enable_i2s_channel (upd_ch d1 c.toNat (fun x =>
      { x with pending_list := x.pending_list ++ [b2], mbo_count := (x.mbo_count + 1) % 256 }))
      c.toNat) := by
    rw [enqueue_accept_eq d1 c b2 h0 h8 (by rw [c1]; exact hinit) hb2 hl2]
    simp [c1, hen, hn2]
  rw [e2]
  simp only
  generalize hd2 : upd_ch d1 c.toNat (fun x =>
      { x with pending_list := x.pending_list ++ [b2], mbo_count := (x.mbo_count + 1) % 256 }) = d2
  have c2 : d2.ch c.toNat = { d.ch c.toNat with pending_list := [b1, b2], mbo_count := 2 } := by
    rw [← hd2]; simp [c1]
  have k2 : d2.completed = d.completed := by rw [← hd2, ← hd1]; rfl
  obtain ⟨p1, p2⟩ := prefill_once_cons d2 c.toNat b1 [b2] (by rw [c2])
  obtain ⟨q1, q2⟩ := prefill_once_cons (prefill_once d2 c.toNat) c.toNat b2 [] (by rw [p1]; simp)
  obtain ⟨s1, s2, s3⟩ := enable_i2s_channel_spec d2 c.toNat
  have hdir2 : (d2.ch c.toNat).direction = MOST_CH_TX := by rw [c2]; exact hdir
  rw [if_pos hdir2] at s1 s2
  refine ⟨trivial, ?_, ?_, ?_, ?_, ?_, trivial, ?_, s3, ?_, ?_, ?_⟩
  · rw [c1]; exact hinit
  · rw [c1]; exact hen
  · rw [c1]
  · rw [← hd1]; rfl
  · rw [← hd1]; rfl
  · rw [s2, q2, p2, k2, p1]
    simp [c2, hdir, hne]
  · rw [s1, q1, p1]; simp [c2, hinit]
  · rw [s1, q1, p1]; simp
  · rw [s1, q1, p1]; simp

theorem tx_prefill_writes (d : hdm_i2s) (c : Int) (b1 b2 : mbo)
    (h0 : 0 ≤ c) (h8 : c < 8)
    (hinit : (d.ch c.toNat).is_initialized = true)
    (hen : (d.ch c.toNat).is_enabled = false)
    (hcnt : (d.ch c.toNat).mbo_count = 0)
    (hdir : (d.ch c.toNat).direction = MOST_CH_TX)
    (hp : (d.ch c.toNat).pending_list = [])
    (hb1 : b1.bus_address ≠ 0) (hl1 : b1.buffer_length % 4 = 0)
    (hb2 : b2.bus_address ≠ 0) (hl2 : b2.buffer_length % 4 = 0) :
    (enqueue (enqueue d c b1).2 c b2).2.i2s_writes = d.i2s_writes ++
      (List.range (b1.buffer_length / 4)).map
        (fun k => (REG_NBBARn + 8 * c.toNat, b1.data.getD k 0 % 2 ^ 32)) ++
      [(REG_CSRn + 8 * c.toNat, TX_SERV_REQ_INT),
       (REG_CCRn + 8 * c.toNat, (d.i2s_base (REG_CCRn + 8 * c.toNat) &&& TX_INT_MASK) % 2 ^ 32)] ++
      (List.range (b2.buffer_length / 4)).map
        (fun k => (REG_NBBARn + 8 * c.toNat, b2.data.getD k 0 % 2 ^ 32)) ++
      [(REG_CSRn + 8 * c.toNat, TX_SERV_REQ_INT),
       (REG_CCRn + 8 * c.toNat,
        ((d.i2s_base (REG_CCRn + 8 * c.toNat) &&& TX_INT_MASK) % 2 ^ 32 &&& TX_INT_MASK) % 2 ^ 32)] ++
      [(REG_CSRn + 8 * c.toNat, 0xFF),
       (if c.toNat < DMA_CHANNELS_PER_PORT then REG_DCCRA else REG_DCCRB,
        (d.i2s_base (if c.toNat < DMA_CHANNELS_PER_PORT then REG_DCCRA else REG_DCCRB) |||
          1 <<< (if c.toNat < DMA_CHANNELS_PER_PORT then c.toNat
            else c.toNat - DMA_CHANNELS_PER_PORT)) % 2 ^ 32),
       (REG_CCRn + 8 * c.toNat,
        (((d.i2s_base (REG_CCRn + 8 * c.toNat) &&& TX_INT_MASK) % 2 ^ 32 &&& TX_INT_MASK) % 2 ^ 32
          ||| CHANNEL_EN) % 2 ^ 32)] := by
  have hn1 : ¬ ((0 + 1) % 256 ≥ INITAL_WR_BEFORE_EN) := by decide
  have hn2 : (1 + 1) % 256 ≥ INITAL_WR_BEFORE_EN := by decide
  have e1 : enqueue d c b1 = (0, upd_ch d c.toNat (fun x =>
      { x with pending_list := x.pending_list ++ [b1], mbo_count := (x.mbo_count + 1) % 256 })) := by
    rw [enqueue_accept_eq d c b1 h0 h8 hinit hb1 hl1]
    simp [hen, hcnt, hn1]
  rw [e1]
  simp only
  generalize hd1 : upd_ch d c.toNat (fun x =>
      { x with pending_list := x.pending_list ++ [b1], mbo_count := (x.mbo_count + 1) % 256 }) = d1
  have c1 : d1.ch c.toNat = { d.ch c.toNat with pending_list := [b1], mbo_count := 1 } := by
    rw [← hd1]; simp [hp, hcnt]
  have e2 : enqueue d1 c b2 = (0, enable_i2s_channel (upd_ch d1 c.toNat (fun x =>
      { x with pending_list := x.pending_list ++ [b2], mbo_count := (x.mbo_count + 1) % 256 }))
      c.toNat) := by
    rw [enqueue_accept_eq d1 c b2 h0 h8 (by rw [c1]; exact hinit) hb2 hl2]
    simp [c1, hen, hn2]
  rw [e2]
  simp only
  generalize hd2 : upd_ch d1 c.toNat (fun x =>
      { x with pending_list := x.pending_list ++ [b2], mbo_count := (x.mbo_count + 1) % 256 }) = d2
  have c2 : d2.ch c.toNat = { d.ch c.toNat with pending_list := [b1, b2], mbo_count := 2 } := by
    rw [← hd2]; simp [c1]
  have w2 : d2.i2s_writes = d.i2s_writes := by rw [← hd2, ← hd1]; rfl
  have g2 : d2.i2s_base = d.i2s_base := by rw [← hd2, ← hd1]; rfl
  have hdir2 : (d2.ch c.toNat).direction = MOST_CH_TX := by rw [c2]; exact hdir
  obtain ⟨p1, _⟩ := prefill_once_cons d2 c.toNat b1 [b2] (by rw [c2])
  obtain ⟨x1, x2, x3⟩ := prefill_once_io d2 c.toNat b1 [b2] (by rw [c2]) hdir2
  obtain ⟨y1, y2, y3⟩ := prefill_once_io (prefill_once d2 c.toNat) c.toNat b2 []
    (by rw [p1]; simp) (by rw [p1]; simpa using hdir2)
  have hdccr : ∀ o, o = REG_DCCRA ∨ o = REG_DCCRB →
      (prefill_once (prefill_once d2 c.toNat) c.toNat).i2s_base o = d.i2s_base o := by
    intro o ho
    have o1 : o ≠ REG_NBBARn + c.toNat * 8 := by
      rcases ho with h | h <;> rw [h] <;> simp only [REG_DCCRA, REG_DCCRB, REG_NBBARn] <;> omega
    have o2 : o ≠ REG_CSRn + c.toNat * 8 := by
      rcases ho with h | h <;> rw [h] <;> simp only [REG_DCCRA, REG_DCCRB, REG_CSRn] <;> omega
    have o3 : o ≠ REG_CCRn + c.toNat * 8 := by
      rcases ho with h | h <;> rw [h] <;> simp only [REG_DCCRA, REG_DCCRB, REG_CCRn] <;> omega
    rw [y3 o o1 o2 o3, x3 o o1 o2 o3, g2]
  rw [enable_i2s_channel_io, if_pos hdir2, y1, y2, x1, x2, w2, g2,
    hdccr _ (by split_ifs <;> simp), Nat.mul_comm c.toNat 8]

theorem configure_channel_ok_state (d : hdm_i2s) (c : Int) (cfg : most_channel_config)
    (h : (configure_channel d c cfg).1 = 0) :
    0 ≤ c ∧ c < 8 ∧ (d.ch c.toNat).is_initialized = false ∧
    (configure_channel d c cfg).2.ch c.toNat =
      { d.ch c.toNat with bytes_per_frame := cfg.subbuffer_size % 256
                          direction := cfg.direction
                          is_initialized := true, is_enabled := false, mbo_count := 0 } := by
  have e1 : (-ECHRNG : Int) ≠ 0 := by decide
  have e2 : (-EPERM : Int) ≠ 0 := by decide
  have e3 : (-EINVAL : Int) ≠ 0 := by decide
  have e4 : (-ENODEV : Int) ≠ 0 := by decide
  by_cases hr : c < 0 ∨ c ≥ (DMA_CHANNELS : Nat)
  · simp [configure_channel, hr, e1] at h
  · have h08 : 0 ≤ c ∧ c < 8 := by
      simp only [DMA_CHANNELS, DMA_CHANNELS_PER_PORT] at hr
      push_cast at hr
      omega
    refine ⟨h08.1, h08.2, ?_⟩
    simp only [configure_channel, hr, if_false] at h ⊢
    split_ifs at h ⊢ with h1 h2 h3 h4
    · exact absurd h e2
    · exact absurd h e2
    · exact absurd h e3
    · exact absurd h e4
    · refine ⟨by simpa using h1, ?_⟩
      simp [init_i2s_channel_ch]

/-! ## Uninitialised channels hold no buffer -/

theorem idle_quiet {d e : hdm_i2s}
    (hI : ∀ j, (d.ch j).is_initialized = false → (d.ch j).pending_list = [])
    (hq : Quiet d e) :
    ∀ j, (e.ch j).is_initialized = false → (e.ch j).pending_list = [] := by
  intro j hj
  obtain ⟨hinit, k, hk⟩ := hq.1 j
  have := hI j (by rw [← hinit]; exact hj)
  rw [this] at hk
  exact (List.append_eq_nil.1 hk.symm).2

theorem idle_step (d : hdm_i2s) (st : Step)
    (hI : ∀ j, (d.ch j).is_initialized = false → (d.ch j).pending_list = []) :
    ∀ j, ((step d st).ch j).is_initialized = false → ((step d st).ch j).pending_list = [] := by
  cases st with
  | configure c cfg =>
    intro j hj
    obtain ⟨h1, _⟩ := configure_channel_effect d c cfg
    simp only [step] at hj ⊢
    rw [(h1 j).1]
    apply hI
    by_contra hne
    have := (h1 j).2 (by simpa using hne)
    rw [this] at hj
    exact Bool.noConfusion hj
  | enqueue c m =>
    rcases enqueue_cases d c m with ⟨_, heq⟩ | ⟨_, h0, h8, hi, hb, hl⟩
    · simpa [step, heq] using hI
    · obtain ⟨k, hq⟩ := enqueue_accept_quiet d c m h0 h8 hi hb hl
      refine idle_quiet ?_ hq
      intro j hj
      by_cases hjc : j = c.toNat
      · subst hjc; simp [hi] at hj
      · simp only [upd_ch_ch, Function.update_noteq hjc] at hj ⊢; exact hI j hj
  | poison c =>
    rcases poison_channel_cases d c with ⟨_, heq⟩ | ⟨_, h0, h8, hi⟩
    · simpa [step, heq] using hI
    · obtain ⟨_, h2, _⟩ := poison_channel_spec d c h0 h8 hi
      intro j hj
      simp only [step] at hj ⊢
      rw [h2] at hj ⊢
      by_cases hjc : j = c.toNat
      · subst hjc; simp
      · simp only [Function.update_noteq hjc] at hj ⊢; exact hI j hj
  | irq => exact idle_quiet hI (i2s_isr_quiet d)
  | tasklet =>
    have h1 : Quiet d { d with tasklet_scheduled := false } :=
      quiet_of_same _ _ (fun _ => ⟨rfl, rfl⟩) rfl
    exact idle_quiet hI (Quiet.trans h1 (i2s_tasklet_fn_quiet _))
  | hw o v =>
    exact idle_quiet hI (quiet_of_same _ _ (fun _ => ⟨rfl, rfl⟩) rfl)

theorem idle_run (d : hdm_i2s) (steps : List Step)
    (hI : ∀ j, (d.ch j).is_initialized = false → (d.ch j).pending_list = []) :
    ∀ j, ((run d steps).ch j).is_initialized = false → ((run d steps).ch j).pending_list = [] := by
  induction steps generalizing d with
  | nil => exact hI
  | cons st rest ih => exact ih (step d st) (idle_step d st hI)

/-- C2: on a device reached from attach by any run, right after a
successful `configure_channel` of a channel for transmission, with the
pre-fill threshold `INITAL_WR_BEFORE_EN` = 4096 / 1984 = 2: the first
accepted `enqueue` leaves the channel initialised and not enabled, with the
buffer pending, no completion and no register write; the second accepted
`enqueue` performs exactly two buffer transfers, of the first buffer and then
of the second: each writes the words 0 .. L/4 - 1 of its buffer, in this
order, to the channel's `REG_NBBARn`, then the Tx service request bit to
`REG_CSRn` and the masked control value to `REG_CCRn`; after the two
transfers come exactly three more register writes, 0xFF to `REG_CSRn`, the
channel's bit or-ed into the port's configuration register and `CHANNEL_EN`
or-ed into `REG_CCRn`. The second `enqueue` completes exactly the two
buffers, oldest first, each with the success status and `processed_length`
equal to its length, and leaves `CHANNEL_EN` set in the channel's `REG_CCRn`
and the channel enabled with an empty pending queue. -/
theorem tx_prefill_threshold (regs : Nat → Nat) (fifo : Nat → Nat → Nat) (clk : clk_gen)
    (steps : List Step)
    (ch_idx : Int) (cfg : most_channel_config) (b1 b2 : mbo) (d : hdm_i2s)
    (hd : d = (configure_channel (run (i2s_probe regs fifo clk) steps) ch_idx cfg).2)
    (hok : (configure_channel (run (i2s_probe regs fifo clk) steps) ch_idx cfg).1 = 0)
    (hdir : cfg.direction = MOST_CH_TX)
    (hb1 : b1.bus_address ≠ 0) (hl1 : b1.buffer_length % 4 = 0)
    (hb2 : b2.bus_address ≠ 0) (hl2 : b2.buffer_length % 4 = 0) :
    INITAL_WR_BEFORE_EN = 2 ∧ FIFO_WIDTH / MAX_BUF_SIZE_STREAMING = 2 ∧
    (enqueue d ch_idx b1).1 = 0 ∧
    ((enqueue d ch_idx b1).2.ch ch_idx.toNat).is_initialized = true ∧
    ((enqueue d ch_idx b1).2.ch ch_idx.toNat).is_enabled = false ∧
    ((enqueue d ch_idx b1).2.ch ch_idx.toNat).pending_list = [b1] ∧
    (enqueue d ch_idx b1).2.completed = d.completed ∧
    (enqueue d ch_idx b1).2.i2s_writes = d.i2s_writes ∧
    (enqueue (enqueue d ch_idx b1).2 ch_idx b2).1 = 0 ∧
    (enqueue (enqueue d ch_idx b1).2 ch_idx b2).2.completed = d.completed ++
      [{ b1 with processed_length := b1.buffer_length, status := MBO_SUCCESS },
       { b2 with processed_length := b2.buffer_length, status := MBO_SUCCESS }] ∧
    (enqueue (enqueue d ch_idx b1).2 ch_idx b2).2.i2s_base (REG_CCRn + 8 * ch_idx.toNat)
      &&& CHANNEL_EN = CHANNEL_EN ∧
    ((enqueue (enqueue d ch_idx b1).2 ch_idx b2).2.ch ch_idx.toNat).is_initialized = true ∧
    ((enqueue (enqueue d ch_idx b1).2 ch_idx b2).2.ch ch_idx.toNat).is_enabled = true ∧
    ((enqueue (enqueue d ch_idx b1).2 ch_idx b2).2.ch ch_idx.toNat).pending_list = [] ∧
    (enqueue (enqueue d ch_idx b1).2 ch_idx b2).2.i2s_writes = d.i2s_writes ++
      (List.range (b1.buffer_length / 4)).map
        (fun k => (REG_NBBARn + 8 * ch_idx.toNat, b1.data.getD k 0 % 2 ^ 32)) ++
      [(REG_CSRn + 8 * ch_idx.toNat, TX_SERV_REQ_INT),
       (REG_CCRn + 8 * ch_idx.toNat,
        (d.i2s_base (REG_CCRn + 8 * ch_idx.toNat) &&& TX_INT_MASK) % 2 ^ 32)] ++
      (List.range (b2.buffer_length / 4)).map
        (fun k => (REG_NBBARn + 8 * ch_idx.toNat, b2.data.getD k 0 % 2 ^ 32)) ++
      [(REG_CSRn + 8 * ch_idx.toNat, TX_SERV_REQ_INT),
       (REG_CCRn + 8 * ch_idx.toNat,
        ((d.i2s_base (REG_CCRn + 8 * ch_idx.toNat) &&& TX_INT_MASK) % 2 ^ 32 &&& TX_INT_MASK)
          % 2 ^ 32)] ++
      [(REG_CSRn + 8 * ch_idx.toNat, 0xFF),
       (if ch_idx.toNat < DMA_CHANNELS_PER_PORT then REG_DCCRA else REG_DCCRB,
        (d.i2s_base (if ch_idx.toNat < DMA_CHANNELS_PER_PORT then REG_DCCRA else REG_DCCRB) |||
          1 <<< (if ch_idx.toNat < DMA_CHANNELS_PER_PORT then ch_idx.toNat
            else ch_idx.toNat - DMA_CHANNELS_PER_PORT)) % 2 ^ 32),
       (REG_CCRn + 8 * ch_idx.toNat,
        (((d.i2s_base (REG_CCRn + 8 * ch_idx.toNat) &&& TX_INT_MASK) % 2 ^ 32 &&& TX_INT_MASK)
          % 2 ^ 32 ||| CHANNEL_EN) % 2 ^ 32)] := by
  obtain ⟨h0, h8, hu, hc⟩ := configure_channel_ok_state _ ch_idx cfg hok
  have hidle := idle_run (i2s_probe regs fifo clk) steps (fun _ _ => rfl) ch_idx.toNat hu
  rw [← hd] at hc
  obtain ⟨a1, a2, a3, a4, a5, a6, a7, a8, a9, a10, a11, a12⟩ :=
    tx_prefill_core d ch_idx b1 b2 h0 h8 (by rw [hc]) (by rw [hc])
      (by rw [hc]) (by rw [hc]; exact hdir) (by rw [hc]; exact hidle) hb1 hl1 hb2 hl2
  exact ⟨by decide, by decide, a1, a2, a3, a4, a5, a6, a7, a8, a9, a10, a11, a12,
    tx_prefill_writes d ch_idx b1 b2 h0 h8 (by rw [hc]) (by rw [hc])
      (by rw [hc]) (by rw [hc]; exact hdir) (by rw [hc]; exact hidle) hb1 hl1 hb2 hl2⟩

/-- C2 on channel 0 of the sample device, configured after an earlier
configure, enqueue and poison of the same channel: the second enqueue writes
the two words of the first buffer and the two words of the second to
`REG_NBBARn` and completes both buffers. -/
theorem tx_prefill_threshold_witness :
    (enqueue (enqueue dev_tx0_again 0 (buf 1)).2 0 (buf 2)).2.completed =
      [{ buf 7 with processed_length := 0, status := MBO_E_CLOSE },
       { buf 1 with processed_length := 8, status := MBO_SUCCESS },
       { buf 2 with processed_length := 8, status := MBO_SUCCESS }] ∧
    (enqueue (enqueue dev_tx0_again 0 (buf 1)).2 0 (buf 2)).2.i2s_writes =
      dev_tx0_again.i2s_writes ++
        [(REG_NBBARn, 1), (REG_NBBARn, 101), (REG_CSRn, TX_SERV_REQ_INT), (REG_CCRn, 0x4010D7),
         (REG_NBBARn, 2), (REG_NBBARn, 102), (REG_CSRn, TX_SERV_REQ_INT), (REG_CCRn, 0x4010D7),
         (REG_CSRn, 0xFF), (REG_DCCRA, 1), (REG_CCRn, 0xC010D7)] := by
  have h := tx_prefill_threshold (fun _ => 0) (fun _ n => n) ⟨fun _ => MMCM_LOCKED, 0, []⟩
    [.configure 0 (cfg_sync MOST_CH_RX), .enqueue 0 (buf 7), .poison 0] 0 (cfg_sync MOST_CH_TX)
    (buf 1) (buf 2) dev_tx0_again rfl (by decide) (by decide) (by decide) (by decide) (by decide)
    (by decide)
  refine ⟨h.2.2.2.2.2.2.2.2.2.1, ?_⟩
  rw [h.2.2.2.2.2.2.2.2.2.2.2.2.2.2]
  decide

/-! ## A configured channel stays configured until it is poisoned -/

theorem step_keeps_initialized (d : hdm_i2s) (st : Step) (i : Int)
    (h0 : 0 ≤ i) (h8 : i < 8) (hst : st ≠ Step.poison i)
    (hinit : (d.ch i.toNat).is_initialized = true) :
    ((step d st).ch i.toNat).is_initialized = true := by
  cases st with
  | configure c cfg => exact ((configure_channel_effect d c cfg).1 i.toNat).2 hinit
  | enqueue c m =>
    rcases enqueue_cases d c m with ⟨_, heq⟩ | ⟨_, g0, g8, hi, hb, hl⟩
    · simpa [step, heq] using hinit
    · obtain ⟨k, hq⟩ := enqueue_accept_quiet d c m g0 g8 hi hb hl
      simp only [step]
      rw [(hq.1 i.toNat).1]
      by_cases hjc : i.toNat = c.toNat
      · rw [hjc]; simp [hi]
      · simp only [upd_ch_ch, Function.update_noteq hjc]; exact hinit
  | poison c =>
    have hci : c ≠ i := fun h => hst (by rw [h])
    rcases poison_channel_cases d c with ⟨_, heq⟩ | ⟨_, g0, g8, hi⟩
    · simpa [step, heq] using hinit
    · obtain ⟨_, h2, _⟩ := poison_channel_spec d c g0 g8 hi
      have hne : i.toNat ≠ c.toNat := by omega
      simp only [step]
      rw [h2, Function.update_noteq hne]
      exact hinit
  | irq =>
    simp only [step]
    rw [((i2s_isr_quiet d).1 i.toNat).1]; exact hinit
  | tasklet =>
    simp only [step]
    rw [((i2s_tasklet_fn_quiet _).1 i.toNat).1]; exact hinit
  | hw o v => exact hinit

theorem run_keeps_initialized (d : hdm_i2s) (steps : List Step) (i : Int)
    (h0 : 0 ≤ i) (h8 : i < 8) (hst : Step.poison i ∉ steps)
    (hinit : (d.ch i.toNat).is_initialized = true) :
    ((run d steps).ch i.toNat).is_initialized = true := by
  induction steps generalizing d with
  | nil => exact hinit
  | cons st rest ih =>
    have h1 : st ≠ Step.poison i := fun h => hst (by simp [h])
    have h2 : Step.poison i ∉ rest := fun h => hst (List.mem_cons_of_mem _ h)
    exact ih (step d st) h2 (step_keeps_initialized d st i h0 h8 h1 hinit)

theorem configure_channel_initialized (d : hdm_i2s) (c : Int) (cfg : most_channel_config)
    (h0 : 0 ≤ c) (h8 : c < 8) (hi : (d.ch c.toNat).is_initialized = true) :
    configure_channel d c cfg = (-EPERM, d) := by
  simp [configure_channel, in_range_guard c h0 h8, hi]

/-- C4: once `configure_channel` has returned 0 for a channel, after any run
of configure, enqueue, poison, interrupt, tasklet and hardware steps that
does not poison this channel, a further `configure_channel` of it, with any
configuration, returns `-EPERM` and hands the device back as it was (so the
channel's state, `bytes_per_frame`, direction, pre-fill counter and the
registers are unchanged). -/
theorem configure_twice_rejected (dev : hdm_i2s) (ch_idx : Int)
    (cfg cfg2 : most_channel_config) (steps : List Step)
    (hok : (configure_channel dev ch_idx cfg).1 = 0)
    (hnp : Step.poison ch_idx ∉ steps) :
    configure_channel (run (configure_channel dev ch_idx cfg).2 steps) ch_idx cfg2
      = (-EPERM, run (configure_channel dev ch_idx cfg).2 steps) := by
  obtain ⟨h0, h8, _, _⟩ := configure_channel_ok_state dev ch_idx cfg hok
  have hi := run_keeps_initialized _ steps ch_idx h0 h8 hnp
    (configure_channel_ok_init dev ch_idx cfg hok)
  exact configure_channel_initialized _ ch_idx cfg2 h0 h8 hi

/-- C4 on channel 0 of the sample device, with two enqueues, an interrupt, a
tasklet run and a poison of channel 1 in between. -/
theorem configure_twice_rejected_witness :
    (configure_channel (run (configure_channel dev_locked 0 (cfg_sync MOST_CH_TX)).2
      [.enqueue 0 (buf 1), .enqueue 0 (buf 2), .hw REG_DSCR 1, .irq, .tasklet, .poison 1])
      0 (cfg_sync MOST_CH_RX)).1 = -EPERM :=
  congrArg Prod.fst (configure_twice_rejected dev_locked 0 (cfg_sync MOST_CH_TX)
    (cfg_sync MOST_CH_RX)
    [.enqueue 0 (buf 1), .enqueue 0 (buf 2), .hw REG_DSCR 1, .irq, .tasklet, .poison 1]
    (by decide) (by decide))

/-! ## Every accepted buffer is handed back exactly once -/

/-- C10: along every run from attach in which `enqueue` is never handed a
buffer the engine owns at that moment, for every buffer: its completions
never outnumber its acceptances by `enqueue`; its acceptances are matched,
one for one, by its completions plus at most one pending entry (so the
acceptance that is still pending has not been completed, and no acceptance is
completed twice); a successful `poison_channel` leaves every buffer that was
pending on the channel not pending and completed once per acceptance; and
every completion carries the success status (a transfer) or the closed
status (the drain). -/
theorem buffer_completed_once (regs : Nat → Nat) (fifo : Nat → Nat → Nat) (clk : clk_gen)
    (steps : List Step)
    (hf : fresh (i2s_probe regs fifo clk) steps = true) :
    (∀ id, comp_count (run (i2s_probe regs fifo clk) steps) id
      ≤ (accepted (i2s_probe regs fifo clk) steps).count id) ∧
    (∀ id, pend_count (run (i2s_probe regs fifo clk) steps) id
        + comp_count (run (i2s_probe regs fifo clk) steps) id
        = (accepted (i2s_probe regs fifo clk) steps).count id ∧
      pend_count (run (i2s_probe regs fifo clk) steps) id ≤ 1) ∧
    (∀ c : Int, (poison_channel (run (i2s_probe regs fifo clk) steps) c).1 = 0 →
      ∀ m ∈ ((run (i2s_probe regs fifo clk) steps).ch c.toNat).pending_list,
        pend_count (poison_channel (run (i2s_probe regs fifo clk) steps) c).2 m.id = 0 ∧
        comp_count (poison_channel (run (i2s_probe regs fifo clk) steps) c).2 m.id
          = (accepted (i2s_probe regs fifo clk) steps).count m.id) ∧
    (∀ m ∈ (run (i2s_probe regs fifo clk) steps).completed,
      m.status = MBO_SUCCESS ∨ m.status = MBO_E_CLOSE) := by
  have hI := inv_run (inv_probe regs fifo clk) steps hf
  rw [List.nil_append] at hI
  obtain ⟨_, i2, i3, i4⟩ := hI
  refine ⟨fun id => ?_, fun id => ⟨i2 id, i3 id⟩, fun c hc m hm => ?_, i4⟩
  · have := i2 id; omega
  · rcases poison_channel_cases (run (i2s_probe regs fifo clk) steps) c with ⟨hne, _⟩ | ⟨_, h0, h8, hi⟩
    · exact absurd hc hne
    · obtain ⟨_, h2, h3⟩ := poison_channel_spec _ c h0 h8 hi
      have hI2 := inv_run (inv_probe regs fifo clk) steps hf
      rw [List.nil_append] at hI2
      obtain ⟨⟨_, j2, _, _⟩, hp⟩ := inv_drain hI2 c.toNat (by omega) h2 h3
      have hm1 : 1 ≤ (((run (i2s_probe regs fifo clk) steps).ch c.toNat).pending_list.map
          (fun m => m.id)).count m.id :=
        List.count_pos_iff.2 (List.mem_map.2 ⟨m, hm, rfl⟩)
      have h4 := hp m.id
      have h5 := i3 m.id
      have h6 := j2 m.id
      constructor <;> omega

/-- C10 on a run that configures channel 0 for transmission, pre-fills it
with two buffers, services an interrupt, queues a third buffer and poisons
the channel: the third buffer is handed back exactly once. -/
theorem buffer_completed_once_witness :
    pend_count (run (i2s_probe (fun _ => 0) (fun _ n => n) ⟨fun _ => MMCM_LOCKED, 0, []⟩)
      [.configure 0 (cfg_sync MOST_CH_TX), .enqueue 0 (buf 1), .enqueue 0 (buf 2),
       .hw REG_DSCR 1, .irq, .tasklet, .enqueue 0 (buf 3), .poison 0]) 3
      + comp_count (run (i2s_probe (fun _ => 0) (fun _ n => n) ⟨fun _ => MMCM_LOCKED, 0, []⟩)
      [.configure 0 (cfg_sync MOST_CH_TX), .enqueue 0 (buf 1), .enqueue 0 (buf 2),
       .hw REG_DSCR 1, .irq, .tasklet, .enqueue 0 (buf 3), .poison 0]) 3
      = (accepted (i2s_probe (fun _ => 0) (fun _ n => n) ⟨fun _ => MMCM_LOCKED, 0, []⟩)
      [.configure 0 (cfg_sync MOST_CH_TX), .enqueue 0 (buf 1), .enqueue 0 (buf 2),
       .hw REG_DSCR 1, .irq, .tasklet, .enqueue 0 (buf 3), .poison 0]).count 3 :=
  ((buffer_completed_once (fun _ => 0) (fun _ n => n) ⟨fun _ => MMCM_LOCKED, 0, []⟩
    [.configure 0 (cfg_sync MOST_CH_TX), .enqueue 0 (buf 1), .enqueue 0 (buf 2),
     .hw REG_DSCR 1, .irq, .tasklet, .enqueue 0 (buf 3), .poison 0] (by decide)).2.1 3).1


/-! ## Operations on an uninitialised channel -/

/-- C16: on an in-range uninitialised channel, `enqueue` and
`poison_channel` each return `-EPERM` and hand the device back as it was: no
buffer is queued or drained, no completion callback is called and no register
is written. -/
theorem uninitialized_rejected (dev : hdm_i2s) (ch_idx : Int) (m : mbo)
    (h0 : 0 ≤ ch_idx) (h8 : ch_idx < 8)
    (hu : (dev.ch ch_idx.toNat).is_initialized = false) :
    enqueue dev ch_idx m = (-EPERM, dev) ∧ poison_channel dev ch_idx = (-EPERM, dev) := by
  simp [enqueue, poison_channel, in_range_guard ch_idx h0 h8, hu]

/-- C16 on channel 0 of the sample device after it was configured, loaded
with one buffer and poisoned. -/
theorem uninitialized_rejected_witness :
    enqueue (poison_channel (enqueue dev_tx0 0 (buf 1)).2 0).2 0 (buf 2)
      = (-EPERM, (poison_channel (enqueue dev_tx0 0 (buf 1)).2 0).2) ∧
    poison_channel (poison_channel (enqueue dev_tx0 0 (buf 1)).2 0).2 0
      = (-EPERM, (poison_channel (enqueue dev_tx0 0 (buf 1)).2 0).2) :=
  uninitialized_rejected (poison_channel (enqueue dev_tx0 0 (buf 1)).2 0).2 0 (buf 2)
    (by decide) (by decide) (by decide)

/-! ## The address `enqueue` tests -/

/-- The guard `enqueue` has is on the bus address: on an in-range initialised
channel, a buffer whose `bus_address` is null is refused with `-EFAULT`,
whatever its `virt_address`, and the device (pending queue and pre-fill
counter included) is handed back as it was. -/
theorem enqueue_null_bus_address_rejected (dev : hdm_i2s) (ch_idx : Int) (m : mbo)
    (h0 : 0 ≤ ch_idx) (h8 : ch_idx < 8)
    (hi : (dev.ch ch_idx.toNat).is_initialized = true)
    (hb : m.bus_address = 0) :
    enqueue dev ch_idx m = (-EFAULT, dev) := by
  simp [enqueue, in_range_guard ch_idx h0 h8, hi, hb]

/-- The guard on the bus address, at a buffer with a null bus address on
channel 0. -/
theorem enqueue_null_bus_address_rejected_witness :
    enqueue dev_tx0 0 { buf 1 with bus_address := 0 } = (-EFAULT, dev_tx0) :=
  enqueue_null_bus_address_rejected dev_tx0 0 { buf 1 with bus_address := 0 }
    (by decide) (by decide) (by decide) (by decide)

/-! ## `enqueue` on a receive channel -/

/-- C11 as stated fails: on a channel configured for reception the first
accepted `enqueue` raises the pre-fill counter to 1, and the second sets
`CHANNEL_EN` and leaves the channel enabled (no buffer is transferred). -/
theorem rx_enqueue_counts_and_enables :
    (dev_rx0.ch 0).direction = MOST_CH_RX ∧ (dev_rx0.ch 0).mbo_count = 0 ∧
    (dev_rx0.ch 0).is_enabled = false ∧
    ((enqueue dev_rx0 0 (buf 1)).2.ch 0).mbo_count = 1 ∧
    (enqueue (enqueue dev_rx0 0 (buf 1)).2 0 (buf 2)).1 = 0 ∧
    ((enqueue (enqueue dev_rx0 0 (buf 1)).2 0 (buf 2)).2.ch 0).is_enabled = true ∧
    (enqueue (enqueue dev_rx0 0 (buf 1)).2 0 (buf 2)).2.i2s_base REG_CCRn &&& CHANNEL_EN
      = CHANNEL_EN ∧
    (enqueue (enqueue dev_rx0 0 (buf 1)).2 0 (buf 2)).2.completed = [] := by
  decide

/-- C11 amended: on an in-range initialised channel whose direction is Rx,
an accepted `enqueue` returns 0, appends the buffer to the pending queue and
completes no buffer. On an enabled channel that is all it does (counter,
flags and registers are unchanged). On a channel that is not enabled it also
increments the pre-fill counter (modulo 256); while the new count is below
`INITAL_WR_BEFORE_EN` = 2 the channel stays not enabled and no register is
written, and when it reaches 2 `CHANNEL_EN` is set in the channel's
`REG_CCRn` and the channel becomes enabled. -/
theorem rx_enqueue_effect (dev : hdm_i2s) (ch_idx : Int) (m : mbo)
    (h0 : 0 ≤ ch_idx) (h8 : ch_idx < 8)
    (hi : (dev.ch ch_idx.toNat).is_initialized = true)
    (hdir : (dev.ch ch_idx.toNat).direction = MOST_CH_RX)
    (hb : m.bus_address ≠ 0) (hl : m.buffer_length % 4 = 0) :
    (enqueue dev ch_idx m).1 = 0 ∧
    ((enqueue dev ch_idx m).2.ch ch_idx.toNat).pending_list
      = (dev.ch ch_idx.toNat).pending_list ++ [m] ∧
    (enqueue dev ch_idx m).2.completed = dev.completed ∧
    ((dev.ch ch_idx.toNat).is_enabled = true →
      (enqueue dev ch_idx m).2 =
        upd_ch dev ch_idx.toNat (fun c => { c with pending_list := c.pending_list ++ [m] })) ∧
    ((dev.ch ch_idx.toNat).is_enabled = false →
      ((enqueue dev ch_idx m).2.ch ch_idx.toNat).mbo_count
        = ((dev.ch ch_idx.toNat).mbo_count + 1) % 256 ∧
      (((dev.ch ch_idx.toNat).mbo_count + 1) % 256 < INITAL_WR_BEFORE_EN →
        ((enqueue dev ch_idx m).2.ch ch_idx.toNat).is_enabled = false ∧
        (enqueue dev ch_idx m).2.i2s_writes = dev.i2s_writes) ∧
      (INITAL_WR_BEFORE_EN ≤ ((dev.ch ch_idx.toNat).mbo_count + 1) % 256 →
        ((enqueue dev ch_idx m).2.ch ch_idx.toNat).is_enabled = true ∧
        (enqueue dev ch_idx m).2.i2s_base (REG_CCRn + 8 * ch_idx.toNat) &&& CHANNEL_EN
          = CHANNEL_EN)) := by
  have hne : ¬ MOST_CH_RX = MOST_CH_TX := by decide
  rw [enqueue_accept_eq dev ch_idx m h0 h8 hi hb hl]
  by_cases he : (dev.ch ch_idx.toNat).is_enabled = true
  · simp [he]
  · have he2 : (dev.ch ch_idx.toNat).is_enabled = false := by simpa using he
    by_cases hc : ((dev.ch ch_idx.toNat).mbo_count + 1) % 256 ≥ INITAL_WR_BEFORE_EN
    · obtain ⟨s1, s2, s3⟩ := enable_i2s_channel_spec
        (upd_ch dev ch_idx.toNat (fun c =>
          { c with pending_list := c.pending_list ++ [m]
                   mbo_count := (c.mbo_count + 1) % 256 })) ch_idx.toNat
      have hd : ¬ ((upd_ch dev ch_idx.toNat (fun c =>
          { c with pending_list := c.pending_list ++ [m]
                   mbo_count := (c.mbo_count + 1) % 256 })).ch ch_idx.toNat).direction
          = MOST_CH_TX := by
        simp [hdir, hne]
      rw [if_neg hd] at s1 s2
      simp only [he2, hc, if_true]
      refine ⟨trivial, ?_, ?_, ?_, ?_⟩
      · rw [s1]; simp
      · rw [s2]; rfl
      · intro h; exact absurd h (by simp)
      · intro _
        refine ⟨?_, ?_, ?_⟩
        · rw [s1]; simp
        · intro hlt; exact absurd hc (by omega)
        · intro _
          exact ⟨by rw [s1]; simp, s3⟩
    · simp only [he2, hc, if_true, if_false]
      refine ⟨trivial, by simp, rfl, ?_, ?_⟩
      · intro h; exact absurd h (by simp)
      · intro _
        refine ⟨by simp, ?_, ?_⟩
        · intro _; exact ⟨by simp [he2], rfl⟩
        · intro hge; exact hge.elim

/-- C11 amended, at the first buffer queued on the receive channel 0. -/
theorem rx_enqueue_effect_witness :
    (enqueue dev_rx0 0 (buf 1)).1 = 0 ∧
    ((enqueue dev_rx0 0 (buf 1)).2.ch 0).pending_list = [buf 1] ∧
    (enqueue dev_rx0 0 (buf 1)).2.completed = [] :=
  have h := rx_enqueue_effect dev_rx0 0 (buf 1) (by decide) (by decide) (by decide) (by decide)
    (by decide) (by decide)
  ⟨h.1, h.2.1, h.2.2.1⟩

/-! ## The control surface: unknown texts -/

theorem port_clock_speed_parse_unknown (p : i2s_port) (b : String) (h : b ∉ clock_speed_texts) :
    port_clock_speed_parse p b = { p with clk_speed := I2S_CLK_UDEF } := by
  simp only [clock_speed_texts, List.mem_cons, List.mem_singleton, List.not_mem_nil, or_false,
    not_or] at h
  simp [port_clock_speed_parse, h]

theorem port_clock_mode_parse_unknown (p : i2s_port) (b : String) (h : b ∉ clock_mode_texts) :
    port_clock_mode_parse p b = { p with clk_mode := I2S_CLKMODE_UDEF } := by
  simp only [clock_mode_texts, List.mem_cons, List.mem_singleton, List.not_mem_nil, or_false,
    not_or] at h
  simp [port_clock_mode_parse, h]

theorem port_data_format_parse_unknown (p : i2s_port) (b : String)
    (h : b ∉ data_format_texts) :
    port_data_format_parse p b = { p with data_format := I2S_DATA_UDEF } := by
  simp only [data_format_texts, List.mem_cons, List.mem_singleton, List.not_mem_nil, or_false,
    not_or] at h
  simp [port_data_format_parse, h]

theorem port_enable_parse_unknown (p : i2s_port) (b : String) (h : b ∉ enable_texts) :
    port_enable_parse p b = none := by
  simp only [enable_texts, List.mem_cons, List.mem_singleton, List.not_mem_nil, or_false,
    not_or] at h
  simp [port_enable_parse, h]

/-- C17 as stated fails: written with a text outside its domain, the clock
speed setter of port A sets the field to undefined but returns the count,
the value of a successful write, not a failure. -/
theorem clock_speed_store_unknown_returns_count :
    "fast\n" ∉ clock_speed_texts ∧
    (port_a_clock_speed_store dev_locked "fast\n" 5).1 = 5 ∧
    ¬ (port_a_clock_speed_store dev_locked "fast\n" 5).1 < 0 ∧
    (port_a_clock_speed_store dev_locked "fast\n" 5).2.port_a.clk_speed = I2S_CLK_UDEF := by
  decide

/-- C17 amended: for the clock speed, clock mode and data format setters of
ports A and B and every text outside the setter's domain, the setter sets
its field to undefined, leaves everything else as it was, and returns
`count`, as for a recognised text: no error is signalled to the caller. -/
theorem port_setter_unknown_sets_undefined (dev : hdm_i2s) (b : String) (count : Nat) :
    (b ∉ clock_speed_texts →
      port_a_clock_speed_store dev b count =
        ((count : Int), { dev with port_a := { dev.port_a with clk_speed := I2S_CLK_UDEF } }) ∧
      port_b_clock_speed_store dev b count =
        ((count : Int), { dev with port_b := { dev.port_b with clk_speed := I2S_CLK_UDEF } })) ∧
    (b ∉ clock_mode_texts →
      port_a_clock_mode_store dev b count =
        ((count : Int), { dev with port_a := { dev.port_a with clk_mode := I2S_CLKMODE_UDEF } }) ∧
      port_b_clock_mode_store dev b count =
        ((count : Int), { dev with port_b := { dev.port_b with clk_mode := I2S_CLKMODE_UDEF } })) ∧
    (b ∉ data_format_texts →
      port_a_data_format_store dev b count =
        ((count : Int), { dev with port_a := { dev.port_a with data_format := I2S_DATA_UDEF } }) ∧
      port_b_data_format_store dev b count =
        ((count : Int), { dev with port_b := { dev.port_b with data_format := I2S_DATA_UDEF } })) := by
  refine ⟨fun h => ?_, fun h => ?_, fun h => ?_⟩
  · simp [port_a_clock_speed_store, port_b_clock_speed_store, port_clock_speed_parse_unknown _ b h]
  · simp [port_a_clock_mode_store, port_b_clock_mode_store, port_clock_mode_parse_unknown _ b h]
  · simp [port_a_data_format_store, port_b_data_format_store,
      port_data_format_parse_unknown _ b h]

/-- C17 amended, at the text "mono" written to the data format of port B. -/
theorem port_setter_unknown_sets_undefined_witness :
    port_b_data_format_store dev_port_b_ok "mono\n" 5 =
      (5, { dev_port_b_ok with
              port_b := { dev_port_b_ok.port_b with data_format := I2S_DATA_UDEF } }) :=
  ((port_setter_unknown_sets_undefined dev_port_b_ok "mono\n" 5).2.2 (by decide)).2

/-- C18 as stated fails: an unrecognised text written to the data format of
port B is not rejected (the result is the count) and changes the device: the
data format, left justified stereo before, is undefined afterwards. -/
theorem data_format_store_unknown_mutates :
    "mono\n" ∉ data_format_texts ∧
    dev_port_b_ok.port_b.data_format = I2S_DATA_LEFT_STEREO ∧
    (port_b_data_format_store dev_port_b_ok "mono\n" 5).1 = 5 ∧
    (port_b_data_format_store dev_port_b_ok "mono\n" 5).2.port_b.data_format = I2S_DATA_UDEF ∧
    (port_b_data_format_store dev_port_b_ok "mono\n" 5).2.port_b ≠ dev_port_b_ok.port_b := by
  decide

/-- C18 amended: an unrecognised text is rejected with `-EIO`, the device
unchanged, by the clock source setter and the two port enable setters; the
bus enable setter returns `count` for it and leaves the device unchanged; the
clock mode, clock speed and data format setters of both ports return `count`
and change exactly their own field, to undefined. -/
theorem unknown_text_effect (dev : hdm_i2s) (b : String) (count : Nat) :
    (b ∉ clock_source_texts → clock_source_store dev b count = (- EIO, dev)) ∧
    (b ∉ enable_texts →
      port_a_enable_store dev b count = (- EIO, dev) ∧
      port_b_enable_store dev b count = (- EIO, dev) ∧
      bus_enable_store dev b count = ((count : Int), dev)) ∧
    (b ∉ clock_mode_texts →
      (port_a_clock_mode_store dev b count).2 =
        { dev with port_a := { dev.port_a with clk_mode := I2S_CLKMODE_UDEF } } ∧
      (port_b_clock_mode_store dev b count).2 =
        { dev with port_b := { dev.port_b with clk_mode := I2S_CLKMODE_UDEF } }) ∧
    (b ∉ clock_speed_texts →
      (port_a_clock_speed_store dev b count).2 =
        { dev with port_a := { dev.port_a with clk_speed := I2S_CLK_UDEF } } ∧
      (port_b_clock_speed_store dev b count).2 =
        { dev with port_b := { dev.port_b with clk_speed := I2S_CLK_UDEF } }) ∧
    (b ∉ data_format_texts →
      (port_a_data_format_store dev b count).2 =
        { dev with port_a := { dev.port_a with data_format := I2S_DATA_UDEF } } ∧
      (port_b_data_format_store dev b count).2 =
        { dev with port_b := { dev.port_b with data_format := I2S_DATA_UDEF } }) := by
  refine ⟨fun h => ?_, fun h => ?_, fun h => ?_, fun h => ?_, fun h => ?_⟩
  · simp only [clock_source_texts, List.mem_cons, List.mem_singleton, List.not_mem_nil,
      or_false, not_or] at h
    simp [clock_source_store, h]
  · simp only [enable_texts, List.mem_cons, List.mem_singleton, List.not_mem_nil, or_false,
      not_or] at h
    refine ⟨?_, ?_, ?_⟩
    · simp [port_a_enable_store, port_enable_parse, h]
    · simp [port_b_enable_store, port_enable_parse, h]
    · simp [bus_enable_store, h]
  · simp [port_a_clock_mode_store, port_b_clock_mode_store, port_clock_mode_parse_unknown _ b h]
  · simp [port_a_clock_speed_store, port_b_clock_speed_store, port_clock_speed_parse_unknown _ b h]
  · simp [port_a_data_format_store, port_b_data_format_store,
      port_data_format_parse_unknown _ b h]

/-- C18 amended, at the text "on" written to the clock source and to the
enable attribute of port A. -/
theorem unknown_text_effect_witness :
    clock_source_store dev_port_b_ok "on\n" 3 = (- EIO, dev_port_b_ok) ∧
    port_a_enable_store dev_port_b_ok "on\n" 3 = (- EIO, dev_port_b_ok) :=
  ⟨(unknown_text_effect dev_port_b_ok "on\n" 3).1 (by decide),
   ((unknown_text_effect dev_port_b_ok "on\n" 3).2.1 (by decide)).1⟩

/-! ## Bus enable -/

theorem try_lock_loop_result (src n : Nat) (g : clk_gen) :
    (try_lock_loop src n g).1 = 0 ∨ (try_lock_loop src n g).1 = -ETIME := by
  induction n generalizing g with
  | zero => right; rfl
  | succ n ih =>
    simp only [try_lock_loop]
    split_ifs
    · left; rfl
    · exact ih _

theorem try_lock_clk_gen_result (g : clk_gen) (src : Nat) :
    (try_lock_clk_gen g src).1 = 0 ∨ (try_lock_clk_gen g src).1 = -ETIME :=
  try_lock_loop_result src 5 _

theorem i2s_enable_port_skip (p : i2s_port) (dccr : Nat) (r : Nat × hdm_i2s)
    (h : p.is_enabled = 0 ∨ p.clk_speed = I2S_CLK_UDEF ∨ p.clk_mode = I2S_CLKMODE_UDEF ∨
      get_i2s_dataformat_reg_val p.data_format = UNDEFINED) :
    i2s_enable_port p dccr r = r := by
  simp only [i2s_enable_port]
  rcases h with h | h | h | h
  · simp [h]
  · simp [h]
  · simp [h]
  · simp [h]

theorem i2s_enable_port_frame (p : i2s_port) (dccr : Nat) (r : Nat × hdm_i2s) :
    (∃ ws, (i2s_enable_port p dccr r).2.i2s_writes = r.2.i2s_writes ++ ws ∧
      ∀ w ∈ ws, w.1 = dccr) ∧
    (i2s_enable_port p dccr r).2.is_enabled = r.2.is_enabled ∧
    (i2s_enable_port p dccr r).2.clk_gen_base = r.2.clk_gen_base ∧
    (i2s_enable_port p dccr r).2.ch = r.2.ch ∧
    (i2s_enable_port p dccr r).2.completed = r.2.completed := by
  simp only [i2s_enable_port]
  split_ifs
  · refine ⟨⟨[(dccr, 0 % 2 ^ 32), (dccr, PORT_RST % 2 ^ 32), (dccr, 0 % 2 ^ 32),
        (dccr, PORT_EN % 2 ^ 32),
        (dccr, (PORT_EN ||| IO_MODE ||| p.clk_mode ||| p.clk_speed |||
          get_i2s_dataformat_reg_val p.data_format) % 2 ^ 32)], ?_, ?_⟩, rfl, rfl, rfl, rfl⟩
    · simp only [write_reg_i2s_writes, List.append_assoc, List.cons_append, List.nil_append]
    · intro w hw
      simp only [List.mem_cons, List.mem_singleton, List.not_mem_nil, or_false] at hw
      rcases hw with h | h | h | h | h <;> rw [h]
  · exact ⟨⟨[], by simp, by simp⟩, rfl, rfl, rfl, rfl⟩
  · exact ⟨⟨[], by simp, by simp⟩, rfl, rfl, rfl, rfl⟩

theorem i2s_enable_port_writes (p : i2s_port) (dccr : Nat) (r : Nat × hdm_i2s) :
    (i2s_enable_port p dccr r).2.i2s_writes = r.2.i2s_writes ++
      (if p.is_enabled ≠ 0 ∧ get_i2s_dataformat_reg_val p.data_format ≠ UNDEFINED ∧
          p.clk_speed ≠ I2S_CLK_UDEF ∧ p.clk_mode ≠ I2S_CLKMODE_UDEF then
        [(dccr, 0), (dccr, PORT_RST), (dccr, 0), (dccr, PORT_EN),
         (dccr, (PORT_EN ||| IO_MODE ||| p.clk_mode ||| p.clk_speed |||
            get_i2s_dataformat_reg_val p.data_format) % 2 ^ 32)]
      else []) := by
  have h1 : PORT_RST % 2 ^ 32 = PORT_RST := by decide
  have h2 : PORT_EN % 2 ^ 32 = PORT_EN := by decide
  by_cases he : p.is_enabled ≠ 0
  · by_cases hd : get_i2s_dataformat_reg_val p.data_format ≠ UNDEFINED ∧
        p.clk_speed ≠ I2S_CLK_UDEF ∧ p.clk_mode ≠ I2S_CLKMODE_UDEF
    · simp only [i2s_enable_port, if_pos he, if_pos hd, if_pos (And.intro he hd),
        write_reg_i2s_writes, List.append_assoc, List.cons_append, List.nil_append, h1, h2,
        Nat.zero_mod]
    · have hn : ¬ (p.is_enabled ≠ 0 ∧ get_i2s_dataformat_reg_val p.data_format ≠ UNDEFINED ∧
          p.clk_speed ≠ I2S_CLK_UDEF ∧ p.clk_mode ≠ I2S_CLKMODE_UDEF) := fun h => hd h.2
      simp only [i2s_enable_port, if_pos he, if_neg hd, if_neg hn, List.append_nil]
  · have hn : ¬ (p.is_enabled ≠ 0 ∧ get_i2s_dataformat_reg_val p.data_format ≠ UNDEFINED ∧
        p.clk_speed ≠ I2S_CLK_UDEF ∧ p.clk_mode ≠ I2S_CLKMODE_UDEF) := fun h => he h.1
    simp only [i2s_enable_port, if_neg he, if_neg hn, List.append_nil]

theorem get_i2s_dataformat_reg_val_lt (f : Nat) : get_i2s_dataformat_reg_val f < 2 ^ 32 := by
  unfold get_i2s_dataformat_reg_val
  split_ifs <;> decide

theorem get_i2s_dataformat_reg_val_defined (f : Nat) :
    get_i2s_dataformat_reg_val f ≠ UNDEFINED ↔
      f ∈ [I2S_DATA_DEL, I2S_DATA_DEL_SEQ, I2S_DATA_SEQ, I2S_DATA_LEFT_MONO, I2S_DATA_LEFT_STEREO,
        I2S_DATA_RIGHT_MONO, I2S_DATA_RIGHT_STEREO] := by
  unfold get_i2s_dataformat_reg_val
  simp only [List.mem_cons, List.mem_singleton, List.not_mem_nil, or_false]
  split_ifs with h1 h2 h3 h4 h5 h6 h7
  all_goals first
    | exact ⟨fun h => absurd rfl h, fun h => by
        rcases h with h | h | h | h | h | h | h <;> contradiction⟩
    | (refine ⟨fun _ => by tauto, fun _ => by decide⟩)

theorem i2s_enable_port_fst (p : i2s_port) (dccr : Nat) (r : Nat × hdm_i2s) :
    (i2s_enable_port p dccr r).1 =
      if p.is_enabled ≠ 0 ∧ get_i2s_dataformat_reg_val p.data_format ≠ UNDEFINED ∧
          p.clk_speed ≠ I2S_CLK_UDEF ∧ p.clk_mode ≠ I2S_CLKMODE_UDEF then 1 else r.1 := by
  simp only [i2s_enable_port]
  split_ifs <;> first | rfl | tauto

theorem i2s_enable_snd (dev : hdm_i2s) :
    (i2s_enable dev).2 =
      if (i2s_enable_lock dev).1 ≠ 0 then { dev with clk_gen_base := (i2s_enable_lock dev).2 }
      else (i2s_enable_port dev.port_b REG_DCCRB (i2s_enable_port dev.port_a REG_DCCRA
        (0, { dev with clk_gen_base := (i2s_enable_lock dev).2 }))).2 := by
  simp only [i2s_enable]
  split_ifs <;> rfl

theorem i2s_enable_flag (dev : hdm_i2s) : (i2s_enable dev).2.is_enabled = dev.is_enabled := by
  rw [i2s_enable_snd]
  split_ifs
  · rfl
  · rw [(i2s_enable_port_frame _ _ _).2.1, (i2s_enable_port_frame _ _ _).2.1]

theorem i2s_enable_writes (dev : hdm_i2s) (cond : Nat → Prop)
    (ha : cond REG_DCCRA ∨
      (dev.port_a.is_enabled = 0 ∨ dev.port_a.clk_speed = I2S_CLK_UDEF ∨
        dev.port_a.clk_mode = I2S_CLKMODE_UDEF ∨ get_i2s_dataformat_reg_val dev.port_a.data_format = UNDEFINED))
    (hb : cond REG_DCCRB ∨
      (dev.port_b.is_enabled = 0 ∨ dev.port_b.clk_speed = I2S_CLK_UDEF ∨
        dev.port_b.clk_mode = I2S_CLKMODE_UDEF ∨ get_i2s_dataformat_reg_val dev.port_b.data_format = UNDEFINED)) :
    ∃ ws, (i2s_enable dev).2.i2s_writes = dev.i2s_writes ++ ws ∧ ∀ w ∈ ws, cond w.1 := by
  have key : ∀ (p : i2s_port) (dccr : Nat) (r : Nat × hdm_i2s),
      (cond dccr ∨ (p.is_enabled = 0 ∨ p.clk_speed = I2S_CLK_UDEF ∨
        p.clk_mode = I2S_CLKMODE_UDEF ∨ get_i2s_dataformat_reg_val p.data_format = UNDEFINED)) →
      ∃ ws, (i2s_enable_port p dccr r).2.i2s_writes = r.2.i2s_writes ++ ws ∧
        ∀ w ∈ ws, cond w.1 := by
    intro p dccr r h
    rcases h with h | h
    · obtain ⟨ws, h1, h2⟩ := (i2s_enable_port_frame p dccr r).1
      exact ⟨ws, h1, fun w hw => by rw [h2 w hw]; exact h⟩
    · rw [i2s_enable_port_skip p dccr r h]
      exact ⟨[], by simp, by simp⟩
  rw [i2s_enable_snd]
  split_ifs
  · exact ⟨[], by simp, by simp⟩
  · obtain ⟨w1, a1, a2⟩ := key dev.port_a REG_DCCRA
      (0, { dev with clk_gen_base := (i2s_enable_lock dev).2 }) ha
    obtain ⟨w2, b1, b2⟩ := key dev.port_b REG_DCCRB
      (i2s_enable_port dev.port_a REG_DCCRA
        (0, { dev with clk_gen_base := (i2s_enable_lock dev).2 })) hb
    refine ⟨w1 ++ w2, ?_, ?_⟩
    · simp only [b1, a1, List.append_assoc]
    · intro w hw
      rcases List.mem_append.1 hw with h | h
      · exact a2 w h
      · exact b2 w h

theorem i2s_enable_none_defined (dev : hdm_i2s)
    (ha : dev.port_a.is_enabled = 0 ∨ dev.port_a.clk_speed = I2S_CLK_UDEF ∨
      dev.port_a.clk_mode = I2S_CLKMODE_UDEF ∨ get_i2s_dataformat_reg_val dev.port_a.data_format = UNDEFINED)
    (hb : dev.port_b.is_enabled = 0 ∨ dev.port_b.clk_speed = I2S_CLK_UDEF ∨
      dev.port_b.clk_mode = I2S_CLKMODE_UDEF ∨ get_i2s_dataformat_reg_val dev.port_b.data_format = UNDEFINED) :
    (i2s_enable dev).1 = if (i2s_enable_lock dev).1 ≠ 0 then -ETIME else -ENODEV := by
  have h1 : ∀ r, i2s_enable_port dev.port_a REG_DCCRA r = r :=
    fun r => i2s_enable_port_skip _ _ r ha
  have h2 : ∀ r, i2s_enable_port dev.port_b REG_DCCRB r = r :=
    fun r => i2s_enable_port_skip _ _ r hb
  have hl : (i2s_enable_lock dev).1 = 0 ∨ (i2s_enable_lock dev).1 = -ETIME := by
    simp only [i2s_enable_lock]
    split_ifs
    · exact try_lock_clk_gen_result _ _
    · left; rfl
  have hne : (-ETIME : Int) ≠ 0 := by decide
  simp only [i2s_enable, h1, h2]
  rcases hl with h | h
  · simp [h]
  · simp [h, hne]

theorem i2s_enable_lock_fails_iff (dev : hdm_i2s) :
    (i2s_enable_lock dev).1 ≠ 0 ↔
      ((dev.port_a.is_enabled ≠ 0 ∧ dev.port_a.clk_mode = I2S_CLKMODE_MASTER) ∨
        (dev.port_b.is_enabled ≠ 0 ∧ dev.port_b.clk_mode = I2S_CLKMODE_MASTER)) ∧
      (try_lock_clk_gen dev.clk_gen_base dev.clk_source).1 ≠ 0 := by
  simp only [i2s_enable_lock]
  split_ifs with h
  · simp [h]
  · simp [h]

theorem bus_enable_store_on (dev : hdm_i2s) (count : Nat) (h : dev.is_enabled = 0) :
    bus_enable_store dev "1\n" count =
      ((count : Int), { (i2s_enable dev).2 with
        is_enabled := if (i2s_enable dev).1 = 0 then 1 else 0 }) := by
  have hf := i2s_enable_flag dev
  simp only [bus_enable_store, h, and_self, if_true]
  split_ifs with hr
  · rfl
  · have : ((i2s_enable dev).2) = { (i2s_enable dev).2 with is_enabled := 0 } := by
      rw [h] at hf
      cases hd : (i2s_enable dev).2
      rw [hd] at hf
      simp only at hf
      simp [hf]
    rw [← this]

/-- C19 as stated fails: with port A enabled as clock master, its clock
speed undefined, and a clock generator that does not lock, `i2s_enable`
fails with `-ETIME`, the result of `try_lock_clk_gen`, not with `-ENODEV`. -/
theorem i2s_enable_no_lock_is_etime :
    dev_port_a_udef.port_a.is_enabled = 1 ∧
    dev_port_a_udef.port_a.clk_speed = I2S_CLK_UDEF ∧
    dev_port_a_udef.port_b.is_enabled = 0 ∧
    (i2s_enable dev_port_a_udef).1 = -ETIME ∧
    (i2s_enable dev_port_a_udef).1 ≠ -ENODEV := by
  decide

/-- C19 amended: when a port is enabled and its clock speed or clock mode is
the undefined enumerator or its data format is none of the seven formats (so
has no register value: the undefined enumerator, or the 0 `kzalloc` leaves),
`i2s_enable` writes nothing to that port's configuration register; and when
no enabled port has all three fields defined, `i2s_enable` fails, with
`-ETIME` when an enabled port is clock master and `try_lock_clk_gen` fails,
with `-ENODEV` otherwise, so that a bus-enable write of 1 on a disabled bus
leaves the bus disabled. -/
theorem i2s_enable_undefined_port (dev : hdm_i2s) :
    (dev.port_a.is_enabled ≠ 0 →
      (dev.port_a.clk_speed = I2S_CLK_UDEF ∨ dev.port_a.clk_mode = I2S_CLKMODE_UDEF ∨
        get_i2s_dataformat_reg_val dev.port_a.data_format = UNDEFINED) →
      ∃ ws, (i2s_enable dev).2.i2s_writes = dev.i2s_writes ++ ws ∧
        ∀ w ∈ ws, w.1 ≠ REG_DCCRA) ∧
    (dev.port_b.is_enabled ≠ 0 →
      (dev.port_b.clk_speed = I2S_CLK_UDEF ∨ dev.port_b.clk_mode = I2S_CLKMODE_UDEF ∨
        get_i2s_dataformat_reg_val dev.port_b.data_format = UNDEFINED) →
      ∃ ws, (i2s_enable dev).2.i2s_writes = dev.i2s_writes ++ ws ∧
        ∀ w ∈ ws, w.1 ≠ REG_DCCRB) ∧
    (¬ (dev.port_a.is_enabled ≠ 0 ∧ dev.port_a.clk_speed ≠ I2S_CLK_UDEF ∧
          dev.port_a.clk_mode ≠ I2S_CLKMODE_UDEF ∧
          get_i2s_dataformat_reg_val dev.port_a.data_format ≠ UNDEFINED) →
      ¬ (dev.port_b.is_enabled ≠ 0 ∧ dev.port_b.clk_speed ≠ I2S_CLK_UDEF ∧
          dev.port_b.clk_mode ≠ I2S_CLKMODE_UDEF ∧
          get_i2s_dataformat_reg_val dev.port_b.data_format ≠ UNDEFINED) →
      (i2s_enable dev).1 =
        (if ((dev.port_a.is_enabled ≠ 0 ∧ dev.port_a.clk_mode = I2S_CLKMODE_MASTER) ∨
              (dev.port_b.is_enabled ≠ 0 ∧ dev.port_b.clk_mode = I2S_CLKMODE_MASTER)) ∧
            (try_lock_clk_gen dev.clk_gen_base dev.clk_source).1 ≠ 0
          then -ETIME else -ENODEV) ∧
      (i2s_enable dev).1 ≠ 0 ∧
      (dev.is_enabled = 0 → ∀ count, (bus_enable_store dev "1\n" count).2.is_enabled = 0)) ∧
    (∀ f, get_i2s_dataformat_reg_val f = UNDEFINED ↔
      f ∉ [I2S_DATA_DEL, I2S_DATA_DEL_SEQ, I2S_DATA_SEQ, I2S_DATA_LEFT_MONO,
        I2S_DATA_LEFT_STEREO, I2S_DATA_RIGHT_MONO, I2S_DATA_RIGHT_STEREO]) := by
  have hab : REG_DCCRB ≠ REG_DCCRA := by decide
  refine ⟨fun _ hu => ?_, fun _ hu => ?_, fun ha hb => ?_, fun f => ?_⟩
  · exact i2s_enable_writes dev (fun o => o ≠ REG_DCCRA) (Or.inr (Or.inr hu)) (Or.inl hab)
  · exact i2s_enable_writes dev (fun o => o ≠ REG_DCCRB) (Or.inl hab.symm) (Or.inr (Or.inr hu))
  · have ha2 : dev.port_a.is_enabled = 0 ∨ dev.port_a.clk_speed = I2S_CLK_UDEF ∨
        dev.port_a.clk_mode = I2S_CLKMODE_UDEF ∨
        get_i2s_dataformat_reg_val dev.port_a.data_format = UNDEFINED := by tauto
    have hb2 : dev.port_b.is_enabled = 0 ∨ dev.port_b.clk_speed = I2S_CLK_UDEF ∨
        dev.port_b.clk_mode = I2S_CLKMODE_UDEF ∨
        get_i2s_dataformat_reg_val dev.port_b.data_format = UNDEFINED := by tauto
    have hr := i2s_enable_none_defined dev ha2 hb2
    have hne1 : (-ETIME : Int) ≠ 0 := by decide
    have hne2 : (-ENODEV : Int) ≠ 0 := by decide
    have hnz : (i2s_enable dev).1 ≠ 0 := by
      rw [hr]; split_ifs
      · exact hne1
      · exact hne2
    refine ⟨?_, hnz, fun h0 count => ?_⟩
    · rw [hr]
      by_cases hl : (i2s_enable_lock dev).1 ≠ 0
      · rw [if_pos hl, if_pos ((i2s_enable_lock_fails_iff dev).1 hl)]
      · rw [if_neg hl, if_neg (fun h => hl ((i2s_enable_lock_fails_iff dev).2 h))]
    · rw [bus_enable_store_on dev count h0]
      simp [hnz]
  · rw [← not_iff_not, not_not]
    exact get_i2s_dataformat_reg_val_defined f

/-- C19 amended, on the device whose port A is enabled with an undefined
clock speed: nothing is written to `REG_DCCRA`; and on the fresh device with
only port A enabled, whose data format is the 0 of `kzalloc`: `i2s_enable`
fails with `-ENODEV` and the bus stays disabled. -/
theorem i2s_enable_undefined_port_witness :
    (∃ ws, (i2s_enable dev_port_a_udef).2.i2s_writes = dev_port_a_udef.i2s_writes ++ ws ∧
      ∀ w ∈ ws, w.1 ≠ REG_DCCRA) ∧
    dev_port_a_fresh.port_a.is_enabled = 1 ∧ dev_port_a_fresh.port_a.data_format = 0 ∧
    (i2s_enable dev_port_a_fresh).1 = -ENODEV ∧
    (i2s_enable dev_port_a_fresh).1 ≠ 0 ∧
    (dev_port_a_fresh.is_enabled = 0 →
      ∀ count, (bus_enable_store dev_port_a_fresh "1\n" count).2.is_enabled = 0) :=
  ⟨(i2s_enable_undefined_port dev_port_a_udef).1 (by decide) (Or.inl (by decide)),
   by decide, by decide,
   (i2s_enable_undefined_port dev_port_a_fresh).2.2.1 (by decide) (by decide)⟩

/-- C20: written with "1" while the bus flag is 0, `bus_enable_store` runs
`i2s_enable`: the clock generator is locked exactly when an enabled port is
clock master; when that lock fails no register is written, otherwise the
writes are the block of port A followed by the block of port B, the block of
a port being the five values 0, `PORT_RST`, 0, `PORT_EN`, `PORT_EN | IO_MODE
| clk_mode | clk_speed | data-format bits` to the port's configuration
register when the port is enabled with all three fields defined and empty
otherwise; `i2s_enable` returns 0 exactly when the lock did not fail and a
port was programmed, and the flag is 1 afterwards if and only if it returned
0. Written with "0" while the flag is 1 it runs `i2s_disable`, which writes
0, `PORT_RST`, 0 to the configuration register of port A when port A is
enabled and then the same to that of port B when port B is enabled, leaves
the clock generator alone, and the flag is cleared. For every other
combination of text and flag it hands the device back as it was. It always
returns `count`. -/
theorem bus_enable_store_effect (dev : hdm_i2s) (b : String) (count : Nat) :
    (b = "1\n" → dev.is_enabled = 0 →
      bus_enable_store dev b count =
        ((count : Int), { (i2s_enable dev).2 with
          is_enabled := if (i2s_enable dev).1 = 0 then 1 else 0 }) ∧
      ((bus_enable_store dev b count).2.is_enabled = 1 ↔ (i2s_enable dev).1 = 0) ∧
      (bus_enable_store dev b count).2.clk_gen_base =
        (if (dev.port_a.is_enabled ≠ 0 ∧ dev.port_a.clk_mode = I2S_CLKMODE_MASTER) ∨
            (dev.port_b.is_enabled ≠ 0 ∧ dev.port_b.clk_mode = I2S_CLKMODE_MASTER)
          then (try_lock_clk_gen dev.clk_gen_base dev.clk_source).2 else dev.clk_gen_base) ∧
      (bus_enable_store dev b count).2.i2s_writes = dev.i2s_writes ++
        (if ((dev.port_a.is_enabled ≠ 0 ∧ dev.port_a.clk_mode = I2S_CLKMODE_MASTER) ∨
              (dev.port_b.is_enabled ≠ 0 ∧ dev.port_b.clk_mode = I2S_CLKMODE_MASTER)) ∧
            (try_lock_clk_gen dev.clk_gen_base dev.clk_source).1 ≠ 0 then []
          else
            (if dev.port_a.is_enabled ≠ 0 ∧
                get_i2s_dataformat_reg_val dev.port_a.data_format ≠ UNDEFINED ∧
                dev.port_a.clk_speed ≠ I2S_CLK_UDEF ∧ dev.port_a.clk_mode ≠ I2S_CLKMODE_UDEF then
              [(REG_DCCRA, 0), (REG_DCCRA, PORT_RST), (REG_DCCRA, 0), (REG_DCCRA, PORT_EN),
               (REG_DCCRA, (PORT_EN ||| IO_MODE ||| dev.port_a.clk_mode ||| dev.port_a.clk_speed |||
                  get_i2s_dataformat_reg_val dev.port_a.data_format) % 2 ^ 32)]
            else []) ++
            (if dev.port_b.is_enabled ≠ 0 ∧
                get_i2s_dataformat_reg_val dev.port_b.data_format ≠ UNDEFINED ∧
                dev.port_b.clk_speed ≠ I2S_CLK_UDEF ∧ dev.port_b.clk_mode ≠ I2S_CLKMODE_UDEF then
              [(REG_DCCRB, 0), (REG_DCCRB, PORT_RST), (REG_DCCRB, 0), (REG_DCCRB, PORT_EN),
               (REG_DCCRB, (PORT_EN ||| IO_MODE ||| dev.port_b.clk_mode ||| dev.port_b.clk_speed |||
                  get_i2s_dataformat_reg_val dev.port_b.data_format) % 2 ^ 32)]
            else [])) ∧
      ((i2s_enable dev).1 = 0 ↔
        ¬ (((dev.port_a.is_enabled ≠ 0 ∧ dev.port_a.clk_mode = I2S_CLKMODE_MASTER) ∨
              (dev.port_b.is_enabled ≠ 0 ∧ dev.port_b.clk_mode = I2S_CLKMODE_MASTER)) ∧
            (try_lock_clk_gen dev.clk_gen_base dev.clk_source).1 ≠ 0) ∧
        ((dev.port_a.is_enabled ≠ 0 ∧
            get_i2s_dataformat_reg_val dev.port_a.data_format ≠ UNDEFINED ∧
            dev.port_a.clk_speed ≠ I2S_CLK_UDEF ∧ dev.port_a.clk_mode ≠ I2S_CLKMODE_UDEF) ∨
          (dev.port_b.is_enabled ≠ 0 ∧
            get_i2s_dataformat_reg_val dev.port_b.data_format ≠ UNDEFINED ∧
            dev.port_b.clk_speed ≠ I2S_CLK_UDEF ∧ dev.port_b.clk_mode ≠ I2S_CLKMODE_UDEF)))) ∧
    (b = "0\n" → dev.is_enabled = 1 →
      bus_enable_store dev b count = ((count : Int), { i2s_disable dev with is_enabled := 0 }) ∧
      (bus_enable_store dev b count).2.is_enabled = 0 ∧
      (bus_enable_store dev b count).2.clk_gen_base = dev.clk_gen_base ∧
      (bus_enable_store dev b count).2.i2s_writes = dev.i2s_writes ++
        (if dev.port_a.is_enabled ≠ 0 then
          [(REG_DCCRA, 0), (REG_DCCRA, PORT_RST), (REG_DCCRA, 0)] else []) ++
        (if dev.port_b.is_enabled ≠ 0 then
          [(REG_DCCRB, 0), (REG_DCCRB, PORT_RST), (REG_DCCRB, 0)] else [])) ∧
    (¬ (b = "1\n" ∧ dev.is_enabled = 0) → ¬ (b = "0\n" ∧ dev.is_enabled = 1) →
      bus_enable_store dev b count = ((count : Int), dev)) ∧
    (i2s_enable dev).2.clk_gen_base =
      (if (dev.port_a.is_enabled ≠ 0 ∧ dev.port_a.clk_mode = I2S_CLKMODE_MASTER) ∨
          (dev.port_b.is_enabled ≠ 0 ∧ dev.port_b.clk_mode = I2S_CLKMODE_MASTER)
        then (try_lock_clk_gen dev.clk_gen_base dev.clk_source).2 else dev.clk_gen_base) := by
  have hclk : (i2s_enable dev).2.clk_gen_base =
      (if (dev.port_a.is_enabled ≠ 0 ∧ dev.port_a.clk_mode = I2S_CLKMODE_MASTER) ∨
          (dev.port_b.is_enabled ≠ 0 ∧ dev.port_b.clk_mode = I2S_CLKMODE_MASTER)
        then (try_lock_clk_gen dev.clk_gen_base dev.clk_source).2 else dev.clk_gen_base) := by
    rw [i2s_enable_snd]
    have hl : (i2s_enable_lock dev).2 =
        (if (dev.port_a.is_enabled ≠ 0 ∧ dev.port_a.clk_mode = I2S_CLKMODE_MASTER) ∨
            (dev.port_b.is_enabled ≠ 0 ∧ dev.port_b.clk_mode = I2S_CLKMODE_MASTER)
          then (try_lock_clk_gen dev.clk_gen_base dev.clk_source).2 else dev.clk_gen_base) := by
      simp only [i2s_enable_lock]
      split_ifs <;> rfl
    split_ifs <;>
      simp only [(i2s_enable_port_frame _ _ _).2.2.1] <;> first | exact hl | simp_all
  refine ⟨fun hb h0 => ?_, fun hb h1 => ?_, fun n1 n0 => ?_, hclk⟩
  · subst hb
    rw [bus_enable_store_on dev count h0]
    refine ⟨rfl, ?_, hclk, ?_, ?_⟩
    · by_cases hr : (i2s_enable dev).1 = 0 <;> simp [hr]
    · show (i2s_enable dev).2.i2s_writes = _
      rw [i2s_enable_snd]
      by_cases hl : (i2s_enable_lock dev).1 ≠ 0
      · rw [if_pos hl, if_pos ((i2s_enable_lock_fails_iff dev).1 hl)]
        simp
      · rw [if_neg hl, if_neg (fun h => hl ((i2s_enable_lock_fails_iff dev).2 h)),
          i2s_enable_port_writes, i2s_enable_port_writes, List.append_assoc]
    · have hne : (-ENODEV : Int) ≠ 0 := by decide
      by_cases hl : (i2s_enable_lock dev).1 ≠ 0
      · have hf := (i2s_enable_lock_fails_iff dev).1 hl
        have : (i2s_enable dev).1 = (i2s_enable_lock dev).1 := by simp [i2s_enable, hl]
        rw [this]
        exact ⟨fun h => absurd h hl, fun h => absurd hf h.1⟩
      · have hf : ¬ _ := fun h => hl ((i2s_enable_lock_fails_iff dev).2 h)
        have : (i2s_enable dev).1 =
            if (i2s_enable_port dev.port_b REG_DCCRB (i2s_enable_port dev.port_a REG_DCCRA
              (0, { dev with clk_gen_base := (i2s_enable_lock dev).2 }))).1 ≠ 1
            then -ENODEV else 0 := by
          simp only [i2s_enable, if_neg hl]
          split_ifs <;> rfl
        rw [this, i2s_enable_port_fst, i2s_enable_port_fst]
        refine Iff.trans ?_ (and_iff_right hf).symm
        by_cases pa : dev.port_a.is_enabled ≠ 0 ∧
            get_i2s_dataformat_reg_val dev.port_a.data_format ≠ UNDEFINED ∧
            dev.port_a.clk_speed ≠ I2S_CLK_UDEF ∧ dev.port_a.clk_mode ≠ I2S_CLKMODE_UDEF <;>
          by_cases pb : dev.port_b.is_enabled ≠ 0 ∧
            get_i2s_dataformat_reg_val dev.port_b.data_format ≠ UNDEFINED ∧
            dev.port_b.clk_speed ≠ I2S_CLK_UDEF ∧ dev.port_b.clk_mode ≠ I2S_CLKMODE_UDEF <;>
          simp [pa, pb, hne]
  · subst hb
    have h10 : ¬ ("0\n" = "1\n") := by decide
    have hs : bus_enable_store dev "0\n" count =
        ((count : Int), { i2s_disable dev with is_enabled := 0 }) := by
      simp [bus_enable_store, h1, h10]
    rw [hs]
    refine ⟨rfl, rfl, ?_, ?_⟩
    · show (i2s_disable dev).clk_gen_base = _
      simp only [i2s_disable, i2s_disable_port]
      split_ifs <;> rfl
    · show (i2s_disable dev).i2s_writes = _
      have h1 : PORT_RST % 2 ^ 32 = PORT_RST := by decide
      simp only [i2s_disable, i2s_disable_port]
      split_ifs <;>
        simp only [write_reg_i2s_writes, List.append_assoc, List.cons_append, List.nil_append,
          List.append_nil, h1, Nat.zero_mod]
  · simp [bus_enable_store, n1, n0]

/-- C20 on the device whose port B is fully set: the write of "1" puts the
five values of port B on `REG_DCCRB` and raises the flag, and the write of
"0" that follows puts 0, `PORT_RST`, 0 on `REG_DCCRB` and clears the flag. -/
theorem bus_enable_store_effect_witness :
    (bus_enable_store dev_port_b_ok "1\n" 2).2.i2s_writes =
      [(REG_DCCRB, 0), (REG_DCCRB, PORT_RST), (REG_DCCRB, 0), (REG_DCCRB, PORT_EN),
       (REG_DCCRB, PORT_EN ||| IO_MODE ||| I2S_CLKMODE_SLAVE ||| I2S_CLK_64FS |||
          I2S_REG_DATA_LEFT)] ∧
    (bus_enable_store dev_port_b_ok "1\n" 2).2.is_enabled = 1 ∧
    (bus_enable_store dev_bus_on "0\n" 2).2.i2s_writes =
      dev_bus_on.i2s_writes ++ [(REG_DCCRB, 0), (REG_DCCRB, PORT_RST), (REG_DCCRB, 0)] ∧
    (bus_enable_store dev_bus_on "0\n" 2).2.is_enabled = 0 := by
  have hon := (bus_enable_store_effect dev_port_b_ok "1\n" 2).1 rfl (by decide)
  have hoff := (bus_enable_store_effect dev_bus_on "0\n" 2).2.1 rfl (by decide)
  refine ⟨?_, hon.2.1.2 (by decide), ?_, hoff.2.1⟩
  · rw [hon.2.2.2.1]
    decide
  · rw [hoff.2.2.2]
    decide

/-! ## Transitions that leave a channel alone -/

theorem foreign_refl (i : Nat) (d : hdm_i2s) : Foreign i d d :=
  ⟨rfl, fun _ _ => rfl, ⟨[], by simp, by simp⟩, ⟨[], by simp, by simp⟩, fun _ => ⟨[], rfl⟩⟩

theorem foreign_trans {i : Nat} {d e f : hdm_i2s} (h1 : Foreign i d e) (h2 : Foreign i e f) :
    Foreign i d f := by
  obtain ⟨a1, b1, ⟨w1, c1, d1⟩, ⟨k1, e1, f1⟩, g1⟩ := h1
  obtain ⟨a2, b2, ⟨w2, c2, d2⟩, ⟨k2, e2, f2⟩, g2⟩ := h2
  refine ⟨by rw [a2, a1], fun o ho => by rw [b2 o ho, b1 o ho],
    ⟨w1 ++ w2, by rw [c2, c1, List.append_assoc], ?_⟩,
    ⟨k1 ++ k2, by rw [e2, e1, List.append_assoc], ?_⟩, fun j => ?_⟩
  · intro w hw
    rcases List.mem_append.1 hw with h | h
    · exact d1 w h
    · exact d2 w h
  · intro x hx
    rcases List.mem_append.1 hx with h | h
    · exact f1 x h
    · obtain ⟨j, hj, m, hm, hid⟩ := f2 x h
      obtain ⟨k, hk⟩ := g1 j
      exact ⟨j, hj, m, by rw [hk]; exact List.mem_append_right _ hm, hid⟩
  · obtain ⟨p1, q1⟩ := g1 j
    obtain ⟨p2, q2⟩ := g2 j
    exact ⟨p1 ++ p2, by rw [q1, q2, List.append_assoc]⟩

theorem in_window_other (i j o : Nat) (hij : j ≠ i)
    (ho : REG_CCRn + j * 8 ≤ o ∧ o ≤ REG_CSRn + j * 8) : in_window i o = false := by
  simp only [in_window, REG_CCRn, REG_CSRn, decide_eq_false_iff_not] at ho ⊢
  omega

theorem start_data_transfer_foreign (d : hdm_i2s) (i j : Nat) (hij : j ≠ i) :
    Foreign i d (start_data_transfer d j).2 := by
  cases hp : (d.ch j).pending_list with
  | nil => rw [start_data_transfer_nil d j hp]; exact foreign_refl i d
  | cons m rest =>
    obtain ⟨_, c2, c3⟩ := start_data_transfer_cons d j m rest hp
    obtain ⟨w1, _, w3⟩ := start_data_transfer_io d j m rest hp
    refine ⟨?_, fun o ho => ?_, ⟨_, w1, ?_⟩, ⟨_, c3, ?_⟩, fun k => ?_⟩
    · rw [c2, Function.update_noteq (Ne.symm hij)]
    · apply w3 <;>
      · rintro rfl
        rw [in_window_other i j _ hij (by simp [REG_CCRn, REG_CSRn, REG_NBBARn])] at ho
        exact Bool.noConfusion ho
    · intro w hw
      simp only [List.mem_append, List.mem_cons, List.mem_singleton, List.not_mem_nil,
        or_false] at hw
      rcases hw with h | h | h
      · split_ifs at h
        · simp at h
        · obtain ⟨_, _, rfl⟩ := List.mem_map.1 h
          exact in_window_other i j _ hij (by simp [REG_CCRn, REG_CSRn, REG_NBBARn])
      · rw [h]; exact in_window_other i j _ hij (by simp [REG_CCRn, REG_CSRn])
      · rw [h]; exact in_window_other i j _ hij (by simp [REG_CCRn, REG_CSRn])
    · intro x hx
      simp only [List.mem_singleton] at hx
      exact ⟨j, hij, m, by rw [hp]; simp, by rw [hx]⟩
    · rw [c2]
      by_cases hk : k = j
      · subst hk; exact ⟨[m], by simp [hp]⟩
      · exact ⟨[], by simp [hk]⟩

theorem foldl_foreign (i : Nat) (l : List Nat) (f : hdm_i2s → Nat → hdm_i2s)
    (hf : ∀ d j, j ∈ l → Foreign i d (f d j)) (d : hdm_i2s) : Foreign i d (l.foldl f d) := by
  induction l generalizing d with
  | nil => exact foreign_refl i d
  | cons a l ih =>
    simp only [List.foldl]
    exact foreign_trans (hf d a (by simp))
      (ih (fun d j hj => hf d j (List.mem_cons_of_mem a hj)) (f d a))

theorem range_split (i : Nat) (hi : i < 8) :
    ∃ l1 l2, List.range DMA_CHANNELS = l1 ++ i :: l2 ∧ i ∉ l1 ∧ i ∉ l2 := by
  refine ⟨List.range i, List.range' (i + 1) (7 - i), ?_, ?_, ?_⟩ <;>
    interval_cases i <;> decide

theorem i2s_tasklet_fn_split (d : hdm_i2s) (i : Nat) (hi : i < 8) :
    ∃ dp, Foreign i d dp ∧
      Foreign i (if (dp.ch i).ready then (start_data_transfer dp i).2 else dp)
        (i2s_tasklet_fn d) := by
  obtain ⟨l1, l2, hl, h1, h2⟩ := range_split i hi
  have hstep : ∀ (l : List Nat), i ∉ l → ∀ e : hdm_i2s, Foreign i e
      (l.foldl (fun d ch_idx =>
        if (d.ch ch_idx).ready then (start_data_transfer d ch_idx).2 else d) e) := by
    intro l hl e
    apply foldl_foreign
    intro e j hj
    have hji : j ≠ i := fun h => hl (h ▸ hj)
    split_ifs
    · exact start_data_transfer_foreign e i j hji
    · exact foreign_refl i e
  refine ⟨_, hstep l1 h1 d, ?_⟩
  simp only [i2s_tasklet_fn, hl, List.foldl_append, List.foldl_cons]
  exact hstep l2 h2 _

/-! ## The receive FIFO along a transfer -/

theorem foldl_write_rx (reg : Nat) (f : Nat → Nat) (l : List Nat) (d : hdm_i2s) :
    (l.foldl (fun d i => write_reg_i2s d reg (f i)) d).rx_fifo = d.rx_fifo ∧
    (l.foldl (fun d i => write_reg_i2s d reg (f i)) d).rx_reads = d.rx_reads := by
  induction l generalizing d with
  | nil => exact ⟨rfl, rfl⟩
  | cons a l ih =>
    simp only [List.foldl]
    exact ⟨(ih _).1, (ih _).2⟩

theorem tx_copy_rx (d : hdm_i2s) (reg n : Nat) (data : List Nat) :
    (tx_copy d reg n data).rx_fifo = d.rx_fifo ∧ (tx_copy d reg n data).rx_reads = d.rx_reads :=
  foldl_write_rx reg (fun i => data.getD i 0) (List.range n) d

theorem start_data_transfer_rx (d : hdm_i2s) (j : Nat) :
    (start_data_transfer d j).2.rx_fifo = d.rx_fifo ∧
    (∀ o, o ≠ REG_CBBARn + j * 8 → (start_data_transfer d j).2.rx_reads o = d.rx_reads o) ∧
    (∀ m rest, (d.ch j).pending_list = m :: rest →
      (start_data_transfer d j).2.rx_reads (REG_CBBARn + j * 8) =
        d.rx_reads (REG_CBBARn + j * 8) +
          (if (d.ch j).direction = MOST_CH_RX then m.buffer_length / 4 else 0)) := by
  have hne : MOST_CH_RX ≠ MOST_CH_TX := by decide
  cases hp : (d.ch j).pending_list with
  | nil =>
    rw [start_data_transfer_nil d j hp]
    exact ⟨rfl, fun _ _ => rfl, fun _ _ h => List.noConfusion h⟩
  | cons m rest =>
    simp only [start_data_transfer, hp]
    by_cases hrx : (d.ch j).direction = MOST_CH_RX
    · refine ⟨?_, fun o ho => ?_, fun m2 rest2 h2 => ?_⟩
      · simp [hrx, hne, rx_copy_spec]
      · simp [hrx, hne, rx_copy_spec, Function.update_noteq ho]
      · obtain ⟨rfl, _⟩ := List.cons.inj h2
        simp [hrx, hne, rx_copy_spec]
    · refine ⟨?_, fun o ho => ?_, fun m2 rest2 h2 => ?_⟩
      · simp only [hrx, decide_False, Bool.false_eq_true, if_false]
        split_ifs <;> simp [(tx_copy_rx _ _ _ _).1]
      · simp only [hrx, decide_False, Bool.false_eq_true, if_false]
        split_ifs <;> simp [(tx_copy_rx _ _ _ _).2]
      · simp only [hrx, decide_False, Bool.false_eq_true, if_false]
        split_ifs <;> simp [(tx_copy_rx _ _ _ _).2]

theorem i2s_tasklet_fn_split_rx (d : hdm_i2s) (i : Nat) (hi : i < 8) :
    ∃ dp, Foreign i d dp ∧ dp.rx_fifo = d.rx_fifo ∧
      dp.rx_reads (REG_CBBARn + i * 8) = d.rx_reads (REG_CBBARn + i * 8) ∧
      Foreign i (if (dp.ch i).ready then (start_data_transfer dp i).2 else dp)
        (i2s_tasklet_fn d) ∧
      (i2s_tasklet_fn d).rx_reads (REG_CBBARn + i * 8) =
        (if (dp.ch i).ready then (start_data_transfer dp i).2 else dp).rx_reads
          (REG_CBBARn + i * 8) := by
  obtain ⟨l1, l2, hl, h1, h2⟩ := range_split i hi
  have hstep : ∀ (l : List Nat), i ∉ l → ∀ e : hdm_i2s, Foreign i e
      (l.foldl (fun d ch_idx =>
        if (d.ch ch_idx).ready then (start_data_transfer d ch_idx).2 else d) e) := by
    intro l hl e
    apply foldl_foreign
    intro e j hj
    have hji : j ≠ i := fun h => hl (h ▸ hj)
    split_ifs
    · exact start_data_transfer_foreign e i j hji
    · exact foreign_refl i e
  have hrx : ∀ (l : List Nat), i ∉ l → ∀ e : hdm_i2s,
      (l.foldl (fun d ch_idx =>
        if (d.ch ch_idx).ready then (start_data_transfer d ch_idx).2 else d) e).rx_fifo
          = e.rx_fifo ∧
      (l.foldl (fun d ch_idx =>
        if (d.ch ch_idx).ready then (start_data_transfer d ch_idx).2 else d) e).rx_reads
          (REG_CBBARn + i * 8) = e.rx_reads (REG_CBBARn + i * 8) := by
    intro l
    induction l with
    | nil => exact fun _ _ => ⟨rfl, rfl⟩
    | cons a l ih =>
      intro hl e
      have ha : a ≠ i := fun h => hl (by simp [h])
      have hl2 : i ∉ l := fun h => hl (List.mem_cons_of_mem _ h)
      have hreg : REG_CBBARn + i * 8 ≠ REG_CBBARn + a * 8 := by omega
      simp only [List.foldl]
      rw [(ih hl2 _).1, (ih hl2 _).2]
      split_ifs
      · exact ⟨(start_data_transfer_rx e a).1, (start_data_transfer_rx e a).2.1 _ hreg⟩
      · exact ⟨rfl, rfl⟩
  refine ⟨_, hstep l1 h1 d, (hrx l1 h1 d).1, (hrx l1 h1 d).2, ?_, ?_⟩
  · simp only [i2s_tasklet_fn, hl, List.foldl_append, List.foldl_cons]
    exact hstep l2 h2 _
  · simp only [i2s_tasklet_fn, hl, List.foldl_append, List.foldl_cons]
    exact (hrx l2 h2 _).2

/-! ## The deferred worker -/

theorem mask_clears (x m b : Nat) (h : m &&& b = 0) : ((x &&& m) % 2 ^ 32) &&& b = 0 := by
  apply Nat.eq_of_testBit_eq
  intro j
  have hj := congrArg (fun t => t.testBit j) h
  simp only [Nat.testBit_and, Nat.zero_testBit, Nat.testBit_mod_two_pow] at hj ⊢
  revert hj
  cases x.testBit j <;> cases m.testBit j <;> cases b.testBit j <;> simp

theorem filter_foreign (i : Nat) (ws : List (Nat × Nat))
    (h : ∀ w ∈ ws, in_window i w.1 = false) :
    ws.filter (fun w => in_window i w.1) = [] := by
  rw [List.filter_eq_nil_iff]
  intro w hw
  simp [h w hw]

theorem in_window_self (i o : Nat) (ho : REG_CCRn + i * 8 ≤ o ∧ o ≤ REG_CSRn + i * 8) :
    in_window i o = true := by
  simp only [in_window, REG_CCRn, REG_CSRn, decide_eq_true_eq] at ho ⊢
  omega

theorem i2s_tasklet_fn_ready_head (d : hdm_i2s) (i : Nat) (h : mbo) (rest : List mbo)
    (hi : i < 8) (hr : (d.ch i).ready = true) (hp : (d.ch i).pending_list = h :: rest) :
    (i2s_tasklet_fn d).ch i = { d.ch i with pending_list := rest, ready := false } ∧
    (∃ cs1 cs2, (i2s_tasklet_fn d).completed = d.completed ++ cs1 ++
        [{ h with
            data := if (d.ch i).direction = MOST_CH_RX then
              (List.range (h.buffer_length / 4)).map
                  (fun k => d.rx_fifo (REG_CBBARn + i * 8) (d.rx_reads (REG_CBBARn + i * 8) + k)) ++
                h.data.drop (h.buffer_length / 4)
              else h.data
            processed_length := h.buffer_length
            status := MBO_SUCCESS }] ++ cs2 ∧
      ∀ x ∈ cs1 ++ cs2, ∃ j, j ≠ i ∧ ∃ m ∈ (d.ch j).pending_list, x.id = m.id) ∧
    chan_writes (i2s_tasklet_fn d) i = chan_writes d i ++
      ((if (d.ch i).direction = MOST_CH_RX then []
        else (List.range (h.buffer_length / 4)).map
          (fun k => (REG_NBBARn + i * 8, h.data.getD k 0 % 2 ^ 32))) ++
       [(REG_CSRn + i * 8,
          if (d.ch i).direction = MOST_CH_TX then TX_SERV_REQ_INT else RX_SERV_REQ_INT),
        (REG_CCRn + i * 8,
          (d.i2s_base (REG_CCRn + i * 8) &&&
            (if (d.ch i).direction = MOST_CH_TX then TX_INT_MASK else RX_INT_MASK)) % 2 ^ 32)]) ∧
    (i2s_tasklet_fn d).i2s_base (REG_CCRn + i * 8) =
      (d.i2s_base (REG_CCRn + i * 8) &&&
        (if (d.ch i).direction = MOST_CH_TX then TX_INT_MASK else RX_INT_MASK)) % 2 ^ 32 ∧
    (i2s_tasklet_fn d).rx_reads (REG_CBBARn + i * 8) =
      d.rx_reads (REG_CBBARn + i * 8) +
        (if (d.ch i).direction = MOST_CH_RX then h.buffer_length / 4 else 0) := by
  obtain ⟨dp, ⟨a1, b1, ⟨ws1, c1, d1⟩, ⟨cs1, e1, f1⟩, g1⟩, x1, x2, hf, x3⟩ :=
    i2s_tasklet_fn_split_rx d i hi
  have hr2 : (dp.ch i).ready = true := by rw [a1]; exact hr
  have hp2 : (dp.ch i).pending_list = h :: rest := by rw [a1]; exact hp
  rw [if_pos hr2] at hf x3
  obtain ⟨a2, b2, ⟨ws2, c2, d2⟩, ⟨cs2, e2, f2⟩, _⟩ := hf
  obtain ⟨_, t2, t3⟩ := start_data_transfer_cons dp i h rest hp2
  obtain ⟨u1, u2, _⟩ := start_data_transfer_io dp i h rest hp2
  have hccr : in_window i (REG_CCRn + i * 8) = true :=
    in_window_self i _ (by simp [REG_CCRn, REG_CSRn])
  rw [a1, b1 _ hccr] at u1 u2
  rw [a1, rx_copy_spec, x1, x2] at t3
  refine ⟨?_, ⟨cs1, cs2, ?_, ?_⟩, ?_, ?_, ?_⟩
  · rw [a2, t2, a1]; simp
  · rw [e2, t3, e1]
  · intro x hx
    rcases List.mem_append.1 hx with hx | hx
    · exact f1 x hx
    · obtain ⟨j, hj, m, hm, hid⟩ := f2 x hx
      rw [t2, Function.update_noteq hj] at hm
      obtain ⟨k, hk⟩ := g1 j
      exact ⟨j, hj, m, by rw [hk]; exact List.mem_append_right _ hm, hid⟩
  · simp only [chan_writes, c2, u1, c1, List.filter_append, filter_foreign i ws1 d1,
      filter_foreign i ws2 d2, List.append_nil]
    congr 1
    rw [← List.filter_append, List.filter_eq_self]
    intro w hw
    simp only [List.mem_append, List.mem_cons, List.mem_singleton, List.not_mem_nil,
      or_false] at hw
    rcases hw with hw | hw | hw
    · split_ifs at hw
      · simp at hw
      · obtain ⟨_, _, rfl⟩ := List.mem_map.1 hw
        exact in_window_self i _ (by simp [REG_CCRn, REG_CSRn, REG_NBBARn])
    · rw [hw]; exact in_window_self i _ (by simp [REG_CCRn, REG_CSRn])
    · rw [hw]; exact hccr
  · rw [b2 _ hccr, u2]
  · rw [x3, (start_data_transfer_rx dp i).2.2 h rest hp2, x2, a1]

/-- C12: in a tasklet run, for every channel that is ready and whose pending
queue is h :: rest, with L the length of h: the queue is left as rest and the
ready flag is cleared, every other field of the channel being kept; h is
handed to its completion callback with `processed_length` L and the success
status (the other completions of the run belong to buffers of other
channels' queues); on Rx exactly L/4 reads of the FIFO register
`REG_CBBARn + 8 * i` are made, word k of h holds the value of the k-th of
them, k = 0 .. L/4 - 1, and the rest of its memory is kept; on Tx the words 0
.. L/4 - 1 of h are written, in this order, to `REG_NBBARn + 8 * i` and no
FIFO read is made; after the words the channel's registers get exactly two
more writes, the direction's service request bit to `REG_CSRn + 8 * i` and
the old content and-ed with the direction's mask to `REG_CCRn + 8 * i`, which
leaves the direction's interrupt mask bit clear. -/
theorem tasklet_transfers_head (d : hdm_i2s) (i : Nat) (h : mbo) (rest : List mbo)
    (hi : i < 8) (hr : (d.ch i).ready = true) (hp : (d.ch i).pending_list = h :: rest) :
    (i2s_tasklet_fn d).ch i = { d.ch i with pending_list := rest, ready := false } ∧
    (∃ cs1 cs2, (i2s_tasklet_fn d).completed = d.completed ++ cs1 ++
        [{ h with
            data := if (d.ch i).direction = MOST_CH_RX then
              (List.range (h.buffer_length / 4)).map
                  (fun k => d.rx_fifo (REG_CBBARn + 8 * i) (d.rx_reads (REG_CBBARn + 8 * i) + k)) ++
                h.data.drop (h.buffer_length / 4)
              else h.data
            processed_length := h.buffer_length
            status := MBO_SUCCESS }] ++ cs2 ∧
      ∀ x ∈ cs1 ++ cs2, ∃ j, j ≠ i ∧ ∃ m ∈ (d.ch j).pending_list, x.id = m.id) ∧
    ((d.ch i).direction = MOST_CH_TX →
      chan_writes (i2s_tasklet_fn d) i = chan_writes d i ++
        (List.range (h.buffer_length / 4)).map
          (fun k => (REG_NBBARn + 8 * i, h.data.getD k 0 % 2 ^ 32)) ++
        [(REG_CSRn + 8 * i, TX_SERV_REQ_INT),
         (REG_CCRn + 8 * i, (d.i2s_base (REG_CCRn + 8 * i) &&& TX_INT_MASK) % 2 ^ 32)] ∧
      (i2s_tasklet_fn d).i2s_base (REG_CCRn + 8 * i) &&& TX_INT_UNMASK = 0 ∧
      (i2s_tasklet_fn d).rx_reads (REG_CBBARn + 8 * i) = d.rx_reads (REG_CBBARn + 8 * i)) ∧
    ((d.ch i).direction = MOST_CH_RX →
      chan_writes (i2s_tasklet_fn d) i = chan_writes d i ++
        [(REG_CSRn + 8 * i, RX_SERV_REQ_INT),
         (REG_CCRn + 8 * i, (d.i2s_base (REG_CCRn + 8 * i) &&& RX_INT_MASK) % 2 ^ 32)] ∧
      (i2s_tasklet_fn d).i2s_base (REG_CCRn + 8 * i) &&& RX_INT_UNMASK = 0 ∧
      (i2s_tasklet_fn d).rx_reads (REG_CBBARn + 8 * i) =
        d.rx_reads (REG_CBBARn + 8 * i) + h.buffer_length / 4) := by
  have hne : ¬ MOST_CH_TX = MOST_CH_RX := by decide
  have hne2 : ¬ MOST_CH_RX = MOST_CH_TX := by decide
  obtain ⟨h1, h2, h3, h4, h5⟩ := i2s_tasklet_fn_ready_head d i h rest hi hr hp
  rw [Nat.mul_comm i 8] at h2 h3 h4 h5
  refine ⟨h1, h2, fun htx => ?_, fun hrx => ?_⟩
  · rw [htx] at h3 h4 h5
    simp only [hne, if_false, if_true] at h3 h4 h5
    refine ⟨by rw [h3, List.append_assoc], ?_, by simpa using h5⟩
    rw [h4]
    exact mask_clears _ _ _ (by decide)
  · rw [hrx] at h3 h4 h5
    simp only [hne2, if_false, if_true, List.nil_append] at h3 h4 h5
    refine ⟨h3, ?_, h5⟩
    rw [h4]
    exact mask_clears _ _ _ (by decide)

/-- C12 on the ready receive channel 0 holding the two-word sample buffer 3
after two earlier FIFO reads: the run makes two more reads of `REG_CBBARn`. -/
theorem tasklet_transfers_head_witness :
    chan_writes (i2s_tasklet_fn dev_rx_ready0) 0 = chan_writes dev_rx_ready0 0 ++
        [(REG_CSRn + 8 * 0, RX_SERV_REQ_INT),
         (REG_CCRn + 8 * 0, (dev_rx_ready0.i2s_base (REG_CCRn + 8 * 0) &&& RX_INT_MASK) % 2 ^ 32)] ∧
      (i2s_tasklet_fn dev_rx_ready0).i2s_base (REG_CCRn + 8 * 0) &&& RX_INT_UNMASK = 0 ∧
      (i2s_tasklet_fn dev_rx_ready0).rx_reads (REG_CBBARn + 8 * 0) =
        dev_rx_ready0.rx_reads (REG_CBBARn + 8 * 0) + (buf 3).buffer_length / 4 :=
  (tasklet_transfers_head dev_rx_ready0 0 (buf 3) [] (by decide) (by decide) (by decide)).2.2.2
    (by decide)

/-- On the sample receive channel, whose FIFO delivers 0, 1, 2, .. , the
first buffer was filled with the words 0 and 1 and the tasklet run fills the
second with the words 2 and 3: the third and the fourth value read. -/
theorem tasklet_rx_sample_words :
    dev_rx_ready0.rx_reads REG_CBBARn = 2 ∧
    (i2s_tasklet_fn dev_rx_ready0).rx_reads REG_CBBARn = 4 ∧
    (i2s_tasklet_fn dev_rx_ready0).completed =
      [{ buf 1 with data := [0, 1], processed_length := 8, status := MBO_SUCCESS },
       { buf 3 with data := [2, 3], processed_length := 8, status := MBO_SUCCESS }] := by
  decide

/-- C13: in a tasklet run, for every channel that is ready with an empty
pending queue, the transfer attempt returns `-EAGAIN` without any effect; the
channel is left as it was, so still ready, no register of the channel is
written and the completions of the run all belong to buffers of other
channels' queues; every other channel that is ready with a non-empty queue
has its head buffer taken off and its ready flag cleared in the same run. -/
theorem tasklet_empty_queue (d : hdm_i2s) (i : Nat)
    (hi : i < 8) (hr : (d.ch i).ready = true) (hp : (d.ch i).pending_list = []) :
    start_data_transfer d i = (-EAGAIN, d) ∧
    (i2s_tasklet_fn d).ch i = d.ch i ∧
    ((i2s_tasklet_fn d).ch i).ready = true ∧
    chan_writes (i2s_tasklet_fn d) i = chan_writes d i ∧
    (∃ cs, (i2s_tasklet_fn d).completed = d.completed ++ cs ∧
      ∀ x ∈ cs, ∃ j, j ≠ i ∧ ∃ m ∈ (d.ch j).pending_list, x.id = m.id) ∧
    (∀ j m r, j < 8 → (d.ch j).ready = true → (d.ch j).pending_list = m :: r →
      (i2s_tasklet_fn d).ch j = { d.ch j with pending_list := r, ready := false }) := by
  obtain ⟨dp, hd, hf⟩ := i2s_tasklet_fn_split d i hi
  have hp2 : (dp.ch i).pending_list = [] := by rw [hd.1]; exact hp
  have hsame : (if (dp.ch i).ready then (start_data_transfer dp i).2 else dp) = dp := by
    split_ifs
    · rw [start_data_transfer_nil dp i hp2]
    · rfl
  rw [hsame] at hf
  obtain ⟨a, _, ⟨ws, c, dw⟩, hc, _⟩ := foreign_trans hd hf
  refine ⟨start_data_transfer_nil d i hp, a, by rw [a]; exact hr, ?_, hc, ?_⟩
  · simp only [chan_writes, c, List.filter_append, filter_foreign i ws dw, List.append_nil]
  · intro j m r hj hrj hpj
    exact (i2s_tasklet_fn_ready_head d j m r hj hrj hpj).1

/-- C13 on the sample device: channel 0 is ready with nothing queued and
channel 1 is ready with one buffer. -/
theorem tasklet_empty_queue_witness :
    start_data_transfer dev_ready_empty0 0 = (-EAGAIN, dev_ready_empty0) ∧
    (i2s_tasklet_fn dev_ready_empty0).ch 0 = dev_ready_empty0.ch 0 ∧
    (i2s_tasklet_fn dev_ready_empty0).ch 1
      = { dev_ready_empty0.ch 1 with pending_list := [], ready := false } :=
  have h := tasklet_empty_queue dev_ready_empty0 0 (by decide) (by decide) (by decide)
  ⟨h.1, h.2.1, h.2.2.2.2.2 1 (buf 5) [] (by decide) (by decide) (by decide)⟩

/-! ## The interrupt handler -/

theorem touches_refl (A : Nat → Prop) (j : Nat) (d : hdm_i2s) : Touches A j d d :=
  ⟨⟨[], by simp, by simp⟩, fun _ _ => rfl, fun _ _ => rfl, fun _ => rfl, rfl, fun _ h => h⟩

theorem touches_trans {A : Nat → Prop} {j : Nat} {d e f : hdm_i2s}
    (h1 : Touches A j d e) (h2 : Touches A j e f) : Touches A j d f := by
  obtain ⟨⟨w1, a1, b1⟩, c1, d1, e1, f1, g1⟩ := h1
  obtain ⟨⟨w2, a2, b2⟩, c2, d2, e2, f2, g2⟩ := h2
  refine ⟨⟨w1 ++ w2, by rw [a2, a1, List.append_assoc], ?_⟩, fun o ho => by rw [c2 o ho, c1 o ho],
    fun k hk => by rw [d2 k hk, d1 k hk], fun k => by rw [e2, e1], by rw [f2, f1],
    fun k hk => g2 k (g1 k hk)⟩
  intro w hw
  rcases List.mem_append.1 hw with h | h
  · exact b1 w h
  · exact b2 w h

theorem touches_write (A : Nat → Prop) (j : Nat) (d : hdm_i2s) (o v : Nat) (ho : A o) :
    Touches A j d (write_reg_i2s d o v) := by
  refine ⟨⟨[(o, v % 2 ^ 32)], rfl, by simpa using ho⟩, fun p hp => ?_, fun _ _ => rfl,
    fun _ => rfl, rfl, fun _ h => h⟩
  have : p ≠ o := fun h => hp (h ▸ ho)
  simp [Function.update_noteq this]

theorem touches_upd (A : Nat → Prop) (j : Nat) (d : hdm_i2s) (f : i2s_channel → i2s_channel)
    (hf : ∀ c, (f c).pending_list = c.pending_list)
    (hr : ∀ c, c.ready = true → (f c).ready = true) :
    Touches A j d (upd_ch d j f) := by
  refine ⟨⟨[], by simp, by simp⟩, fun _ _ => rfl, fun k hk => by simp [hk], fun k => ?_, rfl,
    fun k hk => ?_⟩
  · by_cases h : k = j
    · subst h; simp [hf]
    · simp [h]
  · by_cases h : k = j
    · subst h; simp [hr _ hk]
    · simpa [h] using hk

theorem irq_regs_dccr (j : Nat) :
    irq_regs j (if is_port_a j = true then REG_DCCRA else REG_DCCRB) := by
  unfold irq_regs
  split_ifs
  · exact Or.inl rfl
  · exact Or.inr (Or.inl rfl)

theorem service_ch_irq_blocks (d : hdm_i2s) (j : Nat) :
    service_ch_irq d j =
      irq_tx_request (read_reg_i2s d (REG_CSRn + j * 8)) j
        (irq_rx_request (read_reg_i2s d (REG_CSRn + j * 8)) j
          (irq_underflow (read_reg_i2s d (REG_CSRn + j * 8))
            (if is_port_a j = true then REG_DCCRA else REG_DCCRB) j
            (irq_overflow (read_reg_i2s d (REG_CSRn + j * 8))
              (if is_port_a j = true then REG_DCCRA else REG_DCCRB) j d))) := rfl

theorem irq_overflow_touches (cs dccr j : Nat) (e : hdm_i2s) (hd : irq_regs j dccr) :
    Touches (irq_regs j) j e (irq_overflow cs dccr j e) := by
  have hc : irq_regs j (REG_CCRn + j * 8) := Or.inr (Or.inr (Or.inl rfl))
  have hs : irq_regs j (REG_CSRn + j * 8) := Or.inr (Or.inr (Or.inr rfl))
  unfold irq_overflow
  split_ifs
  · exact touches_trans (touches_trans (touches_trans (touches_write _ j e dccr _ hd)
      (touches_write _ j _ _ _ hc)) (touches_write _ j _ _ _ hs))
      (touches_upd _ j _ (fun c => { c with ready := true }) (fun _ => rfl) (fun _ _ => rfl))
  · exact touches_refl _ j e

theorem irq_underflow_touches (cs dccr j : Nat) (e : hdm_i2s) (hd : irq_regs j dccr) :
    Touches (irq_regs j) j e (irq_underflow cs dccr j e) := by
  have hc : irq_regs j (REG_CCRn + j * 8) := Or.inr (Or.inr (Or.inl rfl))
  have hs : irq_regs j (REG_CSRn + j * 8) := Or.inr (Or.inr (Or.inr rfl))
  unfold irq_underflow
  split_ifs
  · exact touches_trans (touches_trans (touches_trans (touches_write _ j e dccr _ hd)
      (touches_write _ j _ _ _ hc)) (touches_write _ j _ _ _ hs))
      (touches_upd _ j _ (fun c => { c with fifo_underflow := true }) (fun _ => rfl)
        (fun _ h => h))
  · exact touches_refl _ j e

theorem irq_rx_request_touches (cs j : Nat) (e : hdm_i2s) :
    Touches (irq_regs j) j e (irq_rx_request cs j e) := by
  have hc : irq_regs j (REG_CCRn + j * 8) := Or.inr (Or.inr (Or.inl rfl))
  unfold irq_rx_request
  split_ifs
  · exact touches_trans (touches_write _ j e _ _ hc)
      (touches_upd _ j _ (fun c => { c with ready := true }) (fun _ => rfl) (fun _ _ => rfl))
  · exact touches_refl _ j e

theorem irq_tx_request_touches (cs j : Nat) (e : hdm_i2s) :
    Touches (irq_regs j) j e (irq_tx_request cs j e) := by
  have hc : irq_regs j (REG_CCRn + j * 8) := Or.inr (Or.inr (Or.inl rfl))
  unfold irq_tx_request
  split_ifs
  · exact touches_trans (touches_write _ j e _ _ hc)
      (touches_upd _ j _ (fun c => { c with ready := true }) (fun _ => rfl) (fun _ _ => rfl))
  · exact touches_refl _ j e

theorem service_ch_irq_touches (d : hdm_i2s) (j : Nat) :
    Touches (irq_regs j) j d (service_ch_irq d j) := by
  rw [service_ch_irq_blocks]
  exact touches_trans (touches_trans (touches_trans
    (irq_overflow_touches _ _ j d (irq_regs_dccr j))
    (irq_underflow_touches _ _ j _ (irq_regs_dccr j)))
    (irq_rx_request_touches _ j _)) (irq_tx_request_touches _ j _)

theorem foreign_of_touches (i j : Nat) (d e : hdm_i2s) (hij : j ≠ i)
    (h : Touches (irq_regs j) j d e) : Foreign i d e := by
  obtain ⟨⟨ws, a, b⟩, c, dch, ep, f, _⟩ := h
  have hout : ∀ o, irq_regs j o → in_window i o = false := by
    intro o ho
    simp only [irq_regs, in_window, REG_CCRn, REG_CSRn, REG_DCCRA, REG_DCCRB,
      decide_eq_false_iff_not] at ho ⊢
    omega
  refine ⟨dch i (Ne.symm hij), fun o ho => c o (fun hr => ?_), ⟨ws, a, fun w hw => hout _ (b w hw)⟩,
    ⟨[], by simp [f], by simp⟩, fun k => ⟨[], by simp [ep k]⟩⟩
  rw [hout o hr] at ho
  exact Bool.noConfusion ho

theorem i2s_isr_split (d : hdm_i2s) (i : Nat) (hi : i < 8) :
    ∃ dp, Foreign i d dp ∧
      Foreign i (if read_reg_i2s d REG_DSCR &&& (1 <<< i) ≠ 0 then service_ch_irq dp i else dp)
        (i2s_isr d) := by
  obtain ⟨l1, l2, hl, h1, h2⟩ := range_split i hi
  have hstep : ∀ (r : Nat) (l : List Nat), i ∉ l → ∀ e : hdm_i2s, Foreign i e
      (l.foldl (fun x ch_idx =>
        if r &&& (1 <<< ch_idx) ≠ 0 then service_ch_irq x ch_idx else x) e) := by
    intro r l hl e
    induction l generalizing e with
    | nil => exact foreign_refl i e
    | cons a l ih =>
      simp only [List.foldl]
      have ha : a ≠ i := fun h => hl (by simp [h])
      have hl2 : i ∉ l := fun h => hl (List.mem_cons_of_mem _ h)
      refine foreign_trans ?_ (ih hl2 _)
      split_ifs
      · exact foreign_of_touches i a _ _ ha (service_ch_irq_touches e a)
      · exact foreign_refl i e
  refine ⟨_, hstep (read_reg_i2s d REG_DSCR) l1 h1 d, ?_⟩
  simp only [i2s_isr, hl, List.foldl_append, List.foldl_cons]
  refine foreign_trans (hstep (read_reg_i2s d REG_DSCR) l2 h2 _) ?_
  exact ⟨rfl, fun _ _ => rfl, ⟨[], by simp, by simp⟩, ⟨[], by simp, by simp⟩, fun _ => ⟨[], rfl⟩⟩

theorem service_ch_irq_overflow (e : hdm_i2s) (i : Nat)
    (hov : e.i2s_base (REG_CSRn + i * 8) &&& FIFO_OVERFLOW_INT ≠ 0) :
    ∃ post, (service_ch_irq e i).i2s_writes = e.i2s_writes ++
        [(if is_port_a i = true then REG_DCCRA else REG_DCCRB, 0), (REG_CCRn + i * 8, 0),
         (REG_CSRn + i * 8, FIFO_OVERFLOW_INT)] ++ post ∧
      ((service_ch_irq e i).ch i).ready = true := by
  have h1 : irq_overflow (read_reg_i2s e (REG_CSRn + i * 8))
      (if is_port_a i = true then REG_DCCRA else REG_DCCRB) i e =
      upd_ch
        (write_reg_i2s
          (write_reg_i2s
            (write_reg_i2s e (if is_port_a i = true then REG_DCCRA else REG_DCCRB) 0)
            (REG_CCRn + i * 8) 0)
          (REG_CSRn + i * 8) FIFO_OVERFLOW_INT)
        i (fun c => { c with ready := true }) := by
    simp only [irq_overflow, read_reg_i2s]
    rw [if_pos hov]
  obtain ⟨⟨post, a, _⟩, _, _, _, _, g⟩ := touches_trans (touches_trans
    (irq_underflow_touches (read_reg_i2s e (REG_CSRn + i * 8))
      (if is_port_a i = true then REG_DCCRA else REG_DCCRB) i
      (irq_overflow (read_reg_i2s e (REG_CSRn + i * 8))
        (if is_port_a i = true then REG_DCCRA else REG_DCCRB) i e) (irq_regs_dccr i))
    (irq_rx_request_touches (read_reg_i2s e (REG_CSRn + i * 8)) i _))
    (irq_tx_request_touches (read_reg_i2s e (REG_CSRn + i * 8)) i _)
  rw [← service_ch_irq_blocks] at a g
  have hv : FIFO_OVERFLOW_INT % 2 ^ 32 = FIFO_OVERFLOW_INT := by decide
  refine ⟨post, ?_, g i ?_⟩
  · rw [a, h1]
    simp only [upd_ch_writes, write_reg_i2s_writes, List.append_assoc, List.cons_append,
      List.nil_append, hv, Nat.zero_mod]
  · rw [h1]; simp

/-- C14: when the interrupt handler runs with the bit of an in-range channel
set in `REG_DSCR` and the overflow bit set in the channel's status register
(whether the channel is enabled or not), it writes, one after the other, 0
to the configuration register of the channel's port (`REG_DCCRA` for
channels 0 to 3, `REG_DCCRB` for channels 4 to 7), 0 to the channel's
control register and the overflow bit to the channel's status register, and
the channel's ready flag is set when the handler returns. -/
theorem isr_overflow (d : hdm_i2s) (i : Nat) (hi : i < 8)
    (hbit : d.i2s_base REG_DSCR &&& (1 <<< i) ≠ 0)
    (hov : d.i2s_base (REG_CSRn + 8 * i) &&& FIFO_OVERFLOW_INT ≠ 0) :
    ∃ pre post, (i2s_isr d).i2s_writes = d.i2s_writes ++ pre ++
        [(if i < 4 then REG_DCCRA else REG_DCCRB, 0), (REG_CCRn + 8 * i, 0),
         (REG_CSRn + 8 * i, FIFO_OVERFLOW_INT)] ++ post ∧
      ((i2s_isr d).ch i).ready = true := by
  obtain ⟨dp, ⟨a1, b1, ⟨ws1, c1, _⟩, _, _⟩, hf⟩ := i2s_isr_split d i hi
  have hb : read_reg_i2s d REG_DSCR &&& (1 <<< i) ≠ 0 := hbit
  rw [if_pos hb] at hf
  obtain ⟨a2, _, ⟨ws2, c2, _⟩, _, _⟩ := hf
  have hcsr : in_window i (REG_CSRn + i * 8) = true :=
    in_window_self i _ (by simp [REG_CCRn, REG_CSRn])
  have hov2 : dp.i2s_base (REG_CSRn + i * 8) &&& FIFO_OVERFLOW_INT ≠ 0 := by
    rw [b1 _ hcsr, Nat.mul_comm i 8]; exact hov
  obtain ⟨post, hw, hr⟩ := service_ch_irq_overflow dp i hov2
  have hport : (if is_port_a i = true then REG_DCCRA else REG_DCCRB)
      = (if i < 4 then REG_DCCRA else REG_DCCRB) := by
    simp [is_port_a, DMA_CHANNELS_PER_PORT]
  refine ⟨ws1, post ++ ws2, ?_, by rw [a2]; exact hr⟩
  rw [c2, hw, c1, hport, Nat.mul_comm i 8]
  simp only [List.append_assoc]

/-- C14 on the enabled channel 0 of the sample device. -/
theorem isr_overflow_witness :
    ∃ pre post, (i2s_isr dev_overflow0).i2s_writes = dev_overflow0.i2s_writes ++ pre ++
        [(if 0 < 4 then REG_DCCRA else REG_DCCRB, 0), (REG_CCRn + 8 * 0, 0),
         (REG_CSRn + 8 * 0, FIFO_OVERFLOW_INT)] ++ post ∧
      ((i2s_isr dev_overflow0).ch 0).ready = true :=
  isr_overflow dev_overflow0 0 (by decide) (by decide) (by decide)

/-! ## The control surface: round trips -/

theorem clock_source_round_trip (dev : hdm_i2s) (s : String) (count : Nat)
    (h : s ∈ clock_source_texts) :
    clock_source_show (clock_source_store dev s count).2 "" = ((s.length : Int) + 1, s) := by
  simp only [clock_source_texts, List.mem_cons, List.mem_singleton, List.not_mem_nil,
    or_false] at h
  rcases h with h | h | h | h | h | h | h | h <;> subst h <;>
    simp [clock_source_show, clock_source_store, PHY1_RMCK0, PHY1_RMCK1, PHY2_RMCK0, PHY2_RMCK1,
      DBG_CLK, OSC1_CLK, OSC2_CLK, OSC3_CLK]

theorem clock_source_store_known (dev : hdm_i2s) (s : String) (count : Nat)
    (h : s ∈ clock_source_texts) :
    (clock_source_store dev s count).1 = count := by
  simp only [clock_source_texts, List.mem_cons, List.mem_singleton, List.not_mem_nil,
    or_false] at h
  rcases h with h | h | h | h | h | h | h | h <;> subst h <;>
    simp [clock_source_store]

theorem clock_speed_round_trip (p : i2s_port) (s : String) (h : s ∈ clock_speed_texts) :
    port_clock_speed_render (port_clock_speed_parse p s) "" = ((s.length : Int) + 1, s) := by
  simp only [clock_speed_texts, List.mem_cons, List.mem_singleton, List.not_mem_nil,
    or_false] at h
  rcases h with h | h | h | h | h | h | h <;> subst h <;>
    simp [port_clock_speed_render, port_clock_speed_parse, I2S_CLK_8FS, I2S_CLK_16FS,
      I2S_CLK_32FS, I2S_CLK_64FS, I2S_CLK_128FS, I2S_CLK_256FS, I2S_CLK_512FS]

theorem clock_mode_round_trip (p : i2s_port) (s : String) (h : s ∈ clock_mode_texts) :
    port_clock_mode_render (port_clock_mode_parse p s) "" = ((s.length : Int) + 1, s) := by
  simp only [clock_mode_texts, List.mem_cons, List.mem_singleton, List.not_mem_nil,
    or_false] at h
  rcases h with h | h <;> subst h <;>
    simp [port_clock_mode_render, port_clock_mode_parse, I2S_CLKMODE_MASTER, I2S_CLKMODE_SLAVE,
      I2S_REG_CLKMODE_MASTER, I2S_REG_CLKMODE_SLAVE]

theorem data_format_round_trip (p : i2s_port) (s : String) (h : s ∈ data_format_texts) :
    port_data_format_render (port_data_format_parse p s) "" = ((s.length : Int) + 1, s) := by
  simp only [data_format_texts, List.mem_cons, List.mem_singleton, List.not_mem_nil,
    or_false] at h
  rcases h with h | h | h | h | h | h | h <;> subst h <;>
    simp [port_data_format_render, port_data_format_parse, I2S_DATA_DEL, I2S_DATA_DEL_SEQ,
      I2S_DATA_SEQ, I2S_DATA_LEFT_MONO, I2S_DATA_LEFT_STEREO, I2S_DATA_RIGHT_MONO,
      I2S_DATA_RIGHT_STEREO]

theorem clock_source_show_total (dev : hdm_i2s) (b : String) :
    ∃ t ∈ clock_source_texts ++ [undefined_text],
      clock_source_show dev b = (((b ++ t).length : Int) + 1, b ++ t) := by
  unfold clock_source_show
  split_ifs <;> exact ⟨_, by simp [clock_source_texts, undefined_text], rfl⟩

theorem clock_speed_render_total (p : i2s_port) (b : String) :
    ∃ t ∈ clock_speed_texts ++ [undefined_text],
      port_clock_speed_render p b = (((b ++ t).length : Int) + 1, b ++ t) := by
  unfold port_clock_speed_render
  split_ifs <;> exact ⟨_, by simp [clock_speed_texts, undefined_text], rfl⟩

theorem clock_mode_render_total (p : i2s_port) (b : String) :
    ∃ t ∈ clock_mode_texts ++ [undefined_text],
      port_clock_mode_render p b = (((b ++ t).length : Int) + 1, b ++ t) := by
  unfold port_clock_mode_render
  split_ifs <;> exact ⟨_, by simp [clock_mode_texts, undefined_text], rfl⟩

theorem data_format_render_total (p : i2s_port) (b : String) :
    ∃ t ∈ data_format_texts ++ [undefined_text],
      port_data_format_render p b = (((b ++ t).length : Int) + 1, b ++ t) := by
  unfold port_data_format_render
  split_ifs <;> exact ⟨_, by simp [data_format_texts, undefined_text], rfl⟩
/-- C21: for the clock source (8 texts) and, on port A and port B, the clock
mode (2 texts), the clock speed (7 texts) and the data format (7 texts),
storing a recognised text `s` and then rendering the attribute into an empty
page yields exactly `s`; the clock source setter accepts `s` (returns
`count`); and rendering is total: whatever the field holds and whatever the
page holds, the show function appends one of the recognised texts or the
text "undefined" and returns the length of the page plus 1. -/
theorem store_show_round_trip (dev : hdm_i2s) (s : String) (count : Nat) :
    (clock_source_texts.length = 8 ∧ clock_mode_texts.length = 2 ∧
      clock_speed_texts.length = 7 ∧ data_format_texts.length = 7) ∧
    (s ∈ clock_source_texts →
      (clock_source_store dev s count).1 = count ∧
      (clock_source_show (clock_source_store dev s count).2 "").2 = s) ∧
    (s ∈ clock_mode_texts →
      (port_a_clock_mode_show (port_a_clock_mode_store dev s count).2 "").2 = s ∧
      (port_b_clock_mode_show (port_b_clock_mode_store dev s count).2 "").2 = s) ∧
    (s ∈ clock_speed_texts →
      (port_a_clock_speed_show (port_a_clock_speed_store dev s count).2 "").2 = s ∧
      (port_b_clock_speed_show (port_b_clock_speed_store dev s count).2 "").2 = s) ∧
    (s ∈ data_format_texts →
      (port_a_data_format_show (port_a_data_format_store dev s count).2 "").2 = s ∧
      (port_b_data_format_show (port_b_data_format_store dev s count).2 "").2 = s) ∧
    (∀ b : String,
      (∃ t ∈ clock_source_texts ++ [undefined_text],
        clock_source_show dev b = (((b ++ t).length : Int) + 1, b ++ t)) ∧
      (∃ t ∈ clock_mode_texts ++ [undefined_text],
        port_a_clock_mode_show dev b = (((b ++ t).length : Int) + 1, b ++ t)) ∧
      (∃ t ∈ clock_mode_texts ++ [undefined_text],
        port_b_clock_mode_show dev b = (((b ++ t).length : Int) + 1, b ++ t)) ∧
      (∃ t ∈ clock_speed_texts ++ [undefined_text],
        port_a_clock_speed_show dev b = (((b ++ t).length : Int) + 1, b ++ t)) ∧
      (∃ t ∈ clock_speed_texts ++ [undefined_text],
        port_b_clock_speed_show dev b = (((b ++ t).length : Int) + 1, b ++ t)) ∧
      (∃ t ∈ data_format_texts ++ [undefined_text],
        port_a_data_format_show dev b = (((b ++ t).length : Int) + 1, b ++ t)) ∧
      (∃ t ∈ data_format_texts ++ [undefined_text],
        port_b_data_format_show dev b = (((b ++ t).length : Int) + 1, b ++ t))) := by
  refine ⟨⟨rfl, rfl, rfl, rfl⟩, fun h => ?_, fun h => ?_, fun h => ?_, fun h => ?_, fun b => ?_⟩
  · exact ⟨clock_source_store_known dev s count h, by rw [clock_source_round_trip dev s count h]⟩
  · exact ⟨by
        simp only [port_a_clock_mode_show, port_a_clock_mode_store]
        rw [clock_mode_round_trip _ s h], by
        simp only [port_b_clock_mode_show, port_b_clock_mode_store]
        rw [clock_mode_round_trip _ s h]⟩
  · exact ⟨by
        simp only [port_a_clock_speed_show, port_a_clock_speed_store]
        rw [clock_speed_round_trip _ s h], by
        simp only [port_b_clock_speed_show, port_b_clock_speed_store]
        rw [clock_speed_round_trip _ s h]⟩
  · exact ⟨by
        simp only [port_a_data_format_show, port_a_data_format_store]
        rw [data_format_round_trip _ s h], by
        simp only [port_b_data_format_show, port_b_data_format_store]
        rw [data_format_round_trip _ s h]⟩
  · exact ⟨clock_source_show_total dev b, clock_mode_render_total _ b, clock_mode_render_total _ b,
      clock_speed_render_total _ b, clock_speed_render_total _ b, data_format_render_total _ b,
      data_format_render_total _ b⟩

/-- C21 at the text "osc2_clk" written to the clock source and the text
"left_stereo" written to the data format of port B. -/
theorem store_show_round_trip_witness :
    (clock_source_show (clock_source_store dev_locked "osc2_clk\n" 9).2 "").2 = "osc2_clk\n" ∧
    (port_b_data_format_show (port_b_data_format_store dev_locked "left_stereo\n" 12).2 "").2 =
      "left_stereo\n" :=
  ⟨((store_show_round_trip dev_locked "osc2_clk\n" 9).2.1 (by decide)).2,
   ((store_show_round_trip dev_locked "left_stereo\n" 12).2.2.2.2.1 (by decide)).2⟩

/-! ## Clock generator: a locked generator is left alone -/

theorem check_if_clk_gen_locked_locked (g : clk_gen) (src : Nat)
    (h : MMCM_LOCKED &&& g.cfg_script g.reads ≠ 0) :
    check_if_clk_gen_locked g src = (0, { g with reads := g.reads + 1 }) := by
  simp [check_if_clk_gen_locked, read_reg_clkgen, h]

theorem check_repeatedly_locked (src n : Nat) (g : clk_gen)
    (h : ∀ k, k < n → MMCM_LOCKED &&& g.cfg_script (g.reads + k) ≠ 0) :
    check_repeatedly src n g = (List.replicate n 0, { g with reads := g.reads + n }) := by
  induction n generalizing g with
  | zero => rfl
  | succ n ih =>
    have h0 : MMCM_LOCKED &&& g.cfg_script g.reads ≠ 0 := by simpa using h 0 (by omega)
    simp only [check_repeatedly, check_if_clk_gen_locked_locked g src h0]
    rw [ih]
    · simp only [List.replicate_succ, Nat.add_assoc, Nat.add_comm 1 n]
    · intro k hk
      have := h (k + 1) (by omega)
      simpa [Nat.add_assoc, Nat.add_comm 1 k] using this

/-- C22: when the lock-status bit reads as set, `check_if_clk_gen_locked`
returns 0 and writes no clock generator register: it only consumes the one
read. So `n` calls in a row on a generator whose status reads as locked each
time all return 0 and leave the written registers as they were, after `n`
reads. -/
theorem check_locked_idempotent (g : clk_gen) (src n : Nat)
    (h : ∀ k, k < n → MMCM_LOCKED &&& g.cfg_script (g.reads + k) ≠ 0) :
    (0 < n → check_if_clk_gen_locked g src = (0, { g with reads := g.reads + 1 })) ∧
    (check_repeatedly src n g).1 = List.replicate n 0 ∧
    (check_repeatedly src n g).2.writes = g.writes ∧
    (check_repeatedly src n g).2.reads = g.reads + n ∧
    (check_repeatedly src n g).2.cfg_script = g.cfg_script := by
  rw [check_repeatedly_locked src n g h]
  refine ⟨fun hn => ?_, rfl, rfl, rfl, rfl⟩
  exact check_if_clk_gen_locked_locked g src (by simpa using h 0 hn)

/-- C22 at three calls in a row on the sample generator that always reports
the lock bit. -/
theorem check_locked_idempotent_witness :
    (check_repeatedly 0 3 dev_locked.clk_gen_base).1 = [0, 0, 0] ∧
    (check_repeatedly 0 3 dev_locked.clk_gen_base).2.writes = [] :=
  ⟨(check_locked_idempotent dev_locked.clk_gen_base 0 3 (fun _ _ => (by decide : MMCM_LOCKED &&& MMCM_LOCKED ≠ 0))).2.1,
   (check_locked_idempotent dev_locked.clk_gen_base 0 3 (fun _ _ => (by decide : MMCM_LOCKED &&& MMCM_LOCKED ≠ 0))).2.2.1⟩

/-! ## The byte count field -/

set_option maxRecDepth 100000 in
theorem stereo_fields (b : Nat) (hb : b < 256) :
    (((((b / 2) <<< 10) &&& 0xFC00) ||| (((b / 2) <<< 16) &&& 0x3F0000)) >>> 10) &&& 0x3F =
      (b / 2) % 64 ∧
    (((((b / 2) <<< 10) &&& 0xFC00) ||| (((b / 2) <<< 16) &&& 0x3F0000)) >>> 16) &&& 0x3F =
      (b / 2) % 64 := by
  revert b
  decide

/-- C25: `get_byte_count_reg_val` for a channel with `bytes_per_frame` b, an
8-bit value, whose port (port A for channels 0 to 3, port B for the others)
has data format f: the result is 0 when f is undefined; `(b << 10) & 0xFC00`
for left mono; `(b << 16) & 0x3F0000` for right mono; for left and right
stereo the or of `((b / 2) << 10) & 0xFC00` and `((b / 2) << 16) & 0x3F0000`,
whose two 6-bit sub-fields both hold b / 2 (modulo 64); and
`(b << 10) & 0x1FC00` for every other value, the sequential formats
(sequential, delayed sequential, delayed) among them. The result fits in 32
bits. -/
theorem get_byte_count_reg_val_formula (dev : hdm_i2s) (ch_idx b f : Nat)
    (hb : (dev.ch ch_idx).bytes_per_frame = b) (hlt : b < 256)
    (hf : (if ch_idx < 4 then dev.port_a else dev.port_b).data_format = f) :
    (f = I2S_DATA_UDEF → get_byte_count_reg_val dev ch_idx = 0) ∧
    (f = I2S_DATA_LEFT_MONO → get_byte_count_reg_val dev ch_idx = (b <<< 10) &&& 0xFC00) ∧
    (f = I2S_DATA_RIGHT_MONO → get_byte_count_reg_val dev ch_idx = (b <<< 16) &&& 0x3F0000) ∧
    (f = I2S_DATA_LEFT_STEREO ∨ f = I2S_DATA_RIGHT_STEREO →
      get_byte_count_reg_val dev ch_idx =
        ((((b / 2) <<< 10) &&& 0xFC00) ||| (((b / 2) <<< 16) &&& 0x3F0000)) ∧
      (get_byte_count_reg_val dev ch_idx >>> 10) &&& 0x3F = (b / 2) % 64 ∧
      (get_byte_count_reg_val dev ch_idx >>> 16) &&& 0x3F = (b / 2) % 64) ∧
    (f = I2S_DATA_SEQ ∨ f = I2S_DATA_DEL_SEQ ∨ f = I2S_DATA_DEL →
      get_byte_count_reg_val dev ch_idx = (b <<< 10) &&& 0x1FC00) ∧
    (f ≠ I2S_DATA_UDEF → f ≠ I2S_DATA_LEFT_MONO → f ≠ I2S_DATA_RIGHT_MONO →
      f ≠ I2S_DATA_LEFT_STEREO → f ≠ I2S_DATA_RIGHT_STEREO →
      get_byte_count_reg_val dev ch_idx = (b <<< 10) &&& 0x1FC00) ∧
    get_byte_count_reg_val dev ch_idx < 2 ^ 32 := by
  have hport : (if is_port_a ch_idx = true then dev.port_a else dev.port_b).data_format = f := by
    rw [← hf]; simp [is_port_a, DMA_CHANNELS_PER_PORT]
  have hother : f ≠ I2S_DATA_UDEF → f ≠ I2S_DATA_LEFT_MONO → f ≠ I2S_DATA_RIGHT_MONO →
      f ≠ I2S_DATA_LEFT_STEREO → f ≠ I2S_DATA_RIGHT_STEREO →
      get_byte_count_reg_val dev ch_idx = (b <<< 10) &&& 0x1FC00 := by
    intro h1 h2 h3 h4 h5
    simp only [get_byte_count_reg_val, hport, hb, h1, h2, h3, h4, h5, if_false, or_self,
      I2S_SEQ_SHIFT, I2S_SEQ_MASK]
  have hst : f = I2S_DATA_LEFT_STEREO ∨ f = I2S_DATA_RIGHT_STEREO →
      get_byte_count_reg_val dev ch_idx =
        ((((b / 2) <<< 10) &&& 0xFC00) ||| (((b / 2) <<< 16) &&& 0x3F0000)) := by
    rintro (h | h) <;> subst h <;>
      simp [get_byte_count_reg_val, hport, hb, I2S_DATA_UDEF, UNDEFINED, I2S_DATA_LEFT_MONO,
        I2S_DATA_RIGHT_MONO, I2S_DATA_LEFT_STEREO, I2S_DATA_RIGHT_STEREO, I2S_LEFT_SHIFT,
        I2S_LEFT_MASK, I2S_RIGHT_SHIFT, I2S_RIGHT_MASK]
  refine ⟨fun h => ?_, fun h => ?_, fun h => ?_, fun h => ?_, fun h => ?_, hother, ?_⟩
  · simp [get_byte_count_reg_val, hport, h]
  · subst h
    simp [get_byte_count_reg_val, hport, hb, I2S_DATA_UDEF, UNDEFINED, I2S_DATA_LEFT_MONO,
      I2S_LEFT_SHIFT, I2S_LEFT_MASK]
  · subst h
    simp [get_byte_count_reg_val, hport, hb, I2S_DATA_UDEF, UNDEFINED, I2S_DATA_LEFT_MONO,
      I2S_DATA_RIGHT_MONO, I2S_RIGHT_SHIFT, I2S_RIGHT_MASK]
  · rw [hst h]
    exact ⟨rfl, stereo_fields b hlt⟩
  · apply hother <;> rcases h with h | h | h <;> subst h <;> decide
  · simp only [get_byte_count_reg_val]
    have hm : ∀ x m : Nat, m < 2 ^ 32 → x &&& m < 2 ^ 32 :=
      fun x m hm => lt_of_le_of_lt Nat.and_le_right hm
    split_ifs
    all_goals first
      | decide
      | exact hm _ _ (by decide)
      | exact Nat.or_lt_two_pow (hm _ _ (by decide)) (hm _ _ (by decide))

/-- C25 on channel 0 of the sample device with the data format of port A
written as left justified stereo: 4 bytes per frame give 2 in both
sub-fields. -/
theorem get_byte_count_reg_val_formula_witness :
    get_byte_count_reg_val (port_a_data_format_store dev_tx0 "left_stereo\n" 12).2 0 =
      ((((4 / 2) <<< 10) &&& 0xFC00) ||| (((4 / 2) <<< 16) &&& 0x3F0000)) :=
  ((get_byte_count_reg_val_formula (port_a_data_format_store dev_tx0 "left_stereo\n" 12).2 0 4
    I2S_DATA_LEFT_STEREO (by decide) (by decide) (by decide)).2.2.2.1 (Or.inl rfl)).1

/-! ## Clock generator: the reset pulses -/

theorem try_lock_loop_pulses (src n : Nat) (g : clk_gen) :
    (∀ k, k < n →
      (∀ j, j < k → MMCM_LOCKED &&& g.cfg_script (g.reads + j) = 0) →
      MMCM_LOCKED &&& g.cfg_script (g.reads + k) ≠ 0 →
      try_lock_loop src n g =
        (0, { g with reads := g.reads + (k + 1)
                     writes := g.writes ++ (List.replicate k (reset_pulse src)).flatten })) ∧
    ((∀ j, j < n → MMCM_LOCKED &&& g.cfg_script (g.reads + j) = 0) →
      try_lock_loop src n g =
        (-ETIME, { g with reads := g.reads + n
                          writes := g.writes ++ (List.replicate n (reset_pulse src)).flatten })) := by
  induction n generalizing g with
  | zero =>
    refine ⟨fun k hk => by omega, fun _ => ?_⟩
    simp [try_lock_loop]
  | succ n ih =>
    by_cases hl : MMCM_LOCKED &&& g.cfg_script g.reads = 0
    · have hstep : try_lock_loop src (n + 1) g =
          try_lock_loop src n
            (write_reg_clkgen (write_reg_clkgen (read_reg_clkgen g REG_CFG).2 REG_CFG
              (MMCM_RESET ||| src)) REG_CFG (RST_CLR ||| src)) := by
        simp [try_lock_loop, read_reg_clkgen, hl]
      obtain ⟨ih1, ih2⟩ := ih
        (write_reg_clkgen (write_reg_clkgen (read_reg_clkgen g REG_CFG).2 REG_CFG
          (MMCM_RESET ||| src)) REG_CFG (RST_CLR ||| src))
      rw [hstep]
      simp only [write_reg_clkgen, read_reg_clkgen] at ih1 ih2 ⊢
      refine ⟨fun k hk hun hlk => ?_, fun hun => ?_⟩
      · have hk0 : k ≠ 0 := by
          rintro rfl
          exact hlk (by simpa using hl)
        obtain ⟨k, rfl⟩ := Nat.exists_eq_succ_of_ne_zero hk0
        rw [ih1 k (by omega)
          (fun j hj => by
            have := hun (j + 1) (by omega)
            rwa [show g.reads + 1 + j = g.reads + (j + 1) by omega])
          (by rwa [show g.reads + 1 + k = g.reads + (k + 1) by omega])]
        simp [List.replicate_succ, reset_pulse, Nat.add_assoc, Nat.add_comm 1]
      · rw [ih2 (fun j hj => by
          have := hun (j + 1) (by omega)
          rwa [show g.reads + 1 + j = g.reads + (j + 1) by omega])]
        simp [List.replicate_succ, reset_pulse, Nat.add_assoc, Nat.add_comm 1]
    · have hstep : try_lock_loop src (n + 1) g = (0, (read_reg_clkgen g REG_CFG).2) := by
        simp [try_lock_loop, read_reg_clkgen, hl]
      rw [hstep]
      simp only [read_reg_clkgen]
      refine ⟨fun k hk hun _ => ?_, fun hun => ?_⟩
      · have hk0 : k = 0 := by
          by_contra hne
          exact hl (by simpa using hun 0 (by omega))
        subst hk0
        simp
      · exact absurd (by simpa using hun 0 (by omega)) hl

/-- C26 as stated fails: on a generator that never reports the lock bit,
`try_lock_clk_gen` polls 5 times and issues 6 reset pulses, not 5: the loop
issues a pulse after every failed poll, the fifth included. -/
theorem try_lock_clk_gen_six_pulses :
    (try_lock_clk_gen dev_unlocked.clk_gen_base PHY1_RMCK1).1 = -ETIME ∧
    (try_lock_clk_gen dev_unlocked.clk_gen_base PHY1_RMCK1).2.reads = 5 ∧
    (try_lock_clk_gen dev_unlocked.clk_gen_base PHY1_RMCK1).2.writes =
      [(REG_DIV, 0), (REG_CFG, PHY1_RMCK1)] ++
        (List.replicate 6 (reset_pulse PHY1_RMCK1)).flatten ∧
    (try_lock_clk_gen dev_unlocked.clk_gen_base PHY1_RMCK1).2.writes.count
      (REG_CFG, MMCM_RESET ||| PHY1_RMCK1) = 6 := by
  decide

/-- C26 amended: `try_lock_clk_gen` writes the divider and the clock source,
issues one reset pulse (`MMCM_RESET | source`, then `RST_CLR | source`, to
`REG_CFG`) before the first poll and one more after every poll that reports
unlocked, the last of the 5 included, and writes nothing else: when the k-th
poll, 1 ≤ k ≤ 5, is the first that reports locked it returns 0 after exactly
k polls and k pulses; when all 5 polls fail it returns `-ETIME` after exactly
5 polls and 6 pulses, the sixth following the last poll (a poll that fails
with no iteration left is still followed by a pulse). -/
theorem try_lock_clk_gen_pulses (g : clk_gen) (src : Nat) :
    (∀ k, 1 ≤ k → k ≤ 5 →
      (∀ j, j + 1 < k → MMCM_LOCKED &&& g.cfg_script (g.reads + j) = 0) →
      MMCM_LOCKED &&& g.cfg_script (g.reads + (k - 1)) ≠ 0 →
      try_lock_clk_gen g src =
        (0, { g with
                reads := g.reads + k
                writes := g.writes ++ [(REG_DIV, 0), (REG_CFG, src % 2 ^ 32)] ++
                  (List.replicate k (reset_pulse src)).flatten })) ∧
    ((∀ j, j < 5 → MMCM_LOCKED &&& g.cfg_script (g.reads + j) = 0) →
      try_lock_clk_gen g src =
        (-ETIME, { g with
                reads := g.reads + 5
                writes := g.writes ++ [(REG_DIV, 0), (REG_CFG, src % 2 ^ 32)] ++
                  (List.replicate 6 (reset_pulse src)).flatten })) ∧
    (MMCM_LOCKED &&& g.cfg_script g.reads = 0 →
      try_lock_loop src 1 g =
        (-ETIME, { g with reads := g.reads + 1, writes := g.writes ++ reset_pulse src })) := by
  obtain ⟨h1, h2⟩ := try_lock_loop_pulses src 5
    (write_reg_clkgen (write_reg_clkgen (write_reg_clkgen (write_reg_clkgen g REG_DIV 0)
      REG_CFG src) REG_CFG (MMCM_RESET ||| src)) REG_CFG (RST_CLR ||| src))
  simp only [write_reg_clkgen] at h1 h2
  refine ⟨fun k hk1 hk5 hun hlk => ?_, fun hun => ?_, fun hl => ?_⟩
  · obtain ⟨k, rfl⟩ := Nat.exists_eq_succ_of_ne_zero (show k ≠ 0 by omega)
    simp only [try_lock_clk_gen, write_reg_clkgen]
    rw [h1 k (by omega) (fun j hj => hun j (by omega)) (by simpa using hlk)]
    simp [List.replicate_succ, reset_pulse]
  · simp only [try_lock_clk_gen, write_reg_clkgen]
    rw [h2 hun]
    simp [List.replicate_succ, reset_pulse]
  · have := (try_lock_loop_pulses src 1 g).2 (fun j hj => by
      obtain rfl : j = 0 := by omega
      simpa using hl)
    rw [this]
    simp [List.replicate_succ]

/-- C26 amended, at a script that reports the lock bit on the third poll:
three polls and three reset pulses. -/
theorem try_lock_clk_gen_pulses_witness :
    try_lock_clk_gen ⟨fun n => if n = 2 then MMCM_LOCKED else 0, 0, []⟩ 0 =
      (0, { (⟨fun n => if n = 2 then MMCM_LOCKED else 0, 0, []⟩ : clk_gen) with
              reads := 0 + 3
              writes := [] ++ [(REG_DIV, 0), (REG_CFG, 0 % 2 ^ 32)] ++
                (List.replicate 3 (reset_pulse 0)).flatten }) :=
  (try_lock_clk_gen_pulses ⟨fun n => if n = 2 then MMCM_LOCKED else 0, 0, []⟩ 0).1 3
    (by decide) (by decide)
    (fun j hj => by
      have hj2 : j ≠ 2 := by omega
      simp [hj2])
    (by decide)

/-! ## The port configuration sequence -/

/-- C28: a successful `i2s_enable` appends to the register writes a block
for port A followed by a block for port B and nothing else; the block of a
port is written to that port's configuration register only, and for an
enabled port whose clock mode and clock speed are not undefined and whose
data format is one of the seven formats it is exactly the five values 0,
`PORT_RST`, 0, `PORT_EN`, `PORT_EN | IO_MODE | clk_mode | clk_speed |
data-format bits`, in this order. The data format bits are defined exactly
for the seven formats, and the mono and the stereo variant of a
justification have the same bits. -/
theorem i2s_enable_write_sequence (dev : hdm_i2s) (h0 : (i2s_enable dev).1 = 0)
    (hwa : dev.port_a.clk_mode < 2 ^ 32 ∧ dev.port_a.clk_speed < 2 ^ 32)
    (hwb : dev.port_b.clk_mode < 2 ^ 32 ∧ dev.port_b.clk_speed < 2 ^ 32) :
    (∃ wa wb, (i2s_enable dev).2.i2s_writes = dev.i2s_writes ++ wa ++ wb ∧
      (∀ w ∈ wa, w.1 = REG_DCCRA) ∧ (∀ w ∈ wb, w.1 = REG_DCCRB) ∧
      (dev.port_a.is_enabled ≠ 0 → dev.port_a.clk_mode ≠ I2S_CLKMODE_UDEF →
        dev.port_a.clk_speed ≠ I2S_CLK_UDEF →
        get_i2s_dataformat_reg_val dev.port_a.data_format ≠ UNDEFINED →
        wa = [(REG_DCCRA, 0), (REG_DCCRA, PORT_RST), (REG_DCCRA, 0), (REG_DCCRA, PORT_EN),
          (REG_DCCRA, PORT_EN ||| IO_MODE ||| dev.port_a.clk_mode ||| dev.port_a.clk_speed |||
            get_i2s_dataformat_reg_val dev.port_a.data_format)]) ∧
      (dev.port_b.is_enabled ≠ 0 → dev.port_b.clk_mode ≠ I2S_CLKMODE_UDEF →
        dev.port_b.clk_speed ≠ I2S_CLK_UDEF →
        get_i2s_dataformat_reg_val dev.port_b.data_format ≠ UNDEFINED →
        wb = [(REG_DCCRB, 0), (REG_DCCRB, PORT_RST), (REG_DCCRB, 0), (REG_DCCRB, PORT_EN),
          (REG_DCCRB, PORT_EN ||| IO_MODE ||| dev.port_b.clk_mode ||| dev.port_b.clk_speed |||
            get_i2s_dataformat_reg_val dev.port_b.data_format)])) ∧
    (∀ f, get_i2s_dataformat_reg_val f ≠ UNDEFINED ↔
      f ∈ [I2S_DATA_DEL, I2S_DATA_DEL_SEQ, I2S_DATA_SEQ, I2S_DATA_LEFT_MONO, I2S_DATA_LEFT_STEREO,
        I2S_DATA_RIGHT_MONO, I2S_DATA_RIGHT_STEREO]) ∧
    get_i2s_dataformat_reg_val I2S_DATA_LEFT_MONO =
      get_i2s_dataformat_reg_val I2S_DATA_LEFT_STEREO ∧
    get_i2s_dataformat_reg_val I2S_DATA_RIGHT_MONO =
      get_i2s_dataformat_reg_val I2S_DATA_RIGHT_STEREO := by
  have hlock : (i2s_enable_lock dev).1 = 0 := by
    by_contra hne
    have : (i2s_enable dev).1 = (i2s_enable_lock dev).1 := by simp [i2s_enable, hne]
    exact hne (this ▸ h0)
  have hval : ∀ m s f : Nat, m < 2 ^ 32 → s < 2 ^ 32 →
      (PORT_EN ||| IO_MODE ||| m ||| s ||| get_i2s_dataformat_reg_val f) % 2 ^ 32 =
        PORT_EN ||| IO_MODE ||| m ||| s ||| get_i2s_dataformat_reg_val f := by
    intro m s f hm hs
    apply Nat.mod_eq_of_lt
    exact Nat.or_lt_two_pow (Nat.or_lt_two_pow (Nat.or_lt_two_pow (by decide) hm) hs)
      (get_i2s_dataformat_reg_val_lt f)
  refine ⟨?_, get_i2s_dataformat_reg_val_defined, rfl, rfl⟩
  rw [i2s_enable_snd, if_neg (by simpa using hlock), i2s_enable_port_writes,
    i2s_enable_port_writes]
  refine ⟨_, _, rfl, ?_, ?_, fun h1 h2 h3 h4 => ?_, fun h1 h2 h3 h4 => ?_⟩
  · intro w hw
    split_ifs at hw
    · simp only [List.mem_cons, List.mem_singleton, List.not_mem_nil, or_false] at hw
      rcases hw with h | h | h | h | h <;> rw [h]
    · simp at hw
  · intro w hw
    split_ifs at hw
    · simp only [List.mem_cons, List.mem_singleton, List.not_mem_nil, or_false] at hw
      rcases hw with h | h | h | h | h <;> rw [h]
    · simp at hw
  · rw [if_pos ⟨h1, h4, h3, h2⟩, hval _ _ _ hwa.1 hwa.2]
  · rw [if_pos ⟨h1, h4, h3, h2⟩, hval _ _ _ hwb.1 hwb.2]

/-- C28 on the sample device with port B enabled as clock slave at 64 FS,
left justified stereo, and port A disabled. -/
theorem i2s_enable_write_sequence_witness :
    (i2s_enable dev_port_b_ok).2.i2s_writes =
      [(REG_DCCRB, 0), (REG_DCCRB, PORT_RST), (REG_DCCRB, 0), (REG_DCCRB, PORT_EN),
       (REG_DCCRB, PORT_EN ||| IO_MODE ||| I2S_CLKMODE_SLAVE ||| I2S_CLK_64FS |||
          I2S_REG_DATA_LEFT)] := by
  obtain ⟨wa, wb, hw, ha, _, _, hb⟩ :=
    (i2s_enable_write_sequence dev_port_b_ok (by decide) (by decide) (by decide)).1
  have hwb := hb (by decide) (by decide) (by decide) (by decide)
  have hwa : wa = [] := by
    have : (i2s_enable dev_port_b_ok).2.i2s_writes.length = 5 := by decide
    have hd : dev_port_b_ok.i2s_writes = [] := by decide
    rw [hw, hwb, hd] at this
    simpa using this
  rw [hw, hwa, hwb]
  decide

/-! ## The pre-fill counter -/

theorem start_data_transfer_counters (d : hdm_i2s) (i j : Nat) :
    ((start_data_transfer d i).2.ch j).mbo_count = (d.ch j).mbo_count ∧
    ((start_data_transfer d i).2.ch j).is_enabled = (d.ch j).is_enabled := by
  cases hp : (d.ch i).pending_list with
  | nil => rw [start_data_transfer_nil d i hp]; exact ⟨rfl, rfl⟩
  | cons m rest =>
    rw [(start_data_transfer_cons d i m rest hp).2.1]
    by_cases hj : j = i
    · subst hj; simp
    · simp [hj]

theorem prefill_once_counters (d : hdm_i2s) (i j : Nat) :
    ((prefill_once d i).ch j).mbo_count = (d.ch j).mbo_count ∧
    ((prefill_once d i).ch j).is_enabled = (d.ch j).is_enabled := by
  have h := start_data_transfer_counters (upd_ch d i (fun c => { c with ready := true })) i j
  simp only [prefill_once]
  rw [h.1, h.2]
  by_cases hj : j = i
  · subst hj; simp
  · simp [hj]

theorem enable_i2s_channel_counters (d : hdm_i2s) (i j : Nat) :
    ((enable_i2s_channel d i).ch j).mbo_count = (d.ch j).mbo_count ∧
    ((enable_i2s_channel d i).ch j).is_enabled = (if j = i then true else (d.ch j).is_enabled) := by
  rw [(enable_i2s_channel_spec d i).1]
  have hx : ∀ k, ((if (d.ch i).direction = MOST_CH_TX then prefill_once (prefill_once d i) i
      else d).ch k).mbo_count = (d.ch k).mbo_count ∧
      ((if (d.ch i).direction = MOST_CH_TX then prefill_once (prefill_once d i) i
      else d).ch k).is_enabled = (d.ch k).is_enabled := by
    intro k
    split_ifs
    · rw [(prefill_once_counters _ i k).1, (prefill_once_counters _ i k).2,
        (prefill_once_counters _ i k).1, (prefill_once_counters _ i k).2]
      exact ⟨rfl, rfl⟩
    · exact ⟨rfl, rfl⟩
  by_cases hj : j = i
  · subst hj; simp [(hx j).1]
  · simp [hj, (hx j).1, (hx j).2]

theorem foldl_counters (l : List Nat) (f : hdm_i2s → Nat → hdm_i2s)
    (hf : ∀ d i j, ((f d i).ch j).mbo_count = (d.ch j).mbo_count ∧
      ((f d i).ch j).is_enabled = (d.ch j).is_enabled) (d : hdm_i2s) (j : Nat) :
    ((l.foldl f d).ch j).mbo_count = (d.ch j).mbo_count ∧
    ((l.foldl f d).ch j).is_enabled = (d.ch j).is_enabled := by
  induction l generalizing d with
  | nil => exact ⟨rfl, rfl⟩
  | cons a l ih =>
    simp only [List.foldl]
    rw [(ih (f d a)).1, (ih (f d a)).2]
    exact hf d a j

theorem i2s_tasklet_fn_counters (d : hdm_i2s) (j : Nat) :
    ((i2s_tasklet_fn d).ch j).mbo_count = (d.ch j).mbo_count ∧
    ((i2s_tasklet_fn d).ch j).is_enabled = (d.ch j).is_enabled := by
  apply foldl_counters
  intro e i k
  split_ifs
  · exact start_data_transfer_counters e i k
  · exact ⟨rfl, rfl⟩

theorem service_ch_irq_counters (d : hdm_i2s) (i j : Nat) :
    ((service_ch_irq d i).ch j).mbo_count = (d.ch j).mbo_count ∧
    ((service_ch_irq d i).ch j).is_enabled = (d.ch j).is_enabled := by
  by_cases hj : j = i
  · subst hj
    simp only [service_ch_irq]
    split_ifs <;> simp
  · simp only [service_ch_irq]
    split_ifs <;> simp [hj]

theorem i2s_isr_counters (d : hdm_i2s) (j : Nat) :
    ((i2s_isr d).ch j).mbo_count = (d.ch j).mbo_count ∧
    ((i2s_isr d).ch j).is_enabled = (d.ch j).is_enabled := by
  have h := foldl_counters (List.range DMA_CHANNELS)
    (fun e ch_idx => if read_reg_i2s d REG_DSCR &&& (1 <<< ch_idx) ≠ 0
      then service_ch_irq e ch_idx else e)
    (fun e i k => by
      show ((if read_reg_i2s d REG_DSCR &&& (1 <<< i) ≠ 0 then service_ch_irq e i else e).ch
          k).mbo_count = (e.ch k).mbo_count ∧
        ((if read_reg_i2s d REG_DSCR &&& (1 <<< i) ≠ 0 then service_ch_irq e i else e).ch
          k).is_enabled = (e.ch k).is_enabled
      split_ifs
      · exact service_ch_irq_counters e i k
      · exact ⟨rfl, rfl⟩) d j
  exact h

theorem count_inv_same {d e : hdm_i2s} (h : CountInv d)
    (hs : ∀ j, ((e.ch j).mbo_count = (d.ch j).mbo_count ∧
      (e.ch j).is_enabled = (d.ch j).is_enabled)) : CountInv e := by
  intro j
  rw [(hs j).1, (hs j).2]
  exact h j

theorem count_inv_configure (d : hdm_i2s) (c : Int) (cfg : most_channel_config)
    (h : CountInv d) : CountInv (configure_channel d c cfg).2 := by
  have h2 : (0 : Nat) < INITAL_WR_BEFORE_EN := by decide
  intro j
  simp only [configure_channel]
  split_ifs
  · exact h j
  · exact h j
  · exact h j
  · exact h j
  · exact h j
  · by_cases hj : j = c.toNat
    · subst hj
      simp only [upd_ch_ch, Function.update_same]
      exact ⟨Nat.zero_le _, fun _ => h2⟩
    · simp only [upd_ch_ch, Function.update_noteq hj, init_i2s_channel_ch]
      exact h j

theorem count_inv_enqueue (d : hdm_i2s) (c : Int) (m : mbo) (h : CountInv d) :
    CountInv (enqueue d c m).2 := by
  have hT : INITAL_WR_BEFORE_EN = 2 := by decide
  rcases enqueue_cases d c m with ⟨_, heq⟩ | ⟨_, g0, g8, hi, hb, hl⟩
  · rw [heq]; exact h
  · rw [enqueue_accept_eq d c m g0 g8 hi hb hl]
    simp only
    intro j
    have hc := h c.toNat
    have hj := h j
    rw [hT] at hc hj ⊢
    by_cases he : (d.ch c.toNat).is_enabled = false
    · have hlt := hc.2 he
      have hmod : ((d.ch c.toNat).mbo_count + 1) % 256 = (d.ch c.toNat).mbo_count + 1 :=
        Nat.mod_eq_of_lt (by omega)
      rw [if_pos he, hmod]
      by_cases hge : (d.ch c.toNat).mbo_count + 1 ≥ 2
      · rw [if_pos hge, (enable_i2s_channel_counters _ _ j).1,
          (enable_i2s_channel_counters _ _ j).2]
        by_cases hjc : j = c.toNat
        · subst hjc
          simp only [upd_ch_ch, Function.update_same, if_true]
          exact ⟨by omega, fun hf => Bool.noConfusion hf⟩
        · simp only [upd_ch_ch, Function.update_noteq hjc, if_neg hjc]
          exact hj
      · rw [if_neg hge]
        by_cases hjc : j = c.toNat
        · subst hjc
          simp only [upd_ch_ch, Function.update_same]
          exact ⟨by omega, fun _ => by omega⟩
        · simp only [upd_ch_ch, Function.update_noteq hjc]
          exact hj
    · rw [if_neg he]
      by_cases hjc : j = c.toNat
      · subst hjc
        simp only [upd_ch_ch, Function.update_same]
        exact hc
      · simp only [upd_ch_ch, Function.update_noteq hjc]
        exact hj

theorem count_inv_poison (d : hdm_i2s) (c : Int) (h : CountInv d) :
    CountInv (poison_channel d c).2 := by
  rcases poison_channel_cases d c with ⟨_, heq⟩ | ⟨_, g0, g8, hi⟩
  · rw [heq]; exact h
  · apply count_inv_same h
    intro j
    rw [(poison_channel_spec d c g0 g8 hi).2.1]
    by_cases hjc : j = c.toNat
    · subst hjc; simp
    · simp [hjc]

theorem count_inv_step (d : hdm_i2s) (st : Step) (h : CountInv d) : CountInv (step d st) := by
  cases st with
  | configure c cfg => exact count_inv_configure d c cfg h
  | enqueue c m => exact count_inv_enqueue d c m h
  | poison c => exact count_inv_poison d c h
  | irq => exact count_inv_same h (i2s_isr_counters d)
  | tasklet => exact count_inv_same h (fun j => i2s_tasklet_fn_counters _ j)
  | hw o v => exact h

theorem count_inv_run (d : hdm_i2s) (steps : List Step) (h : CountInv d) :
    CountInv (run d steps) := by
  induction steps generalizing d with
  | nil => exact h
  | cons st rest ih => exact ih (step d st) (count_inv_step d st h)

theorem count_inv_probe (regs : Nat → Nat) (fifo : Nat → Nat → Nat) (clk : clk_gen) :
    CountInv (i2s_probe regs fifo clk) :=
  fun _ => ⟨Nat.zero_le _, fun _ => (by decide : 0 < INITAL_WR_BEFORE_EN)⟩

/-- C29: in every state reached from attach by configure, enqueue, poison,
interrupt and tasklet steps (and changes of the hardware registers), the
pre-fill counter of every channel is at most `INITAL_WR_BEFORE_EN` = 2, so
the increment of the 8-bit counter never wraps, and the counter of every
channel that is initialised and not enabled is below 2. -/
theorem mbo_count_bounded (regs : Nat → Nat) (fifo : Nat → Nat → Nat) (clk : clk_gen)
    (steps : List Step) (j : Nat) :
    INITAL_WR_BEFORE_EN = 2 ∧
    ((run (i2s_probe regs fifo clk) steps).ch j).mbo_count ≤ 2 ∧
    (((run (i2s_probe regs fifo clk) steps).ch j).mbo_count + 1) % 256 =
      ((run (i2s_probe regs fifo clk) steps).ch j).mbo_count + 1 ∧
    (((run (i2s_probe regs fifo clk) steps).ch j).is_initialized = true →
      ((run (i2s_probe regs fifo clk) steps).ch j).is_enabled = false →
      ((run (i2s_probe regs fifo clk) steps).ch j).mbo_count < 2) := by
  have hT : INITAL_WR_BEFORE_EN = 2 := by decide
  have h := count_inv_run _ steps (count_inv_probe regs fifo clk) j
  rw [hT] at h
  exact ⟨hT, h.1, Nat.mod_eq_of_lt (by omega), fun _ he => h.2 he⟩

/-- C29 on the sample run that configures channel 0 for transmission and
queues three buffers: the counter stopped at 2 when the channel was enabled. -/
theorem mbo_count_bounded_witness :
    ((run (i2s_probe (fun _ => 0) (fun _ n => n) ⟨fun _ => MMCM_LOCKED, 0, []⟩)
      [.configure 0 (cfg_sync MOST_CH_TX), .enqueue 0 (buf 1), .enqueue 0 (buf 2),
       .enqueue 0 (buf 3)]).ch 0).mbo_count ≤ 2 :=
  (mbo_count_bounded (fun _ => 0) (fun _ n => n) ⟨fun _ => MMCM_LOCKED, 0, []⟩
    [.configure 0 (cfg_sync MOST_CH_TX), .enqueue 0 (buf 1), .enqueue 0 (buf 2),
     .enqueue 0 (buf 3)] 0).2.1

/-! ## Masking and re-arming the service request interrupt -/

theorem unmask_then_mask (c u m z : Nat) (hc : c < 2 ^ 32) (hum : u &&& m = 0)
    (hmz : m ||| z = 2 ^ 32 - 1) (hcz : c &&& z = 0) : (c ||| u) &&& m = c := by
  apply Nat.eq_of_testBit_eq
  intro j
  have h1 := congrArg (fun t => t.testBit j) hum
  have h2 := congrArg (fun t => t.testBit j) hmz
  have h3 := congrArg (fun t => t.testBit j) hcz
  simp only [Nat.testBit_and, Nat.testBit_or, Nat.zero_testBit, Nat.testBit_two_pow_sub_one]
    at h1 h2 h3 ⊢
  by_cases hj : j < 32
  · simp only [hj, decide_True] at h2
    revert h1 h2 h3
    cases c.testBit j <;> cases u.testBit j <;> cases m.testBit j <;> cases z.testBit j <;> simp
  · have hcj : c.testBit j = false :=
      Nat.testBit_lt_two_pow (lt_of_lt_of_le hc (Nat.pow_le_pow_right (by decide) (by omega)))
    rw [hcj]
    revert h1
    cases u.testBit j <;> cases m.testBit j <;> simp

theorem and_or_zero (c a b : Nat) (ha : c &&& a = 0) (hb : c &&& b = 0) : c &&& (a ||| b) = 0 := by
  apply Nat.eq_of_testBit_eq
  intro j
  have h1 := congrArg (fun t => t.testBit j) ha
  have h2 := congrArg (fun t => t.testBit j) hb
  simp only [Nat.testBit_and, Nat.testBit_or, Nat.zero_testBit] at h1 h2 ⊢
  revert h1 h2
  cases c.testBit j <;> cases a.testBit j <;> cases b.testBit j <;> simp

theorem tx_unmask_mask (c : Nat) (hc : c < 2 ^ 32) (h8 : c &&& 0x08 = 0)
    (hm : c &&& TX_INT_UNMASK = 0) : (c ||| TX_INT_UNMASK) &&& TX_INT_MASK = c :=
  unmask_then_mask c TX_INT_UNMASK TX_INT_MASK (0x08 ||| TX_INT_UNMASK) hc (by decide) (by decide)
    (and_or_zero c _ _ h8 hm)

theorem rx_unmask_mask (c : Nat) (hc : c < 2 ^ 32) (h8 : c &&& 0x08 = 0)
    (hm : c &&& RX_INT_UNMASK = 0) : (c ||| RX_INT_UNMASK) &&& RX_INT_MASK = c :=
  unmask_then_mask c RX_INT_UNMASK RX_INT_MASK (0x08 ||| RX_INT_UNMASK) hc (by decide) (by decide)
    (and_or_zero c _ _ h8 hm)

/-! ## The interrupt handler, register by register -/

theorem ccr_ne_csr (i : Nat) : REG_CCRn + i * 8 ≠ REG_CSRn + i * 8 := by
  simp [REG_CCRn, REG_CSRn]

theorem dccr_ne (i : Nat) :
    (if is_port_a i = true then REG_DCCRA else REG_DCCRB) ≠ REG_CCRn + i * 8 ∧
    (if is_port_a i = true then REG_DCCRA else REG_DCCRB) ≠ REG_CSRn + i * 8 := by
  split_ifs <;> simp [REG_DCCRA, REG_DCCRB, REG_CCRn, REG_CSRn] <;> omega

theorem irq_overflow_base (cs dccr i : Nat) (e : hdm_i2s) (h1 : dccr ≠ REG_CCRn + i * 8)
    (h2 : dccr ≠ REG_CSRn + i * 8) :
    (irq_overflow cs dccr i e).i2s_base (REG_CCRn + i * 8) =
      (if cs &&& FIFO_OVERFLOW_INT ≠ 0 then 0 else e.i2s_base (REG_CCRn + i * 8)) ∧
    (irq_overflow cs dccr i e).i2s_base dccr =
      (if cs &&& FIFO_OVERFLOW_INT ≠ 0 then 0 else e.i2s_base dccr) := by
  unfold irq_overflow
  split_ifs
  · simp [Function.update_apply, h1, h2, ccr_ne_csr i]
  · exact ⟨rfl, rfl⟩

theorem irq_underflow_base (cs dccr i : Nat) (e : hdm_i2s) (h1 : dccr ≠ REG_CCRn + i * 8)
    (h2 : dccr ≠ REG_CSRn + i * 8) :
    (irq_underflow cs dccr i e).i2s_base (REG_CCRn + i * 8) =
      (if cs &&& FIFO_UNDERFLOW_INT ≠ 0 then 0 else e.i2s_base (REG_CCRn + i * 8)) ∧
    (irq_underflow cs dccr i e).i2s_base dccr =
      (if cs &&& FIFO_UNDERFLOW_INT ≠ 0 then 0 else e.i2s_base dccr) := by
  unfold irq_underflow
  split_ifs
  · simp [Function.update_apply, h1, h2, ccr_ne_csr i]
  · exact ⟨rfl, rfl⟩

theorem irq_rx_request_base (cs i : Nat) (e : hdm_i2s) :
    (irq_rx_request cs i e).i2s_base (REG_CCRn + i * 8) =
      (if cs &&& RX_SERV_REQ_INT ≠ 0 then
        (e.i2s_base (REG_CCRn + i * 8) ||| RX_INT_UNMASK) % 2 ^ 32
       else e.i2s_base (REG_CCRn + i * 8)) ∧
    (∀ o, o ≠ REG_CCRn + i * 8 → (irq_rx_request cs i e).i2s_base o = e.i2s_base o) := by
  unfold irq_rx_request
  split_ifs
  · refine ⟨by simp [read_reg_i2s], fun o ho => by simp [Function.update_apply, ho]⟩
  · exact ⟨rfl, fun _ _ => rfl⟩

theorem irq_tx_request_base (cs i : Nat) (e : hdm_i2s) :
    (irq_tx_request cs i e).i2s_base (REG_CCRn + i * 8) =
      (if cs &&& TX_SERV_REQ_INT ≠ 0 then
        (e.i2s_base (REG_CCRn + i * 8) ||| TX_INT_UNMASK) % 2 ^ 32
       else e.i2s_base (REG_CCRn + i * 8)) ∧
    (∀ o, o ≠ REG_CCRn + i * 8 → (irq_tx_request cs i e).i2s_base o = e.i2s_base o) := by
  unfold irq_tx_request
  split_ifs
  · refine ⟨by simp [read_reg_i2s], fun o ho => by simp [Function.update_apply, ho]⟩
  · exact ⟨rfl, fun _ _ => rfl⟩

theorem service_ch_irq_ccr (e : hdm_i2s) (i : Nat) (hc : e.i2s_base (REG_CCRn + i * 8) < 2 ^ 32) :
    (service_ch_irq e i).i2s_base (REG_CCRn + i * 8) =
      (if e.i2s_base (REG_CSRn + i * 8) &&& FIFO_OVERFLOW_INT ≠ 0 ∨
          e.i2s_base (REG_CSRn + i * 8) &&& FIFO_UNDERFLOW_INT ≠ 0 then 0
        else e.i2s_base (REG_CCRn + i * 8)) |||
      (if e.i2s_base (REG_CSRn + i * 8) &&& RX_SERV_REQ_INT ≠ 0 then RX_INT_UNMASK else 0) |||
      (if e.i2s_base (REG_CSRn + i * 8) &&& TX_SERV_REQ_INT ≠ 0 then TX_INT_UNMASK else 0) := by
  have hrx : ∀ x, x < 2 ^ 32 → (x ||| RX_INT_UNMASK) % 2 ^ 32 = x ||| RX_INT_UNMASK :=
    fun x hx => Nat.mod_eq_of_lt (Nat.or_lt_two_pow hx (by decide))
  have htx : ∀ x, x < 2 ^ 32 → (x ||| TX_INT_UNMASK) % 2 ^ 32 = x ||| TX_INT_UNMASK :=
    fun x hx => Nat.mod_eq_of_lt (Nat.or_lt_two_pow hx (by decide))
  have hrxlt : ∀ x, x < 2 ^ 32 → x ||| RX_INT_UNMASK < 2 ^ 32 :=
    fun x hx => Nat.or_lt_two_pow hx (by decide)
  have h0 : (0 : Nat) < 2 ^ 32 := by decide
  have k1 : RX_INT_UNMASK % 2 ^ 32 = RX_INT_UNMASK := by decide
  have k2 : TX_INT_UNMASK % 2 ^ 32 = TX_INT_UNMASK := by decide
  have k3 : (RX_INT_UNMASK ||| TX_INT_UNMASK) % 2 ^ 32 = RX_INT_UNMASK ||| TX_INT_UNMASK := by
    decide
  rw [service_ch_irq_blocks, (irq_tx_request_base _ _ _).1, (irq_rx_request_base _ _ _).1,
    (irq_underflow_base _ _ _ _ (dccr_ne i).1 (dccr_ne i).2).1,
    (irq_overflow_base _ _ _ _ (dccr_ne i).1 (dccr_ne i).2).1]
  simp only [read_reg_i2s]
  by_cases ho : e.i2s_base (REG_CSRn + i * 8) &&& FIFO_OVERFLOW_INT ≠ 0 <;>
  by_cases hu : e.i2s_base (REG_CSRn + i * 8) &&& FIFO_UNDERFLOW_INT ≠ 0 <;>
  by_cases hr : e.i2s_base (REG_CSRn + i * 8) &&& RX_SERV_REQ_INT ≠ 0 <;>
  by_cases ht : e.i2s_base (REG_CSRn + i * 8) &&& TX_SERV_REQ_INT ≠ 0 <;>
  simp only [ho, hu, hr, ht, if_true, if_false, or_self, or_true, true_or, or_false,
    not_true_eq_false, not_false_eq_true, hrx _ h0, hrx _ hc, htx _ h0, htx _ hc,
    htx _ (hrxlt _ h0), htx _ (hrxlt _ hc), Nat.or_zero, Nat.zero_or, ne_eq, k1, k2, k3]

theorem service_ch_irq_dccr (e : hdm_i2s) (i : Nat) :
    (service_ch_irq e i).i2s_base (if is_port_a i = true then REG_DCCRA else REG_DCCRB) =
      (if e.i2s_base (REG_CSRn + i * 8) &&& FIFO_OVERFLOW_INT ≠ 0 ∨
          e.i2s_base (REG_CSRn + i * 8) &&& FIFO_UNDERFLOW_INT ≠ 0 then 0
        else e.i2s_base (if is_port_a i = true then REG_DCCRA else REG_DCCRB)) := by
  rw [service_ch_irq_blocks, (irq_tx_request_base _ _ _).2 _ (dccr_ne i).1,
    (irq_rx_request_base _ _ _).2 _ (dccr_ne i).1,
    (irq_underflow_base _ _ _ _ (dccr_ne i).1 (dccr_ne i).2).2,
    (irq_overflow_base _ _ _ _ (dccr_ne i).1 (dccr_ne i).2).2]
  simp only [read_reg_i2s]
  by_cases ho : e.i2s_base (REG_CSRn + i * 8) &&& FIFO_OVERFLOW_INT ≠ 0 <;>
  by_cases hu : e.i2s_base (REG_CSRn + i * 8) &&& FIFO_UNDERFLOW_INT ≠ 0 <;>
  simp only [ho, hu, if_true, if_false, or_self, or_true, true_or, or_false,
    not_true_eq_false, not_false_eq_true, ne_eq]

theorem service_ch_irq_fields (d : hdm_i2s) (i j : Nat) :
    ((service_ch_irq d i).ch j).direction = (d.ch j).direction ∧
    ((service_ch_irq d i).ch j).pending_list = (d.ch j).pending_list ∧
    ((service_ch_irq d i).ch j).bytes_per_frame = (d.ch j).bytes_per_frame ∧
    ((service_ch_irq d i).ch j).fifo_overflow = (d.ch j).fifo_overflow := by
  by_cases hj : j = i
  · subst hj
    simp only [service_ch_irq]
    split_ifs <;> simp
  · simp only [service_ch_irq]
    split_ifs <;> simp [hj]

theorem service_ch_irq_ready (e : hdm_i2s) (i : Nat)
    (h : e.i2s_base (REG_CSRn + i * 8) &&& RX_SERV_REQ_INT ≠ 0 ∨
      e.i2s_base (REG_CSRn + i * 8) &&& TX_SERV_REQ_INT ≠ 0) :
    ((service_ch_irq e i).ch i).ready = true := by
  rw [service_ch_irq_blocks]
  simp only [read_reg_i2s]
  rcases h with h | h
  · refine (irq_tx_request_touches _ i _).2.2.2.2.2 i ?_
    simp [irq_rx_request, h]
  · simp [irq_tx_request, h]

theorem init_i2s_channel_ccr (d : hdm_i2s) (i : Nat) (b : Bool) :
    (init_i2s_channel d i b).i2s_base (REG_CCRn + 8 * i) < 2 ^ 32 ∧
    (init_i2s_channel d i b).i2s_base (REG_CCRn + 8 * i) &&& 0x08 = 0 ∧
    (init_i2s_channel d i b).i2s_base (REG_CCRn + 8 * i) &&&
      (if b = true then TX_INT_UNMASK else RX_INT_UNMASK) = 0 := by
  have h1 : REG_CCRn + i * 8 ≠ REG_BETRn + i * 8 := by simp [REG_CCRn, REG_BETRn]
  have h2 : REG_CCRn + i * 8 ≠ REG_BFTRn + i * 8 := by simp [REG_CCRn, REG_BFTRn]
  rw [Nat.mul_comm 8 i]
  cases b <;>
  · simp only [init_i2s_channel, write_reg_i2s_base, Function.update_noteq h1,
      Function.update_noteq h2, Function.update_same, if_true, if_false, Bool.false_eq_true]
    exact ⟨Nat.mod_lt _ (by decide), mask_clears _ _ _ (by decide),
      mask_clears _ _ _ (by decide)⟩

theorem configure_channel_ccr (d : hdm_i2s) (c : Int) (cfg : most_channel_config)
    (h : (configure_channel d c cfg).1 = 0) :
    (configure_channel d c cfg).2.i2s_base (REG_CCRn + 8 * c.toNat) < 2 ^ 32 ∧
    (configure_channel d c cfg).2.i2s_base (REG_CCRn + 8 * c.toNat) &&& 0x08 = 0 ∧
    (configure_channel d c cfg).2.i2s_base (REG_CCRn + 8 * c.toNat) &&&
      (if cfg.direction = MOST_CH_TX then TX_INT_UNMASK else RX_INT_UNMASK) = 0 := by
  have e1 : (-ECHRNG : Int) ≠ 0 := by decide
  have e2 : (-EPERM : Int) ≠ 0 := by decide
  have e3 : (-EINVAL : Int) ≠ 0 := by decide
  have e4 : (-ENODEV : Int) ≠ 0 := by decide
  have hb : (configure_channel d c cfg).2.i2s_base =
      (init_i2s_channel
        (upd_ch { d with clk_gen_base := (check_if_clk_gen_locked d.clk_gen_base d.clk_source).2 }
          c.toNat (fun x => { x with bytes_per_frame := cfg.subbuffer_size % 256
                                     direction := cfg.direction }))
        c.toNat (decide (cfg.direction = MOST_CH_TX))).i2s_base := by
    simp only [configure_channel] at h ⊢
    split_ifs at h ⊢
    all_goals first
      | exact absurd h e1
      | exact absurd h e2
      | exact absurd h e3
      | exact absurd h e4
      | rfl
  have := init_i2s_channel_ccr
    (upd_ch { d with clk_gen_base := (check_if_clk_gen_locked d.clk_gen_base d.clk_source).2 }
      c.toNat (fun x => { x with bytes_per_frame := cfg.subbuffer_size % 256
                                 direction := cfg.direction }))
    c.toNat (decide (cfg.direction = MOST_CH_TX))
  rw [hb]
  simpa using this

theorem irq_then_tasklet (d : hdm_i2s) (i : Nat) (m : mbo) (rest : List mbo) (hi : i < 8)
    (hbit : d.i2s_base REG_DSCR &&& (1 <<< i) ≠ 0)
    (hp : (d.ch i).pending_list = m :: rest)
    (hc : d.i2s_base (REG_CCRn + i * 8) < 2 ^ 32)
    (hreq : d.i2s_base (REG_CSRn + i * 8) &&& RX_SERV_REQ_INT ≠ 0 ∨
      d.i2s_base (REG_CSRn + i * 8) &&& TX_SERV_REQ_INT ≠ 0) :
    (i2s_isr d).i2s_base (REG_CCRn + i * 8) =
      ((if d.i2s_base (REG_CSRn + i * 8) &&& FIFO_OVERFLOW_INT ≠ 0 ∨
          d.i2s_base (REG_CSRn + i * 8) &&& FIFO_UNDERFLOW_INT ≠ 0 then 0
        else d.i2s_base (REG_CCRn + i * 8)) |||
      (if d.i2s_base (REG_CSRn + i * 8) &&& RX_SERV_REQ_INT ≠ 0 then RX_INT_UNMASK else 0) |||
      (if d.i2s_base (REG_CSRn + i * 8) &&& TX_SERV_REQ_INT ≠ 0 then TX_INT_UNMASK else 0)) ∧
    (run d [.irq, .tasklet]).i2s_base (REG_CCRn + i * 8) =
      ((i2s_isr d).i2s_base (REG_CCRn + i * 8) &&&
        (if (d.ch i).direction = MOST_CH_TX then TX_INT_MASK else RX_INT_MASK)) % 2 ^ 32 := by
  obtain ⟨dp, ⟨a1, b1, _, _, _⟩, hf⟩ := i2s_isr_split d i hi
  have hb : read_reg_i2s d REG_DSCR &&& (1 <<< i) ≠ 0 := hbit
  rw [if_pos hb] at hf
  obtain ⟨a2, b2, _, _, _⟩ := hf
  have hccr : in_window i (REG_CCRn + i * 8) = true :=
    in_window_self i _ (by simp [REG_CCRn, REG_CSRn])
  have hcsr : in_window i (REG_CSRn + i * 8) = true :=
    in_window_self i _ (by simp [REG_CCRn, REG_CSRn])
  have hc2 : dp.i2s_base (REG_CCRn + i * 8) < 2 ^ 32 := by rw [b1 _ hccr]; exact hc
  have hisr : (i2s_isr d).i2s_base (REG_CCRn + i * 8) = _ :=
    (b2 _ hccr).trans (service_ch_irq_ccr dp i hc2)
  rw [b1 _ hccr, b1 _ hcsr] at hisr
  refine ⟨hisr, ?_⟩
  have hrun : run d [.irq, .tasklet] =
      i2s_tasklet_fn { i2s_isr d with tasklet_scheduled := false } := rfl
  have hready : ((i2s_isr d).ch i).ready = true := by
    rw [a2]
    exact service_ch_irq_ready dp i (by rw [b1 _ hcsr]; exact hreq)
  have hpend : ((i2s_isr d).ch i).pending_list = m :: rest := by
    rw [a2, (service_ch_irq_fields dp i i).2.1, a1]; exact hp
  have hdir : ((i2s_isr d).ch i).direction = (d.ch i).direction := by
    rw [a2, (service_ch_irq_fields dp i i).1, a1]
  have ht := (i2s_tasklet_fn_ready_head { i2s_isr d with tasklet_scheduled := false } i m rest hi
    hready hpend).2.2.2.1
  rw [hrun, ht]
  simp only [hdir]

/-- C30: for every 32-bit control register value c in which bit 0x08 is
clear, `(c | 0x20) & 0xFFFFFFD7 = c` when the Tx mask bit 0x20 is clear in c
and `(c | 0x10) & 0xFFFFFFE7 = c` when the Rx mask bit 0x10 is clear in c.
So for an in-range channel with a buffer pending whose control register
holds such a value, an interrupt that reports the service request of the
channel's direction and nothing else for the channel leaves the control
register with the direction's mask bit or-ed in, and the run of the tasklet
that follows leaves it equal to its value before the interrupt. The value
`configure_channel` leaves in the control register is of this form. -/
theorem rearm_undoes_mask (d : hdm_i2s) (i : Nat) (m : mbo) (rest : List mbo) (hi : i < 8)
    (hbit : d.i2s_base REG_DSCR &&& (1 <<< i) ≠ 0)
    (hp : (d.ch i).pending_list = m :: rest)
    (hc : d.i2s_base (REG_CCRn + 8 * i) < 2 ^ 32)
    (h8 : d.i2s_base (REG_CCRn + 8 * i) &&& 0x08 = 0)
    (hov : d.i2s_base (REG_CSRn + 8 * i) &&& FIFO_OVERFLOW_INT = 0)
    (hun : d.i2s_base (REG_CSRn + 8 * i) &&& FIFO_UNDERFLOW_INT = 0) :
    (∀ c, c < 2 ^ 32 → c &&& 0x08 = 0 →
      (c &&& 0x20 = 0 → (c ||| 0x20) &&& 0xFFFFFFD7 = c) ∧
      (c &&& 0x10 = 0 → (c ||| 0x10) &&& 0xFFFFFFE7 = c)) ∧
    ((d.ch i).direction = MOST_CH_TX →
      d.i2s_base (REG_CSRn + 8 * i) &&& TX_SERV_REQ_INT ≠ 0 →
      d.i2s_base (REG_CSRn + 8 * i) &&& RX_SERV_REQ_INT = 0 →
      d.i2s_base (REG_CCRn + 8 * i) &&& TX_INT_UNMASK = 0 →
      (i2s_isr d).i2s_base (REG_CCRn + 8 * i) =
        d.i2s_base (REG_CCRn + 8 * i) ||| TX_INT_UNMASK ∧
      (run d [.irq, .tasklet]).i2s_base (REG_CCRn + 8 * i) = d.i2s_base (REG_CCRn + 8 * i)) ∧
    ((d.ch i).direction = MOST_CH_RX →
      d.i2s_base (REG_CSRn + 8 * i) &&& RX_SERV_REQ_INT ≠ 0 →
      d.i2s_base (REG_CSRn + 8 * i) &&& TX_SERV_REQ_INT = 0 →
      d.i2s_base (REG_CCRn + 8 * i) &&& RX_INT_UNMASK = 0 →
      (i2s_isr d).i2s_base (REG_CCRn + 8 * i) =
        d.i2s_base (REG_CCRn + 8 * i) ||| RX_INT_UNMASK ∧
      (run d [.irq, .tasklet]).i2s_base (REG_CCRn + 8 * i) = d.i2s_base (REG_CCRn + 8 * i)) ∧
    (∀ (dev : hdm_i2s) (c : Int) (cfg : most_channel_config),
      (configure_channel dev c cfg).1 = 0 →
      (configure_channel dev c cfg).2.i2s_base (REG_CCRn + 8 * c.toNat) < 2 ^ 32 ∧
      (configure_channel dev c cfg).2.i2s_base (REG_CCRn + 8 * c.toNat) &&& 0x08 = 0 ∧
      (configure_channel dev c cfg).2.i2s_base (REG_CCRn + 8 * c.toNat) &&&
        (if cfg.direction = MOST_CH_TX then TX_INT_UNMASK else RX_INT_UNMASK) = 0) := by
  have hne : ¬ MOST_CH_RX = MOST_CH_TX := by decide
  refine ⟨fun c hc h8 => ⟨fun h => tx_unmask_mask c hc h8 h, fun h => rx_unmask_mask c hc h8 h⟩,
    ?_, ?_, configure_channel_ccr⟩ <;> rw [Nat.mul_comm 8 i] at hc h8 hov hun ⊢
  rotate_left
  · intro hdir hrx htx hm
    obtain ⟨h1, h2⟩ := irq_then_tasklet d i m rest hi hbit hp hc (Or.inl hrx)
    have hisr : (i2s_isr d).i2s_base (REG_CCRn + i * 8) =
        d.i2s_base (REG_CCRn + i * 8) ||| RX_INT_UNMASK := by
      rw [h1]
      simp [hov, hun, hrx, htx]
    refine ⟨hisr, ?_⟩
    rw [h2, hisr, hdir, if_neg hne, rx_unmask_mask _ hc h8 hm]
    exact Nat.mod_eq_of_lt hc
  intro hdir htx hrx hm
  obtain ⟨h1, h2⟩ := irq_then_tasklet d i m rest hi hbit hp hc (Or.inr htx)
  have hisr : (i2s_isr d).i2s_base (REG_CCRn + i * 8) =
      d.i2s_base (REG_CCRn + i * 8) ||| TX_INT_UNMASK := by
    rw [h1]
    simp [hov, hun, hrx, htx]
  refine ⟨hisr, ?_⟩
  rw [h2, hisr, hdir, if_pos rfl, tx_unmask_mask _ hc h8 hm]
  exact Nat.mod_eq_of_lt hc

/-- C30 on the enabled transmit channel 0 of the sample device, holding one
buffer, with a Tx service request raised. -/
theorem rearm_undoes_mask_witness :
    (run dev_request0 [.irq, .tasklet]).i2s_base (REG_CCRn + 8 * 0) =
      dev_request0.i2s_base (REG_CCRn + 8 * 0) :=
  ((rearm_undoes_mask dev_request0 0 (buf 3) [] (by decide) (by decide) (by decide) (by decide)
    (by decide) (by decide) (by decide)).2.1 (by decide) (by decide) (by decide) (by decide)).2

/-! ## Service requests in the interrupt handler -/

theorem writes_append_trans (P : Nat × Nat → Prop) {d e f : hdm_i2s}
    (h1 : ∃ ws, e.i2s_writes = d.i2s_writes ++ ws ∧ ∀ w ∈ ws, P w)
    (h2 : ∃ ws, f.i2s_writes = e.i2s_writes ++ ws ∧ ∀ w ∈ ws, P w) :
    ∃ ws, f.i2s_writes = d.i2s_writes ++ ws ∧ ∀ w ∈ ws, P w := by
  obtain ⟨w1, a1, b1⟩ := h1
  obtain ⟨w2, a2, b2⟩ := h2
  refine ⟨w1 ++ w2, by rw [a2, a1, List.append_assoc], fun w hw => ?_⟩
  rcases List.mem_append.1 hw with h | h
  · exact b1 w h
  · exact b2 w h

theorem irq_fault_writes (cs dccr i : Nat) (e : hdm_i2s) (h2 : dccr ≠ REG_CSRn + i * 8) :
    (∃ ws, (irq_overflow cs dccr i e).i2s_writes = e.i2s_writes ++ ws ∧
      ∀ w ∈ ws, w.1 = REG_CSRn + i * 8 → w.2 = FIFO_OVERFLOW_INT ∨ w.2 = FIFO_UNDERFLOW_INT) ∧
    (∃ ws, (irq_underflow cs dccr i e).i2s_writes = e.i2s_writes ++ ws ∧
      ∀ w ∈ ws, w.1 = REG_CSRn + i * 8 → w.2 = FIFO_OVERFLOW_INT ∨ w.2 = FIFO_UNDERFLOW_INT) := by
  have hv1 : FIFO_OVERFLOW_INT % 2 ^ 32 = FIFO_OVERFLOW_INT := by decide
  have hv2 : FIFO_UNDERFLOW_INT % 2 ^ 32 = FIFO_UNDERFLOW_INT := by decide
  constructor
  · unfold irq_overflow
    split_ifs
    · refine ⟨[(dccr, 0), (REG_CCRn + i * 8, 0), (REG_CSRn + i * 8, FIFO_OVERFLOW_INT)], ?_, ?_⟩
      · simp only [upd_ch_writes, write_reg_i2s_writes, List.append_assoc, List.cons_append,
          List.nil_append, hv1, Nat.zero_mod]
      · intro w hw hcs
        simp only [List.mem_cons, List.mem_singleton, List.not_mem_nil, or_false] at hw
        rcases hw with h | h | h
        · rw [h] at hcs; exact absurd hcs h2
        · rw [h] at hcs; exact absurd hcs (ccr_ne_csr i)
        · rw [h]; exact Or.inl rfl
    · exact ⟨[], by simp, by simp⟩
  · unfold irq_underflow
    split_ifs
    · refine ⟨[(dccr, 0), (REG_CCRn + i * 8, 0), (REG_CSRn + i * 8, FIFO_UNDERFLOW_INT)], ?_, ?_⟩
      · simp only [upd_ch_writes, write_reg_i2s_writes, List.append_assoc, List.cons_append,
          List.nil_append, hv2, Nat.zero_mod]
      · intro w hw hcs
        simp only [List.mem_cons, List.mem_singleton, List.not_mem_nil, or_false] at hw
        rcases hw with h | h | h
        · rw [h] at hcs; exact absurd hcs h2
        · rw [h] at hcs; exact absurd hcs (ccr_ne_csr i)
        · rw [h]; exact Or.inr rfl
    · exact ⟨[], by simp, by simp⟩

theorem irq_request_writes (cs i : Nat) (e : hdm_i2s) :
    (∃ ws, (irq_rx_request cs i e).i2s_writes = e.i2s_writes ++ ws ∧
      ∀ w ∈ ws, w.1 = REG_CSRn + i * 8 → w.2 = FIFO_OVERFLOW_INT ∨ w.2 = FIFO_UNDERFLOW_INT) ∧
    (∃ ws, (irq_tx_request cs i e).i2s_writes = e.i2s_writes ++ ws ∧
      ∀ w ∈ ws, w.1 = REG_CSRn + i * 8 → w.2 = FIFO_OVERFLOW_INT ∨ w.2 = FIFO_UNDERFLOW_INT) := by
  constructor
  · unfold irq_rx_request
    split_ifs
    · refine ⟨[(REG_CCRn + i * 8, _)], rfl, ?_⟩
      intro w hw hcs
      simp only [List.mem_singleton] at hw
      rw [hw] at hcs; exact absurd hcs (ccr_ne_csr i)
    · exact ⟨[], by simp, by simp⟩
  · unfold irq_tx_request
    split_ifs
    · refine ⟨[(REG_CCRn + i * 8, _)], rfl, ?_⟩
      intro w hw hcs
      simp only [List.mem_singleton] at hw
      rw [hw] at hcs; exact absurd hcs (ccr_ne_csr i)
    · exact ⟨[], by simp, by simp⟩

theorem service_ch_irq_csr_writes (e : hdm_i2s) (i : Nat) :
    ∃ ws, (service_ch_irq e i).i2s_writes = e.i2s_writes ++ ws ∧
      ∀ w ∈ ws, w.1 = REG_CSRn + i * 8 → w.2 = FIFO_OVERFLOW_INT ∨ w.2 = FIFO_UNDERFLOW_INT := by
  rw [service_ch_irq_blocks]
  exact writes_append_trans _ (writes_append_trans _ (writes_append_trans _
    (irq_fault_writes _ _ i e (dccr_ne i).2).1
    (irq_fault_writes _ _ i _ (dccr_ne i).2).2)
    (irq_request_writes _ i _).1) (irq_request_writes _ i _).2

/-- C27 as stated fails: with the overflow bit raised next to the Rx service
request in the status register of the receive channel 0, the handler does set
the Rx mask bit, but the control register, 0x10E7 before, holds 0x10 alone
afterwards: the overflow branch has zeroed it first, so the other bits are
not left unchanged. -/
theorem isr_request_with_fault_clears_control :
    dev_rx_fault0.i2s_base REG_DSCR &&& (1 <<< 0) ≠ 0 ∧
    dev_rx_fault0.i2s_base (REG_CSRn + 8 * 0) &&& RX_SERV_REQ_INT ≠ 0 ∧
    dev_rx_fault0.i2s_base (REG_CCRn + 8 * 0) = 0x10E7 ∧
    (i2s_isr dev_rx_fault0).i2s_base (REG_CCRn + 8 * 0) = 0x10 ∧
    (i2s_isr dev_rx_fault0).i2s_base (REG_CCRn + 8 * 0) ≠
      dev_rx_fault0.i2s_base (REG_CCRn + 8 * 0) ||| RX_INT_UNMASK := by
  decide

/-- C27 amended: when the interrupt handler services an in-range channel
whose status register has the Rx or the Tx service request bit set, the
channel's ready flag is set on return, every write the handler makes to the
channel's status register carries a fault bit and no service request bit, and
the control register ends as the or of the Rx mask bit 0x10 when the Rx
request is set, the Tx mask bit 0x20 when the Tx request is set, and a base
value: the old content when neither the overflow nor the underflow bit is set
in the status word (then every other bit is unchanged), and 0 when one is
(the fault branch has zeroed the register first). -/
theorem isr_service_request (d : hdm_i2s) (i : Nat) (hi : i < 8)
    (hbit : d.i2s_base REG_DSCR &&& (1 <<< i) ≠ 0)
    (hc : d.i2s_base (REG_CCRn + 8 * i) < 2 ^ 32)
    (hreq : d.i2s_base (REG_CSRn + 8 * i) &&& RX_SERV_REQ_INT ≠ 0 ∨
      d.i2s_base (REG_CSRn + 8 * i) &&& TX_SERV_REQ_INT ≠ 0) :
    (i2s_isr d).i2s_base (REG_CCRn + 8 * i) =
      ((if d.i2s_base (REG_CSRn + 8 * i) &&& FIFO_OVERFLOW_INT ≠ 0 ∨
          d.i2s_base (REG_CSRn + 8 * i) &&& FIFO_UNDERFLOW_INT ≠ 0 then 0
        else d.i2s_base (REG_CCRn + 8 * i)) |||
      (if d.i2s_base (REG_CSRn + 8 * i) &&& RX_SERV_REQ_INT ≠ 0 then 0x10 else 0) |||
      (if d.i2s_base (REG_CSRn + 8 * i) &&& TX_SERV_REQ_INT ≠ 0 then 0x20 else 0)) ∧
    ((i2s_isr d).ch i).ready = true ∧
    (∃ ws, (i2s_isr d).i2s_writes = d.i2s_writes ++ ws ∧
      ∀ w ∈ ws, w.1 = REG_CSRn + 8 * i →
        (w.2 = FIFO_OVERFLOW_INT ∨ w.2 = FIFO_UNDERFLOW_INT) ∧
        w.2 &&& (RX_SERV_REQ_INT ||| TX_SERV_REQ_INT) = 0) := by
  rw [Nat.mul_comm 8 i] at hc hreq ⊢
  obtain ⟨dp, ⟨a1, b1, hw1, _, _⟩, hf⟩ := i2s_isr_split d i hi
  have hb : read_reg_i2s d REG_DSCR &&& (1 <<< i) ≠ 0 := hbit
  rw [if_pos hb] at hf
  obtain ⟨a2, b2, hw2, _, _⟩ := hf
  have hccr : in_window i (REG_CCRn + i * 8) = true :=
    in_window_self i _ (by simp [REG_CCRn, REG_CSRn])
  have hcsr : in_window i (REG_CSRn + i * 8) = true :=
    in_window_self i _ (by simp [REG_CCRn, REG_CSRn])
  have hc2 : dp.i2s_base (REG_CCRn + i * 8) < 2 ^ 32 := by rw [b1 _ hccr]; exact hc
  have hisr : (i2s_isr d).i2s_base (REG_CCRn + i * 8) = _ :=
    (b2 _ hccr).trans (service_ch_irq_ccr dp i hc2)
  rw [b1 _ hccr, b1 _ hcsr] at hisr
  refine ⟨hisr, ?_, ?_⟩
  · rw [a2]
    exact service_ch_irq_ready dp i (by rw [b1 _ hcsr]; exact hreq)
  · have hout : ∀ {x y : hdm_i2s},
        (∃ ws, y.i2s_writes = x.i2s_writes ++ ws ∧ ∀ w ∈ ws, in_window i w.1 = false) →
        ∃ ws, y.i2s_writes = x.i2s_writes ++ ws ∧ ∀ w ∈ ws, w.1 = REG_CSRn + i * 8 →
          w.2 = FIFO_OVERFLOW_INT ∨ w.2 = FIFO_UNDERFLOW_INT := by
      rintro x y ⟨ws, h1, h2⟩
      refine ⟨ws, h1, fun w hw hcs => ?_⟩
      have := h2 w hw
      rw [hcs, hcsr] at this
      exact Bool.noConfusion this
    obtain ⟨ws, h1, h2⟩ := writes_append_trans _ (writes_append_trans _ (hout hw1)
      (service_ch_irq_csr_writes dp i)) (hout hw2)
    refine ⟨ws, h1, fun w hw hcs => ⟨h2 w hw hcs, ?_⟩⟩
    rcases h2 w hw hcs with h | h <;> rw [h] <;> decide

/-- C27 amended, on the enabled transmit channel 0 of the sample device with
a Tx service request raised: the channel is ready after the handler. -/
theorem isr_service_request_witness :
    ((i2s_isr dev_request0).ch 0).ready = true :=
  (isr_service_request dev_request0 0 (by decide) (by decide) (by decide)
    (Or.inr (by decide))).2.1

/-! ## Faults and the other channels -/

/-- C24 as stated fails: channels 0 and 1 of port A are both enabled, so bits
0 and 1 are set in `REG_DCCRA`; servicing the overflow of channel 0 writes 0
to `REG_DCCRA`, and the enable bit of channel 1 is clear afterwards. -/
theorem fault_clears_enable_bit_of_neighbour :
    ((dev_two_enabled.ch 1).is_enabled = true ∧
      dev_two_enabled.i2s_base (REG_CSRn + 8 * 0) &&& FIFO_OVERFLOW_INT ≠ 0) ∧
    dev_two_enabled.i2s_base REG_DCCRA &&& (1 <<< 1) = 1 <<< 1 ∧
    (service_ch_irq dev_two_enabled 0).i2s_base REG_DCCRA &&& (1 <<< 1) = 0 ∧
    (i2s_isr dev_two_enabled).i2s_base REG_DCCRA &&& (1 <<< 1) = 0 := by
  decide

theorem irq_fault_base_other (cs dccr i o : Nat) (e : hdm_i2s) (h1 : o ≠ dccr)
    (h2 : o ≠ REG_CCRn + i * 8) (h3 : o ≠ REG_CSRn + i * 8) :
    (irq_overflow cs dccr i e).i2s_base o = e.i2s_base o ∧
    (irq_underflow cs dccr i e).i2s_base o = e.i2s_base o := by
  constructor
  · unfold irq_overflow
    split_ifs
    · simp [Function.update_apply, h1, h2, h3]
    · rfl
  · unfold irq_underflow
    split_ifs
    · simp [Function.update_apply, h1, h2, h3]
    · rfl

theorem service_ch_irq_base_other (e : hdm_i2s) (i o : Nat)
    (h1 : o ≠ (if is_port_a i = true then REG_DCCRA else REG_DCCRB))
    (h2 : o ≠ REG_CCRn + i * 8) (h3 : o ≠ REG_CSRn + i * 8) :
    (service_ch_irq e i).i2s_base o = e.i2s_base o := by
  rw [service_ch_irq_blocks, (irq_tx_request_base _ _ _).2 _ h2,
    (irq_rx_request_base _ _ _).2 _ h2, (irq_fault_base_other _ _ _ _ _ h1 h2 h3).2,
    (irq_fault_base_other _ _ _ _ _ h1 h2 h3).1]

/-- C24 amended: servicing an overflow or underflow interrupt for channel i
leaves every other channel j as it was in its data (state, ready and fault
flags, pending queue) and in its own registers (control and status register
among them), none of which is written, and leaves the configuration register
of the other port as it was; but it writes 0 to the configuration register
of the port of channel i, so afterwards that register reads 0: the enable
bit of every channel of that port, channel j included when it shares the
port, is clear. -/
theorem fault_irq_frame (d : hdm_i2s) (i j : Nat) (hij : j ≠ i)
    (hfault : d.i2s_base (REG_CSRn + 8 * i) &&& FIFO_OVERFLOW_INT ≠ 0 ∨
      d.i2s_base (REG_CSRn + 8 * i) &&& FIFO_UNDERFLOW_INT ≠ 0) :
    (service_ch_irq d i).ch j = d.ch j ∧
    (∀ o, in_window j o = true → (service_ch_irq d i).i2s_base o = d.i2s_base o) ∧
    (∃ ws, (service_ch_irq d i).i2s_writes = d.i2s_writes ++ ws ∧
      ∀ w ∈ ws, in_window j w.1 = false) ∧
    (service_ch_irq d i).i2s_base (if i < 4 then REG_DCCRA else REG_DCCRB) = 0 ∧
    (service_ch_irq d i).i2s_base (if i < 4 then REG_DCCRB else REG_DCCRA) =
      d.i2s_base (if i < 4 then REG_DCCRB else REG_DCCRA) ∧
    ((j < 4 ↔ i < 4) →
      (service_ch_irq d i).i2s_base (if j < 4 then REG_DCCRA else REG_DCCRB) &&&
        (1 <<< (if j < 4 then j else j - 4)) = 0) ∧
    (¬ (j < 4 ↔ i < 4) →
      (service_ch_irq d i).i2s_base (if j < 4 then REG_DCCRA else REG_DCCRB) =
        d.i2s_base (if j < 4 then REG_DCCRA else REG_DCCRB)) := by
  rw [Nat.mul_comm 8 i] at hfault
  obtain ⟨a, b, c, _, _⟩ := foreign_of_touches j i d _ (Ne.symm hij) (service_ch_irq_touches d i)
  have hport : (if is_port_a i = true then REG_DCCRA else REG_DCCRB)
      = (if i < 4 then REG_DCCRA else REG_DCCRB) := by
    simp [is_port_a, DMA_CHANNELS_PER_PORT]
  have hzero : (service_ch_irq d i).i2s_base (if i < 4 then REG_DCCRA else REG_DCCRB) = 0 := by
    rw [← hport, service_ch_irq_dccr, if_pos hfault]
  have hother : (service_ch_irq d i).i2s_base (if i < 4 then REG_DCCRB else REG_DCCRA) =
      d.i2s_base (if i < 4 then REG_DCCRB else REG_DCCRA) := by
    apply service_ch_irq_base_other
    · rw [hport]; split_ifs <;> decide
    · split_ifs <;> simp only [REG_DCCRA, REG_DCCRB, REG_CCRn] <;> omega
    · split_ifs <;> simp only [REG_DCCRA, REG_DCCRB, REG_CSRn] <;> omega
  refine ⟨a, b, c, hzero, hother, fun hs => ?_, fun hs => ?_⟩
  · have : (if j < 4 then REG_DCCRA else REG_DCCRB) = (if i < 4 then REG_DCCRA else REG_DCCRB) := by
      by_cases h : i < 4
      · rw [if_pos h, if_pos (hs.2 h)]
      · rw [if_neg h, if_neg (fun hj => h (hs.1 hj))]
    rw [this, hzero, Nat.zero_and]
  · have : (if j < 4 then REG_DCCRA else REG_DCCRB) = (if i < 4 then REG_DCCRB else REG_DCCRA) := by
      by_cases h : i < 4
      · have hj : ¬ j < 4 := fun hj => hs ⟨fun _ => h, fun _ => hj⟩
        rw [if_pos h, if_neg hj]
      · have hj : j < 4 := by
          by_contra hj
          exact hs ⟨fun x => absurd x hj, fun x => absurd x h⟩
        rw [if_neg h, if_pos hj]
    rw [this, hother]

/-- C24 amended, on the sample device with the transmit channels 0 and 1
enabled and the overflow bit raised for channel 0: channel 1 keeps its data,
and its enable bit in `REG_DCCRA` is clear afterwards. -/
theorem fault_irq_frame_witness :
    (service_ch_irq dev_two_enabled 0).ch 1 = dev_two_enabled.ch 1 ∧
    (service_ch_irq dev_two_enabled 0).i2s_base (if 1 < 4 then REG_DCCRA else REG_DCCRB) &&&
      (1 <<< (if 1 < 4 then 1 else 1 - 4)) = 0 :=
  ⟨(fault_irq_frame dev_two_enabled 0 1 (by decide) (Or.inl (by decide))).1,
   (fault_irq_frame dev_two_enabled 0 1 (by decide) (Or.inl (by decide))).2.2.2.2.2.1 (by decide)⟩

/-! ## The lock discipline -/

theorem disciplined_append (a b : List LockEvent) (h : Bool)
    (ha : disciplined h a = true) (hb : disciplined false b = true) :
    disciplined h (a ++ b) = true := by
  induction a generalizing h with
  | nil =>
    cases h
    · simpa using hb
    · simp [disciplined] at ha
  | cons e a ih =>
    cases e <;> cases h <;> simp [disciplined] at ha ⊢ <;> exact ih _ ha

theorem start_data_transfer_events_ok (d : hdm_i2s) (i : Nat) :
    disciplined false (start_data_transfer_events d i) = true := by
  unfold start_data_transfer_events
  split <;> rfl

theorem foldl_events_ok (l : List Nat)
    (f : hdm_i2s × List LockEvent → Nat → hdm_i2s × List LockEvent)
    (hf : ∀ p i, ∃ seg, (f p i).2 = p.2 ++ seg ∧ disciplined false seg = true)
    (p : hdm_i2s × List LockEvent) (hp : disciplined false p.2 = true) :
    disciplined false (l.foldl f p).2 = true := by
  induction l generalizing p with
  | nil => exact hp
  | cons a l ih =>
    simp only [List.foldl]
    apply ih
    obtain ⟨seg, h1, h2⟩ := hf p a
    rw [h1]
    exact disciplined_append _ _ _ hp h2

theorem enable_i2s_channel_events_ok (d : hdm_i2s) (i : Nat) :
    disciplined false (enable_i2s_channel_events d i) = true := by
  unfold enable_i2s_channel_events
  split_ifs
  · apply foldl_events_ok
    · intro p _
      refine ⟨[.acquire, .ready i, .release] ++
        start_data_transfer_events (upd_ch p.1 i (fun c => { c with ready := true })) i,
        by simp, ?_⟩
      exact disciplined_append _ _ _ rfl (start_data_transfer_events_ok _ i)
    · rfl
  · rfl

theorem i2s_tasklet_fn_events_ok (d : hdm_i2s) :
    disciplined false (i2s_tasklet_fn_events d) = true := by
  unfold i2s_tasklet_fn_events
  apply foldl_events_ok
  · intro p i
    by_cases h : (p.1.ch i).ready = true
    · exact ⟨start_data_transfer_events p.1 i, by simp [h], start_data_transfer_events_ok _ i⟩
    · exact ⟨[], by simp [h], rfl⟩
  · rfl

theorem service_ch_irq_events_ok (d : hdm_i2s) (i : Nat) :
    disciplined false (service_ch_irq_events d i) = true := by
  unfold service_ch_irq_events
  refine disciplined_append _ _ _ (disciplined_append _ _ _ (disciplined_append _ _ _ ?_ ?_) ?_) ?_
  all_goals split_ifs <;> rfl

theorem i2s_isr_events_ok (d : hdm_i2s) : disciplined false (i2s_isr_events d) = true := by
  unfold i2s_isr_events
  apply foldl_events_ok
  · intro p i
    by_cases h : read_reg_i2s d REG_DSCR &&& (1 <<< i) ≠ 0
    · exact ⟨service_ch_irq_events p.1 i, by simp [h], service_ch_irq_events_ok _ i⟩
    · exact ⟨[], by simp [h], rfl⟩
  · rfl

theorem enqueue_events_ok (d : hdm_i2s) (c : Int) (m : mbo) :
    disciplined false (enqueue_events d c m) = true := by
  simp only [enqueue_events]
  split_ifs
  all_goals first
    | rfl
    | exact disciplined_append _ _ _ rfl (enable_i2s_channel_events_ok _ _)

theorem complete_all_mbos_events_ok (i : Nat) (l : List mbo) :
    disciplined false (complete_all_mbos_events i l) = true := by
  induction l with
  | nil => rfl
  | cons m rest ih => exact disciplined_append _ _ _ rfl ih

theorem poison_channel_events_ok (d : hdm_i2s) (c : Int) :
    disciplined false (poison_channel_events d c) = true := by
  unfold poison_channel_events
  split_ifs
  all_goals first
    | rfl
    | exact disciplined_append _ _ _ rfl (complete_all_mbos_events_ok _ _)

/-! ## The traced events account for the changes of the protected fields -/

theorem accounts_same (d e : hdm_i2s) (ev : List LockEvent)
    (h : ∀ j, (e.ch j).pending_list = (d.ch j).pending_list ∧ (e.ch j).ready = (d.ch j).ready ∧
      (e.ch j).fifo_overflow = (d.ch j).fifo_overflow ∧
      (e.ch j).fifo_underflow = (d.ch j).fifo_underflow) : Accounts d e ev := by
  intro j
  obtain ⟨h1, h2, h3, h4⟩ := h j
  exact ⟨fun hn => absurd h1 hn, fun hn => absurd h2 hn, fun hn => hn.elim (absurd h3) (absurd h4)⟩

theorem accounts_refl (d : hdm_i2s) (ev : List LockEvent) : Accounts d d ev :=
  accounts_same d d ev (fun _ => ⟨rfl, rfl, rfl, rfl⟩)

theorem accounts_trans {d e f : hdm_i2s} {a b : List LockEvent}
    (h1 : Accounts d e a) (h2 : Accounts e f b) : Accounts d f (a ++ b) := by
  intro j
  obtain ⟨p1, r1, f1⟩ := h1 j
  obtain ⟨p2, r2, f2⟩ := h2 j
  refine ⟨fun hn => ?_, fun hn => ?_, fun hn => ?_⟩
  · by_cases hm : (e.ch j).pending_list = (d.ch j).pending_list
    · exact List.mem_append_right _ (p2 (fun h => hn (h.trans hm)))
    · exact List.mem_append_left _ (p1 hm)
  · by_cases hm : (e.ch j).ready = (d.ch j).ready
    · exact List.mem_append_right _ (r2 (fun h => hn (h.trans hm)))
    · exact List.mem_append_left _ (r1 hm)
  · by_cases hm : (e.ch j).fifo_overflow = (d.ch j).fifo_overflow ∧
        (e.ch j).fifo_underflow = (d.ch j).fifo_underflow
    · refine List.mem_append_right _ (f2 ?_)
      rcases hn with hn | hn
      · exact Or.inl (fun h => hn (h.trans hm.1))
      · exact Or.inr (fun h => hn (h.trans hm.2))
    · refine List.mem_append_left _ (f1 ?_)
      by_cases ho : (e.ch j).fifo_overflow = (d.ch j).fifo_overflow
      · exact Or.inr (fun h => hm ⟨ho, h⟩)
      · exact Or.inl ho

theorem accounts_upd (d : hdm_i2s) (i : Nat) (f : i2s_channel → i2s_channel)
    (ev : List LockEvent)
    (hp : (f (d.ch i)).pending_list ≠ (d.ch i).pending_list → LockEvent.queue i ∈ ev)
    (hr : (f (d.ch i)).ready ≠ (d.ch i).ready → LockEvent.ready i ∈ ev)
    (hf : (f (d.ch i)).fifo_overflow ≠ (d.ch i).fifo_overflow ∨
      (f (d.ch i)).fifo_underflow ≠ (d.ch i).fifo_underflow → LockEvent.fault i ∈ ev)
    (e : hdm_i2s) (he : e.ch = Function.update d.ch i (f (d.ch i))) : Accounts d e ev := by
  intro j
  rw [he]
  by_cases hj : j = i
  · subst hj
    simpa using ⟨hp, hr, hf⟩
  · simp [hj]

theorem start_data_transfer_accounts (d : hdm_i2s) (i : Nat) :
    Accounts d (start_data_transfer d i).2 (start_data_transfer_events d i) := by
  cases hp : (d.ch i).pending_list with
  | nil => rw [start_data_transfer_nil d i hp]; exact accounts_refl d _
  | cons m rest =>
    have hev : start_data_transfer_events d i =
        [.acquire, .queue i, .ready i, .release] := by
      simp [start_data_transfer_events, hp]
    rw [hev]
    exact accounts_upd d i (fun c => { c with pending_list := rest, ready := false }) _
      (fun _ => by simp) (fun _ => by simp) (fun h => by simp at h) _
      (start_data_transfer_cons d i m rest hp).2.1

theorem prefill_once_accounts (d : hdm_i2s) (i : Nat) :
    Accounts d (prefill_once d i)
      ([.acquire, .ready i, .release] ++
        start_data_transfer_events (upd_ch d i (fun c => { c with ready := true })) i) :=
  accounts_trans
    (accounts_upd d i (fun c => { c with ready := true }) _ (fun h => by simp at h)
      (fun _ => by simp) (fun h => by simp at h) _ rfl)
    (start_data_transfer_accounts _ i)

theorem enable_i2s_channel_accounts (d : hdm_i2s) (i : Nat) :
    Accounts d (enable_i2s_channel d i) (enable_i2s_channel_events d i) := by
  have hr : List.range INITAL_WR_BEFORE_EN = [0, 1] := by decide
  have hlast : ∀ x : hdm_i2s, x.ch = (if (d.ch i).direction = MOST_CH_TX then
      prefill_once (prefill_once d i) i else d).ch →
      Accounts x (enable_i2s_channel d i) [] := by
    intro x hx
    apply accounts_same
    intro j
    rw [(enable_i2s_channel_spec d i).1, ← hx]
    by_cases hj : j = i
    · subst hj; simp
    · simp [hj]
  by_cases htx : (d.ch i).direction = MOST_CH_TX
  · simp only [enable_i2s_channel_events, htx, if_true, hr, List.foldl, List.nil_append]
    have h2 := accounts_trans (accounts_trans (prefill_once_accounts d i)
      (prefill_once_accounts (prefill_once d i) i))
      (hlast (prefill_once (prefill_once d i) i) (by simp [htx]))
    simpa using h2
  · simp only [enable_i2s_channel_events, htx, if_false]
    exact hlast d (by simp [htx])

theorem foldl_accounts (l : List Nat) (g : hdm_i2s → Nat → hdm_i2s)
    (ev : hdm_i2s → Nat → List LockEvent) (h : ∀ d i, Accounts d (g d i) (ev d i))
    (d0 : hdm_i2s) (p : hdm_i2s × List LockEvent) (hp : Accounts d0 p.1 p.2) :
    (l.foldl (fun (q : hdm_i2s × List LockEvent) i => (g q.1 i, q.2 ++ ev q.1 i)) p).1 =
      l.foldl g p.1 ∧
    Accounts d0 (l.foldl g p.1)
      (l.foldl (fun (q : hdm_i2s × List LockEvent) i => (g q.1 i, q.2 ++ ev q.1 i)) p).2 := by
  induction l generalizing p with
  | nil => exact ⟨rfl, hp⟩
  | cons a l ih =>
    simp only [List.foldl]
    exact ih (g p.1 a, p.2 ++ ev p.1 a) (accounts_trans hp (h p.1 a))

theorem i2s_tasklet_fn_accounts (d : hdm_i2s) :
    Accounts d (i2s_tasklet_fn d) (i2s_tasklet_fn_events d) := by
  have hfun : (fun (p : hdm_i2s × List LockEvent) ch_idx =>
      if (p.1.ch ch_idx).ready then
        ((start_data_transfer p.1 ch_idx).2, p.2 ++ start_data_transfer_events p.1 ch_idx)
      else p) =
      (fun (q : hdm_i2s × List LockEvent) i =>
        ((fun e k => if (e.ch k).ready then (start_data_transfer e k).2 else e) q.1 i,
         q.2 ++ (fun e k => if (e.ch k).ready then start_data_transfer_events e k else [])
           q.1 i)) := by
    funext p k
    by_cases h : (p.1.ch k).ready = true <;> simp [h]
  have := (foldl_accounts (List.range DMA_CHANNELS)
    (fun e k => if (e.ch k).ready then (start_data_transfer e k).2 else e)
    (fun e k => if (e.ch k).ready then start_data_transfer_events e k else [])
    (fun e k => by
      by_cases h : (e.ch k).ready = true
      · simpa [h] using start_data_transfer_accounts e k
      · simpa [h] using accounts_refl e [])
    d (d, []) (accounts_refl d [])).2
  simp only [i2s_tasklet_fn, i2s_tasklet_fn_events, hfun]
  exact this

theorem irq_fault_accounts (cs dccr i : Nat) (e : hdm_i2s) :
    Accounts e (irq_overflow cs dccr i e)
      (if cs &&& FIFO_OVERFLOW_INT ≠ 0 then [.acquire, .ready i, .release] else []) ∧
    Accounts e (irq_underflow cs dccr i e)
      (if cs &&& FIFO_UNDERFLOW_INT ≠ 0 then [.acquire, .fault i, .release] else []) := by
  constructor
  · unfold irq_overflow
    split_ifs
    · exact accounts_upd _ i (fun c => { c with ready := true }) _ (fun h => by simp at h)
        (fun _ => by simp) (fun h => by simp at h) _ (by simp)
    · exact accounts_refl _ _
  · unfold irq_underflow
    split_ifs
    · exact accounts_upd _ i (fun c => { c with fifo_underflow := true }) _
        (fun h => by simp at h) (fun h => by simp at h) (fun _ => by simp) _ (by simp)
    · exact accounts_refl _ _

theorem irq_request_accounts (cs i : Nat) (e : hdm_i2s) :
    Accounts e (irq_rx_request cs i e)
      (if cs &&& RX_SERV_REQ_INT ≠ 0 then [.acquire, .ready i, .release] else []) ∧
    Accounts e (irq_tx_request cs i e)
      (if cs &&& TX_SERV_REQ_INT ≠ 0 then [.acquire, .ready i, .release] else []) := by
  constructor
  · unfold irq_rx_request
    split_ifs
    · exact accounts_upd _ i (fun c => { c with ready := true }) _ (fun h => by simp at h)
        (fun _ => by simp) (fun h => by simp at h) _ (by simp)
    · exact accounts_refl _ _
  · unfold irq_tx_request
    split_ifs
    · exact accounts_upd _ i (fun c => { c with ready := true }) _ (fun h => by simp at h)
        (fun _ => by simp) (fun h => by simp at h) _ (by simp)
    · exact accounts_refl _ _

theorem service_ch_irq_accounts (d : hdm_i2s) (i : Nat) :
    Accounts d (service_ch_irq d i) (service_ch_irq_events d i) := by
  rw [service_ch_irq_blocks]
  simp only [service_ch_irq_events]
  exact accounts_trans (accounts_trans (accounts_trans
    (irq_fault_accounts _ _ i d).1 (irq_fault_accounts _ _ i _).2)
    (irq_request_accounts _ i _).1) (irq_request_accounts _ i _).2

theorem i2s_isr_accounts (d : hdm_i2s) : Accounts d (i2s_isr d) (i2s_isr_events d) := by
  have hfun : (fun (p : hdm_i2s × List LockEvent) ch_idx =>
      if read_reg_i2s d REG_DSCR &&& (1 <<< ch_idx) ≠ 0 then
        (service_ch_irq p.1 ch_idx, p.2 ++ service_ch_irq_events p.1 ch_idx)
      else p) =
      (fun (q : hdm_i2s × List LockEvent) k =>
        ((fun e k => if read_reg_i2s d REG_DSCR &&& (1 <<< k) ≠ 0 then service_ch_irq e k
            else e) q.1 k,
         q.2 ++ (fun e k => if read_reg_i2s d REG_DSCR &&& (1 <<< k) ≠ 0 then
            service_ch_irq_events e k else []) q.1 k)) := by
    funext p k
    by_cases h : read_reg_i2s d REG_DSCR &&& (1 <<< k) ≠ 0 <;> simp [h]
  have := (foldl_accounts (List.range DMA_CHANNELS)
    (fun e k => if read_reg_i2s d REG_DSCR &&& (1 <<< k) ≠ 0 then service_ch_irq e k else e)
    (fun e k => if read_reg_i2s d REG_DSCR &&& (1 <<< k) ≠ 0 then service_ch_irq_events e k
      else [])
    (fun e k => by
      by_cases h : read_reg_i2s d REG_DSCR &&& (1 <<< k) ≠ 0
      · simpa [h] using service_ch_irq_accounts e k
      · simpa [h] using accounts_refl e [])
    d (d, []) (accounts_refl d [])).2
  simp only [i2s_isr_events, hfun]
  intro j
  exact this j

theorem enqueue_accounts (d : hdm_i2s) (c : Int) (m : mbo) :
    Accounts d (enqueue d c m).2 (enqueue_events d c m) := by
  have hq : Accounts d
      (upd_ch d c.toNat (fun x => { x with pending_list := x.pending_list ++ [m] }))
      [.acquire, .queue c.toNat, .release] :=
    accounts_upd d c.toNat (fun x => { x with pending_list := x.pending_list ++ [m] }) _
      (fun _ => by simp) (fun h => by simp at h) (fun h => by simp at h) _ rfl
  have hcnt : ∀ x : hdm_i2s, Accounts x
      (upd_ch x c.toNat (fun y => { y with mbo_count := (y.mbo_count + 1) % 256 })) [] :=
    fun x => accounts_upd x c.toNat (fun y => { y with mbo_count := (y.mbo_count + 1) % 256 }) _
      (fun h => by simp at h) (fun h => by simp at h) (fun h => by simp at h) _ rfl
  simp only [enqueue, enqueue_events]
  split_ifs
  all_goals first
    | exact accounts_refl d _
    | exact accounts_trans hq (accounts_refl _ _)
    | exact accounts_trans hq (hcnt _)
    | exact accounts_trans hq (accounts_trans (hcnt _) (enable_i2s_channel_accounts _ _))

theorem complete_all_mbos_events_queue (i : Nat) (l : List mbo) (h : l ≠ []) :
    LockEvent.queue i ∈ complete_all_mbos_events i l := by
  cases l with
  | nil => exact absurd rfl h
  | cons m rest => simp [complete_all_mbos_events]

theorem poison_channel_accounts (d : hdm_i2s) (c : Int) :
    Accounts d (poison_channel d c).2 (poison_channel_events d c) := by
  rcases poison_channel_cases d c with ⟨_, heq⟩ | ⟨_, g0, g8, hi⟩
  · rw [heq]; exact accounts_refl d _
  · have hev : poison_channel_events d c =
        [.acquire, .release] ++ complete_all_mbos_events c.toNat (d.ch c.toNat).pending_list := by
      simp [poison_channel_events, in_range_guard c g0 g8, hi]
    rw [hev]
    refine accounts_upd d c.toNat (fun x => { x with is_initialized := false, pending_list := [] })
      _ (fun h => ?_) (fun h => by simp at h) (fun h => by simp at h) _
      (poison_channel_spec d c g0 g8 hi).2.1
    exact List.mem_append_right _
      (complete_all_mbos_events_queue _ _ (fun hn => h (by simp [hn])))

/-- C23: in the interrupt handler, the tasklet, `enqueue` and
`poison_channel`, on every device and for all arguments, the traced events
keep the lock discipline: every change of a channel's pending list and every
assignment to its ready flag or to a fault flag happens between a
`spin_lock_irqsave(&i2s_lock)` and the matching `spin_unlock_irqrestore` of
the same routine, the lock is never taken while held and is released when the
routine returns. The traced events account for the data: whenever the routine
leaves the pending list, the ready flag or a fault flag of a channel
different from what it was, an event of that kind for that channel is in the
trace. -/
theorem mutations_under_lock (dev : hdm_i2s) (ch_idx : Int) (m : mbo) :
    (disciplined false (i2s_isr_events dev) = true ∧
      Accounts dev (i2s_isr dev) (i2s_isr_events dev)) ∧
    (disciplined false (i2s_tasklet_fn_events dev) = true ∧
      Accounts dev (i2s_tasklet_fn dev) (i2s_tasklet_fn_events dev)) ∧
    (disciplined false (enqueue_events dev ch_idx m) = true ∧
      Accounts dev (enqueue dev ch_idx m).2 (enqueue_events dev ch_idx m)) ∧
    (disciplined false (poison_channel_events dev ch_idx) = true ∧
      Accounts dev (poison_channel dev ch_idx).2 (poison_channel_events dev ch_idx)) :=
  ⟨⟨i2s_isr_events_ok dev, i2s_isr_accounts dev⟩,
   ⟨i2s_tasklet_fn_events_ok dev, i2s_tasklet_fn_accounts dev⟩,
   ⟨enqueue_events_ok dev ch_idx m, enqueue_accounts dev ch_idx m⟩,
   ⟨poison_channel_events_ok dev ch_idx, poison_channel_accounts dev ch_idx⟩⟩

/-- C23 on the sample device: the second `enqueue` on the transmit channel 0
pre-fills, which makes five assignments to protected fields after its own
`list_add_tail`, and the interrupt that reports the Tx service request makes
one; all of them under the lock. -/
theorem mutations_under_lock_witness :
    enqueue_events (enqueue dev_tx0 0 (buf 1)).2 0 (buf 2) =
      [.acquire, .queue 0, .release,
       .acquire, .ready 0, .release, .acquire, .queue 0, .ready 0, .release,
       .acquire, .ready 0, .release, .acquire, .queue 0, .ready 0, .release] ∧
    mutations (i2s_isr_events dev_request0) = 1 ∧
    disciplined false (enqueue_events (enqueue dev_tx0 0 (buf 1)).2 0 (buf 2)) = true ∧
    disciplined false (i2s_isr_events dev_request0) = true :=
  ⟨by decide, by decide,
   (mutations_under_lock (enqueue dev_tx0 0 (buf 1)).2 0 (buf 2)).2.2.1.1,
   (mutations_under_lock dev_request0 0 (buf 2)).1.1⟩

end I2S
